import Mathlib

/-!
# RelayManager: frame packing, serial channel retries and the pulse loop

A shallow embedding of `src/main.c` and `src/virtualComPort.c`.

* Bytes (`char`, `uint8_t`) are natural numbers below 256; a store into a
  narrower integer is written with an explicit `%`.
* C strings are lists of characters without the terminating NUL.
* The operating system (CreateFile, CloseHandle, WriteFile, clock, ...) is an
  oracle `Env` giving the outcome of the k-th call of each primitive; the
  `World` counts the calls made so far and records them in a trace.
* Loops that the C code can execute without bound take a `fuel` budget.
-/

namespace RelayManager

/-! ## Constants (`main.c`, `main.h`, `virtualComPort.h`) -/

def _FRAME_SOH : Nat := 0xff
def _FRAME_RELAY_ON : Nat := 0x01
def _FRAME_RELAY_OFF : Nat := 0x00
def _FRAME_LENGTH : Nat := 3
def _SLEEP_TIME : Nat := 5
def _MAX_OPEN_VCP_TRIES : Nat := 50
def _MAX_CLOSE_VCP_TRIES : Nat := 50
def MAX_TRIES_TO_CREATE_VCP : Nat := 50
def MAX_RELAYS_PER_BOARD : Nat := 8
def MAX_BOARDS_IN_RS485_CHAIN : Nat := 15
def MAX_RELAYS_IN_RS485_CHAIN : Nat := MAX_RELAYS_PER_BOARD * MAX_BOARDS_IN_RS485_CHAIN
def MIN_RELAY_NUMBER : Nat := 1
def BAUD_RATE_DEFAULT : Nat := 9600
def COM_PORT_DEFAULT : Int := 7

/-! ## Frame packing (`main`, lines 116-146) -/

/-- The call `sprintf( buf, "%c%c%c", a, b, c )` on a 4-byte buffer: the three
characters (a NUL included, `%c` prints it) followed by the terminating NUL. -/
def sprintf_ccc (a b c : Nat) : List Nat := [a % 256, b % 256, c % 256, 0]

/-- The buffer `openRelayMess` after line 116. -/
def openRelayMess : List Nat := sprintf_ccc 0xff 0x00 _FRAME_RELAY_ON

/-- The buffer `closeRelayMess` after line 117. -/
def closeRelayMess : List Nat := sprintf_ccc 0xff 0x00 _FRAME_RELAY_OFF

/-- The `n` bytes that `strncpy( dst, src, n )` stores at `dst`: the characters
of `src` up to its first NUL, then NUL padding up to `n` bytes. The end of the
list stands for the NUL that ends the source buffer. -/
def strncpy : List Nat → Nat → List Nat
  | _, 0 => []
  | [], n + 1 => List.replicate (n + 1) 0
  | c :: cs, n + 1 => if c = 0 then List.replicate (n + 1) 0 else c :: strncpy cs n

/-- Store `bytes` into the block `buf` from offset `off` on; `none` when the
store leaves the block (undefined behaviour in C). -/
def storeBytes (buf : List Nat) (off : Nat) (bytes : List Nat) : Option (List Nat) :=
  if off + bytes.length ≤ buf.length then
    some (buf.take off ++ bytes ++ buf.drop (off + bytes.length))
  else none

/-- The bytes copied into a batch for relay byte `r` (lines 127-129 and
141-143): `relayMess[1] = r`, then `strncpy( .., relayMess, _FRAME_LENGTH )`.
Returns the updated frame buffer and the bytes stored. -/
def packFrame (relayMess : List Nat) (r : Nat) : List Nat × List Nat :=
  let relayMess1 := relayMess.set 1 (r % 256)
  (relayMess1, strncpy relayMess1 _FRAME_LENGTH)

/-- One iteration `i` of the loop at lines 125-130 (and 139-144). The state is
the frame buffer and the batch; `none` is undefined behaviour: a read of
`_relays[i]` outside the block or from a cell never written, or a store
outside the batch. -/
def msgStep (relays : List (Option Nat)) (st : Option (List Nat × List Nat)) (i : Nat) :
    Option (List Nat × List Nat) :=
  match st with
  | none => none
  | some (relayMess, msg) =>
    match relays.getD i none with
    | none => none
    | some r =>
      match storeBytes msg (i * _FRAME_LENGTH) (packFrame relayMess r).2 with
      | none => none
      | some msg1 => some ((packFrame relayMess r).1, msg1)

/-- The body of one of the two `if` blocks at lines 120-146: `malloc` of
`_FRAME_LENGTH * _numOfRelays` bytes, `memset` to 0, then the loop
`for( uint8_t i = 0; i < _numOfRelays; i++ )`. -/
def buildMsg (relayMess : List Nat) (relays : List (Option Nat)) (numOfRelays : Nat) :
    Option (List Nat × List Nat) :=
  (List.range numOfRelays).foldl (msgStep relays)
    (some (relayMess, List.replicate (_FRAME_LENGTH * numOfRelays) 0))

/-- The wire frame of the data model: `[0xFF, relayIndex, stateByte]`. -/
def frameOf (stateByte : Nat) (r : Nat) : List Nat := [0xff, r, stateByte]

/-! ## The operating system seen by the program -/

/-- The section of the pulse loop a call of `main` belongs to: "OPEN RELAY/S"
(lines 156-175) or "CLOSE RELAY/S" (lines 192-211). -/
inductive Phase where
  | openRelays
  | closeRelays
  deriving DecidableEq, Repr

/-- What happens during a run, in order. The first group are calls of
operating-system primitives with their outcome; the second group records the
calls made by `main` in the pulse loop with the value they returned, the exit
of the wait loop and the value stored by `_impulses--`. -/
inductive Event where
  | CreateFile (valid : Bool)
  | FlushFileBuffers
  | CloseHandle (ok : Bool)
  | WriteFile (data : List Nat) (written : Option Nat)
  | Sleep (ms : Nat)
  | clock (t : Int)
  | GetCommState (ok : Bool)
  | SetCommState (baudRate byteSize stopBits parity : Nat) (ok : Bool)
  | SetCommTimeouts (ok : Bool)
  | tryOpenVCP (p : Phase) (r : Bool)
  | sendFrameVCP (p : Phase) (msg : List Nat) (r : Bool)
  | tryCloseVCP (p : Phase) (r : Bool)
  | waitDone
  | impulses (v : Nat)
  deriving DecidableEq, Repr

/-- The outcome of the k-th call of each operating-system primitive.
`CreateFile k = true` is a valid handle, `WriteFile k = none` an error and
`some b` a write that accepted `b` bytes, `clock k` the k-th reading. -/
structure Env where
  CreateFile : Nat → Bool
  CloseHandle : Nat → Bool
  WriteFile : Nat → Option Nat
  GetCommState : Nat → Bool
  SetCommState : Nat → Bool
  SetCommTimeouts : Nat → Bool
  clock : Nat → Int

/-- Number of calls made so far of each primitive, and the trace. -/
structure World where
  nCreateFile : Nat := 0
  nCloseHandle : Nat := 0
  nWriteFile : Nat := 0
  nGetCommState : Nat := 0
  nSetCommState : Nat := 0
  nSetCommTimeouts : Nat := 0
  nClock : Nat := 0
  trace : List Event := []
  deriving DecidableEq, Repr

/-- Result of running a piece of the program: it finished with a value, the
process was ended by `exit`, the behaviour is undefined in C, or the loop
budget ran out with the program still running. -/
inductive Res (α : Type) where
  | ok (a : α)
  | exited (code : Int) (w : World)
  | undef
  | running (w : World)
  deriving DecidableEq, Repr

/-- Sequencing: a result that is not `ok` ends the run. -/
def Res.bind {α β : Type} (x : Res α) (f : α → Res β) : Res β :=
  match x with
  | Res.ok a => f a
  | Res.exited c w => Res.exited c w
  | Res.undef => Res.undef
  | Res.running w => Res.running w

/-- Append an event to the trace. -/
def World.log (w : World) (e : Event) : World := { w with trace := w.trace ++ [e] }

def CreateFile (env : Env) (w : World) : Bool × World :=
  (env.CreateFile w.nCreateFile,
    { w with nCreateFile := w.nCreateFile + 1,
             trace := w.trace ++ [Event.CreateFile (env.CreateFile w.nCreateFile)] })

def FlushFileBuffers (w : World) : World := w.log Event.FlushFileBuffers

def CloseHandle (env : Env) (w : World) : Bool × World :=
  (env.CloseHandle w.nCloseHandle,
    { w with nCloseHandle := w.nCloseHandle + 1,
             trace := w.trace ++ [Event.CloseHandle (env.CloseHandle w.nCloseHandle)] })

/-- The call `WriteFile( h, buffer, nNumberOfBytesToWrite, &bytesWritten, NULL )`.
`none` is a failed call (it stores 0 in `bytesWritten`), `some b` a successful
one that wrote `b` bytes, never more than it was asked to write. -/
def WriteFile (env : Env) (buffer : List Nat) (nNumberOfBytesToWrite : Nat) (w : World) :
    Option Nat × World :=
  ((env.WriteFile w.nWriteFile).map (fun b => min b nNumberOfBytesToWrite),
    { w with nWriteFile := w.nWriteFile + 1,
             trace := w.trace ++ [Event.WriteFile (buffer.take nNumberOfBytesToWrite)
               ((env.WriteFile w.nWriteFile).map (fun b => min b nNumberOfBytesToWrite))] })

def Sleep (ms : Nat) (w : World) : World := w.log (Event.Sleep ms)

def clock (env : Env) (w : World) : Int × World :=
  (env.clock w.nClock,
    { w with nClock := w.nClock + 1, trace := w.trace ++ [Event.clock (env.clock w.nClock)] })

def GetCommState (env : Env) (w : World) : Bool × World :=
  (env.GetCommState w.nGetCommState,
    { w with nGetCommState := w.nGetCommState + 1,
             trace := w.trace ++ [Event.GetCommState (env.GetCommState w.nGetCommState)] })

def SetCommState (env : Env) (baudRate byteSize stopBits parity : Nat) (w : World) :
    Bool × World :=
  (env.SetCommState w.nSetCommState,
    { w with nSetCommState := w.nSetCommState + 1,
             trace := w.trace ++ [Event.SetCommState baudRate byteSize stopBits parity
               (env.SetCommState w.nSetCommState)] })

def SetCommTimeouts (env : Env) (w : World) : Bool × World :=
  (env.SetCommTimeouts w.nSetCommTimeouts,
    { w with nSetCommTimeouts := w.nSetCommTimeouts + 1,
             trace := w.trace ++ [Event.SetCommTimeouts (env.SetCommTimeouts w.nSetCommTimeouts)] })

/-- The bytes that went out on the serial line: what the successful writes of
the trace accepted. -/
def wire : List Event → List Nat
  | [] => []
  | Event.WriteFile data (some b) :: t => data.take b ++ wire t
  | _ :: t => wire t

/-! ## The serial channel (`virtualComPort.c`) -/

/-- The fields of `vcp_t` and of its `DCB` and `COMMTIMEOUTS` that the program
writes. A fresh object holds indeterminate values, shown here as 0. -/
structure Vcp where
  hSerial : Bool := false
  number : Int := 0
  name : Int := 0
  BaudRate : Nat := 0
  ByteSize : Nat := 0
  StopBits : Nat := 0
  Parity : Nat := 0
  ReadIntervalTimeout : Nat := 0
  ReadTotalTimeoutConstant : Nat := 0
  ReadTotalTimeoutMultiplier : Nat := 0
  WriteTotalTimeoutConstant : Nat := 0
  WriteTotalTimeoutMultiplier : Nat := 0
  deriving DecidableEq, Repr

/-- `openVCP` (lines 97-118): true when `CreateFile` gave a valid handle. -/
def openVCP (env : Env) (w : World) : Bool × World := CreateFile env w

/-- `closeVCP` (lines 128-142): flush, then true when `CloseHandle` succeeded. -/
def closeVCP (env : Env) (w : World) : Bool × World := CloseHandle env (FlushFileBuffers w)

/-- The loop of `sendFrameVCP` (lines 159-169) from the state
`(bytesWritten, totalBytesWritten)`; both are `DWORD`s. -/
def sendLoop (env : Env) (message : List Nat) (frameLength : Nat) :
    Nat → Nat → Nat → World → Res (Nat × Nat × World)
  | 0, bytesWritten, totalBytesWritten, w =>
    if totalBytesWritten < frameLength then Res.running w
    else Res.ok (bytesWritten, totalBytesWritten, w)
  | fuel + 1, bytesWritten, totalBytesWritten, w =>
    if totalBytesWritten < frameLength then
      match WriteFile env (message.drop totalBytesWritten)
          ((frameLength - totalBytesWritten) % 2 ^ 32) w with
      | (none, w1) => sendLoop env message frameLength fuel 0 totalBytesWritten w1
      | (some b, w1) =>
        sendLoop env message frameLength fuel b ((totalBytesWritten + b) % 2 ^ 32) w1
    else Res.ok (bytesWritten, totalBytesWritten, w)

/-- `sendFrameVCP` (lines 154-176): the loop, then the test
`bytesWritten != frameLength`. -/
def sendFrameVCP (env : Env) (fuel : Nat) (message : List Nat) (frameLength : Nat) (w : World) :
    Res (Bool × World) :=
  (sendLoop env message frameLength fuel 0 0 w).bind fun (bytesWritten, _, w1) =>
    if bytesWritten ≠ frameLength then Res.ok (false, w1) else Res.ok (true, w1)

/-- The loop of `tryOpenVCP` (lines 191-200); `triesToOpen` is a `uint8_t`. -/
def tryOpenLoop (env : Env) (maxNtries : Nat) : Nat → Nat → World → Res (Bool × World)
  | 0, _, w => Res.running w
  | fuel + 1, triesToOpen, w =>
    match openVCP env w with
    | (true, w1) => Res.ok (true, w1)
    | (false, w1) =>
      if (triesToOpen + 1) % 256 ≥ maxNtries then Res.ok (false, Sleep 50 w1)
      else tryOpenLoop env maxNtries fuel ((triesToOpen + 1) % 256) (Sleep 50 w1)

/-- `tryOpenVCP` (lines 187-202). `maxNtries` is a `uint8_t` parameter. The
counter reaches `maxNtries` within 256 iterations, so the budget of 256 is
never exhausted (`tryOpenVCP_returns`). -/
def tryOpenVCP (env : Env) (maxNtries : Nat) (w : World) : Res (Bool × World) :=
  tryOpenLoop env (maxNtries % 256) 256 0 w

/-- The loop of `tryCloseVCP` (lines 217-226). -/
def tryCloseLoop (env : Env) (maxNtries : Nat) : Nat → Nat → World → Res (Bool × World)
  | 0, _, w => Res.running w
  | fuel + 1, triesToClose, w =>
    match closeVCP env w with
    | (true, w1) => Res.ok (true, w1)
    | (false, w1) =>
      if (triesToClose + 1) % 256 ≥ maxNtries then Res.ok (false, Sleep 50 w1)
      else tryCloseLoop env maxNtries fuel ((triesToClose + 1) % 256) (Sleep 50 w1)

/-- `tryCloseVCP` (lines 213-228), as `tryOpenVCP`. -/
def tryCloseVCP (env : Env) (maxNtries : Nat) (w : World) : Res (Bool × World) :=
  tryCloseLoop env (maxNtries % 256) 256 0 w

/-- `_setConnectionParameters` (lines 240-274). Returns the `int` result, the
updated object and the world. `ONESTOPBIT` and `NOPARITY` are 0. -/
def _setConnectionParameters (env : Env) (vcp : Vcp) (w : World) : Int × Vcp × World :=
  match GetCommState env w with
  | (false, w1) => (1, vcp, (CloseHandle env w1).2)
  | (true, w1) =>
    let vcp1 := { vcp with BaudRate := BAUD_RATE_DEFAULT, ByteSize := 8, StopBits := 0,
                           Parity := 0 }
    match SetCommState env vcp1.BaudRate vcp1.ByteSize vcp1.StopBits vcp1.Parity w1 with
    | (false, w2) => (1, vcp1, (CloseHandle env w2).2)
    | (true, w2) =>
      let vcp2 := { vcp1 with ReadIntervalTimeout := 50, ReadTotalTimeoutConstant := 50,
                              ReadTotalTimeoutMultiplier := 10, WriteTotalTimeoutConstant := 50,
                              WriteTotalTimeoutMultiplier := 10 }
      match SetCommTimeouts env w2 with
      | (false, w3) => (1, vcp2, (closeVCP env w3).2)
      | (true, w3) => (0, vcp2, w3)

/-- The loop of `createVCP` (lines 46-76) from the value `tries` of the
`uint8_t` counter; returns the counter and the object at the `break`. The test
`tries >= 0` compares the promoted value of an unsigned byte, which is never
negative, and `tries--` wraps from 0 to 255. -/
def createLoop (env : Env) (portNum : Int) : Nat → Nat → Vcp → World → Res (Nat × Vcp × World)
  | 0, tries, vcp, w => if tries ≥ 0 then Res.running w else Res.ok (tries, vcp, w)
  | fuel + 1, tries, vcp, w =>
    if tries ≥ 0 then
      match CreateFile env w with
      | (false, w1) =>
        createLoop env portNum fuel ((tries + 256 - 1) % 256)
          { vcp with name := portNum, hSerial := false } (Sleep 50 w1)
      | (true, w1) =>
        let r := _setConnectionParameters env
          { name := portNum, hSerial := true, number := portNum } w1
        Res.ok (tries, r.2.1, r.2.2)
    else Res.ok (tries, vcp, w)

/-- `createVCP` (lines 40-87): the loop, the test `tries < 0` that ends the
process with `exit(0)`, then `CloseHandle` and the return of the object. -/
def createVCP (env : Env) (fuel : Nat) (portNum : Int) (w : World) : Res (Vcp × World) :=
  (createLoop env portNum fuel (MAX_TRIES_TO_CREATE_VCP % 256) {} w).bind fun (tries, vcp, w1) =>
    if tries < 0 then Res.exited 0 w1
    else Res.ok (vcp, (CloseHandle env w1).2)

/-! ## Command line (`main.c`, `parseArgs` and its helpers) -/

def ARG_RELAY_NUM : List Char := "-relay".toList
def ARG_OPEN_TIME : List Char := "-openTime".toList
def ARG_IMPULSES : List Char := "-impulses".toList
def ARG_RELAY_STATE : List Char := "-state".toList
def ARG_BAUD_RATE : List Char := "-baudRate".toList
def ARG_COM_PORT : List Char := "-comPort".toList

/-- The values of `relayModality_t`. -/
def _errorRelay : Int := -1
def _singleRelay : Int := 1
def _rangeRelays : Int := 2
def _groupRelays : Int := 3

/-- The file-scope variables of `main.c` (lines 40-64) with their initial
values. `_relays` is the block the pointer addresses, cell by cell: `none` is
a cell that `malloc` returned and nothing has written yet, and the empty list
is the NULL pointer or a block of size 0. The two message pointers are `none`
while they are NULL. -/
structure Globals where
  _baudrate : Int := BAUD_RATE_DEFAULT
  _comPortNumber : Int := COM_PORT_DEFAULT
  _relayBegin : Nat := 0
  _relayEnd : Nat := 0
  _numOfRelays : Nat := 0
  _openTime : Nat := 0
  _impulses : Nat := 1
  _relayState : List Char := []
  _singleRelayFlag : Bool := false
  _rangeRelayFlag : Bool := false
  _multiRelayFlag : Bool := false
  _stateFlag : Bool := false
  _openTimeFlag : Bool := false
  _impulsesFlag : Bool := false
  _relays : List (Option Nat) := []
  _rs485OpenMsg : Option (List Nat) := none
  _rs485CloseMsg : Option (List Nat) := none
  deriving DecidableEq, Repr

def isdigit (c : Char) : Bool := decide (48 ≤ c.toNat) && decide (c.toNat ≤ 57)

def isspace (c : Char) : Bool := decide (c.toNat = 32) || (decide (9 ≤ c.toNat) && decide (c.toNat ≤ 13))

/-- The value of `c - '0'`, an `int`. -/
def digitValue (c : Char) : Int := (c.toNat : Int) - 48

def atoiDigits : List Char → Int → Int
  | [], acc => acc
  | c :: cs, acc => if isdigit c then atoiDigits cs (10 * acc + digitValue c) else acc

/-- The library function `atoi`: leading white space, an optional sign, then
decimal digits. A value outside the range of `int` is undefined in C; the
model gives the mathematical value. -/
def atoi (s : List Char) : Int :=
  match s.dropWhile isspace with
  | [] => 0
  | c :: cs =>
    if c = '-' then - atoiDigits cs 0
    else if c = '+' then atoiDigits cs 0
    else atoiDigits (c :: cs) 0

/-- The loop of `relayModality` (lines 451-524) over the characters of the
argument, from the locals `returnValue`, `numberFound` (a `uint32_t`) and
`newNumberFlag`. The pointer `numberOfRelays` addresses `_numOfRelays`, so the
test `numberOfRelays == 0` at line 489 compares a non-null pointer with 0 and
is never true. -/
def relayModalityLoop : List Char → Int → Nat → Bool → Globals → Int × Globals
  | [], returnValue, _, _, g => (returnValue, g)
  | c :: cs, returnValue, numberFound, newNumberFlag, g =>
    if !(isdigit c || c = ':' || c = ',') then (_errorRelay, g)
    else if c = ':' then
      if g._numOfRelays = 0 then (_errorRelay, g)
      else if g._rangeRelayFlag then (_errorRelay, g)
      else if g._multiRelayFlag then (_errorRelay, g)
      else relayModalityLoop cs _rangeRelays numberFound false { g with _rangeRelayFlag := true }
    else if c = ',' then
      if false then (_errorRelay, g)
      else if g._rangeRelayFlag then (_errorRelay, g)
      else
        relayModalityLoop cs (if !g._multiRelayFlag then _groupRelays else returnValue)
          numberFound false { g with _multiRelayFlag := true }
    else
      let numOfRelays1 := if !newNumberFlag then (g._numOfRelays + 1) % 256 else g._numOfRelays
      let numberFound0 := if !newNumberFlag then 0 else numberFound
      let numberFound1 := ((10 * (numberFound0 : Int) + digitValue c) % 2 ^ 32).toNat
      relayModalityLoop cs returnValue numberFound1 true
        (if numOfRelays1 = 1 then
          { g with _numOfRelays := numOfRelays1, _relayBegin := numberFound1 % 256 }
         else { g with _numOfRelays := numOfRelays1, _relayEnd := numberFound1 % 256 })

/-- `relayModality( relayArgument, &_numOfRelays )` (lines 446-526). -/
def relayModality (relayArgument : List Char) (g : Globals) : Int × Globals :=
  relayModalityLoop relayArgument _singleRelay 0 false g

/-- The loop of `_fillRelaysGroup` (lines 544-567) from the locals
`arrayIndex` (a `uint8_t`), `numberFound` (a `uint32_t`) and `newNumberFlag`;
`none` when `array[arrayIndex-1]` is outside the block. The range test at
line 559 only prints a message. -/
def fillRelaysGroupLoop : List Char → Nat → Nat → Bool → List (Option Nat) →
    Option (List (Option Nat))
  | [], _, _, _, array => some array
  | c :: cs, arrayIndex, numberFound, newNumberFlag, array =>
    if c = ',' then fillRelaysGroupLoop cs arrayIndex numberFound false array
    else
      let arrayIndex1 := if !newNumberFlag then (arrayIndex + 1) % 256 else arrayIndex
      let numberFound0 := if !newNumberFlag then 0 else numberFound
      let numberFound1 := ((10 * (numberFound0 : Int) + digitValue c) % 2 ^ 32).toNat
      if 1 ≤ arrayIndex1 ∧ arrayIndex1 - 1 < array.length then
        fillRelaysGroupLoop cs arrayIndex1 numberFound1 true
          (array.set (arrayIndex1 - 1) (some (numberFound1 % 256)))
      else none

/-- `_fillRelaysGroup( relayArgument, array, size )` (lines 538-568); the block
`array` has `size` cells. -/
def _fillRelaysGroup (relayArgument : List Char) (array : List (Option Nat)) :
    Option (List (Option Nat)) :=
  fillRelaysGroupLoop relayArgument 0 0 false array

/-- The loop `for( uint8_t i = _relayBegin; i <= _relayEnd; i++ )` at lines
290-293 from the value `i`; `none` when `_relays[i-_relayBegin]` is outside the
block. When `_relayEnd` is 255 the counter wraps and the next store is outside
the block, so 257 iterations are never completed. -/
def fillRangeLoop (relayBegin relayEnd : Nat) : Nat → Nat → List (Option Nat) →
    Option (List (Option Nat))
  | 0, _, _ => none
  | fuel + 1, i, relays =>
    if i ≤ relayEnd then
      if relayBegin ≤ i ∧ i - relayBegin < relays.length then
        fillRangeLoop relayBegin relayEnd fuel ((i + 1) % 256)
          (relays.set (i - relayBegin) (some i))
      else none
    else some relays

/-- The body of the `-relay` branch once the value is present (lines
267-299). Returns `some code` when `parseArgs` returns `code` there, and
`none` as the whole result when the behaviour is undefined. -/
def relayCase (v : List Char) (g : Globals) : Option (Option Int × Globals) :=
  let modality := (relayModality v g).1
  let g1 := (relayModality v g).2
  if modality = _errorRelay then some (some (-1), g1)
  else if modality = _singleRelay then
    if 0 < g1._numOfRelays then
      some (none, { g1 with _singleRelayFlag := true, _relayEnd := g1._relayBegin,
                            _relays := (List.replicate g1._numOfRelays none).set 0
                              (some g1._relayBegin) })
    else none
  else if modality = _rangeRelays then
    if g1._relayEnd ≤ g1._relayBegin then some (some (-1), g1)
    else
      match fillRangeLoop g1._relayBegin g1._relayEnd 257 g1._relayBegin
          (List.replicate ((g1._relayEnd - g1._relayBegin + 1) % 256) none) with
      | none => none
      | some relays =>
        some (none, { g1 with _numOfRelays := (g1._relayEnd - g1._relayBegin + 1) % 256,
                              _relays := relays })
  else if modality = _groupRelays then
    match _fillRelaysGroup v (List.replicate g1._numOfRelays none) with
    | none => none
    | some relays => some (none, { g1 with _relays := relays })
  else some (none, g1)

/-- The loop of `parseArgs` (lines 259-425) over the arguments not yet read,
then the final test (lines 427-434). `argn` is the index of the first of them.
`none` is undefined behaviour: a store outside `_relays`, or `strcpy` of more
than 3 characters into `_relayState`. -/
def parseLoop : List (List Char) → Int → Globals → Option (Int × Globals)
  | [], argn, g =>
    if g._impulsesFlag && !g._openTimeFlag then some (-1, g) else some (argn - 1, g)
  | arg :: rest, argn, g =>
    if arg = ARG_RELAY_NUM then
      match rest with
      | [] => some (1, g)
      | v :: rest1 =>
        match relayCase v g with
        | none => none
        | some (some code, g1) => some (code, g1)
        | some (none, g1) => parseLoop rest1 (argn + 2) g1
    else if arg = ARG_OPEN_TIME then
      if g._stateFlag then some (-1, g)
      else
        match rest with
        | [] => some (-1, g)
        | v :: rest1 =>
          parseLoop rest1 (argn + 2)
            { g with _openTime := (atoi v % 65536).toNat, _openTimeFlag := true }
    else if arg = ARG_IMPULSES then
      match rest with
      | [] => some (1, g)
      | v :: rest1 =>
        if (((atoi v % 256).toNat : Nat) : Int) < 0 then
          some (1, { g with _impulses := (atoi v % 256).toNat })
        else
          parseLoop rest1 (argn + 2)
            { g with _impulses := (atoi v % 256).toNat, _impulsesFlag := true }
    else if arg = ARG_BAUD_RATE then
      match rest with
      | [] => some (1, g)
      | v :: rest1 =>
        if atoi v > 0 then parseLoop rest1 (argn + 2) { g with _baudrate := atoi v }
        else some (1, { g with _baudrate := atoi v })
    else if arg = ARG_COM_PORT then
      match rest with
      | [] => some (1, g)
      | v :: rest1 => parseLoop rest1 (argn + 2) { g with _comPortNumber := atoi v }
    else if arg = ARG_RELAY_STATE then
      match rest with
      | [] => some (-1, g)
      | v :: rest1 =>
        if !g._openTimeFlag then
          if 3 < v.length then none
          else if v = "on".toList || v = "off".toList then
            parseLoop rest1 (argn + 2) { g with _relayState := v, _stateFlag := true }
          else some (-1, { g with _relayState := v })
        else some (-1, g)
    else some (-1, g)

/-- `parseArgs( argc, argv )` (lines 233-435); `argc` is the length of `argv`
and `argv[0]` the program name. -/
def parseArgs (argv : List (List Char)) (g : Globals) : Option (Int × Globals) :=
  if argv.length = 1 then some (1, g) else parseLoop (argv.drop 1) 1 g

/-! ## The pulse loop (`main`, lines 107-220) -/

/-- The condition of lines 120 and 156. -/
def openCond (g : Globals) : Bool :=
  g._openTimeFlag || (g._stateFlag && decide (g._relayState = "on".toList))

/-- The condition of lines 134 and 192. -/
def closeCond (g : Globals) : Bool :=
  g._openTimeFlag || (g._stateFlag && decide (g._relayState = "off".toList))

/-- Lines 116-146: the two batches are built, each under its condition. -/
def buildBatches (g : Globals) : Option Globals :=
  match (if openCond g then
          (buildMsg openRelayMess g._relays g._numOfRelays).map
            (fun r => { g with _rs485OpenMsg := some r.2 })
        else some g) with
  | none => none
  | some g1 =>
    if closeCond g1 then
      (buildMsg closeRelayMess g1._relays g1._numOfRelays).map
        (fun r => { g1 with _rs485CloseMsg := some r.2 })
    else some g1

/-- Lines 156-175. Returns `some code` when `main` returns `code` in this
section, and the value of `startTime`. The message pointer is not NULL when
the condition holds, because the same condition guards its allocation. -/
def openRelaysPhase (env : Env) (fuel : Nat) (g : Globals) (startTime : Int) (w : World) :
    Res (Option Int × Int × World) :=
  if openCond g then
    (tryOpenVCP env _MAX_OPEN_VCP_TRIES w).bind fun (opened, w1) =>
      if !opened then
        Res.ok (some (-1), startTime, w1.log (Event.tryOpenVCP Phase.openRelays false))
      else
        (sendFrameVCP env fuel (g._rs485OpenMsg.getD []) (g._numOfRelays * 3)
            (w1.log (Event.tryOpenVCP Phase.openRelays true))).bind fun (sent, w2) =>
          (tryCloseVCP env _MAX_CLOSE_VCP_TRIES
              (clock env (w2.log (Event.sendFrameVCP Phase.openRelays
                (g._rs485OpenMsg.getD []) sent))).2).bind fun (closed, w4) =>
            if !closed then
              Res.ok (some (-1),
                (clock env (w2.log (Event.sendFrameVCP Phase.openRelays
                  (g._rs485OpenMsg.getD []) sent))).1,
                w4.log (Event.tryCloseVCP Phase.openRelays false))
            else
              Res.ok (none,
                (clock env (w2.log (Event.sendFrameVCP Phase.openRelays
                  (g._rs485OpenMsg.getD []) sent))).1,
                w4.log (Event.tryCloseVCP Phase.openRelays true))
  else Res.ok (none, startTime, w)

/-- The loop `while( clock() - startTime < _openTime )` at lines 182-185. -/
def waitLoop (env : Env) (openTime : Nat) (startTime : Int) : Nat → World → Res World
  | 0, w => Res.running w
  | fuel + 1, w =>
    if (clock env w).1 - startTime < (openTime : Int) then
      waitLoop env openTime startTime fuel (Sleep _SLEEP_TIME (clock env w).2)
    else Res.ok (clock env w).2

/-- Lines 180-186. -/
def waitPhase (env : Env) (fuel : Nat) (g : Globals) (startTime : Int) (w : World) :
    Res World :=
  if g._openTimeFlag then
    (waitLoop env g._openTime startTime fuel w).bind fun w1 => Res.ok (w1.log Event.waitDone)
  else Res.ok w

/-- Lines 192-211. Returns `some code` when `main` returns `code` in this
section. -/
def closeRelaysPhase (env : Env) (fuel : Nat) (g : Globals) (w : World) :
    Res (Option Int × World) :=
  if closeCond g then
    (tryOpenVCP env _MAX_OPEN_VCP_TRIES w).bind fun (opened, w1) =>
      if !opened then
        Res.ok (some (-1), w1.log (Event.tryOpenVCP Phase.closeRelays false))
      else
        (sendFrameVCP env fuel (g._rs485CloseMsg.getD []) (g._numOfRelays * 3)
            (w1.log (Event.tryOpenVCP Phase.closeRelays true))).bind fun (sent, w2) =>
          (tryCloseVCP env _MAX_CLOSE_VCP_TRIES
              (w2.log (Event.sendFrameVCP Phase.closeRelays
                (g._rs485CloseMsg.getD []) sent))).bind fun (closed, w3) =>
            if !closed then
              Res.ok (some (-1), w3.log (Event.tryCloseVCP Phase.closeRelays false))
            else Res.ok (none, w3.log (Event.tryCloseVCP Phase.closeRelays true))
  else Res.ok (none, w)

/-- The loop `while( _impulses > 0 )` at lines 150-214 from the value of
`_impulses`, then lines 215-219. Returns the value `main` returns and the
final value of `_impulses`. -/
def pulseLoop (env : Env) (fuel : Nat) (g : Globals) : Nat → Int → World →
    Res (Int × Nat × World)
  | 0, _, w => Res.ok (0, 0, w)
  | impulses + 1, startTime, w =>
    (openRelaysPhase env fuel g startTime w).bind fun r1 =>
      match r1.1 with
      | some code => Res.ok (code, impulses + 1, r1.2.2)
      | none =>
        (waitPhase env fuel g r1.2.1 r1.2.2).bind fun w2 =>
          (closeRelaysPhase env fuel g w2).bind fun r3 =>
            match r3.1 with
            | some code => Res.ok (code, impulses + 1, r3.2)
            | none => pulseLoop env fuel g impulses r1.2.1 (r3.2.log (Event.impulses impulses))

/-- `main` from line 107 on, for the variables `g` left by an accepted command
line: `createVCP`, the batches, the pulse loop. -/
def mainFrom (env : Env) (fuel : Nat) (g : Globals) (w : World) : Res (Int × Globals × World) :=
  (createVCP env fuel g._comPortNumber w).bind fun r =>
    match buildBatches g with
    | none => Res.undef
    | some g1 =>
      (pulseLoop env fuel g1 g1._impulses 0 r.2).bind fun r2 =>
        Res.ok (r2.1, { g1 with _impulses := r2.2.1 }, r2.2.2)

/-- `main( argc, argv )` (lines 83-220): the value it returns, the final
variables and the world. -/
def main (env : Env) (fuel : Nat) (argv : List (List Char)) : Res (Int × Globals × World) :=
  match parseArgs argv {} with
  | none => Res.undef
  | some (ret, g) =>
    if ret < 4 then Res.ok (-1, g, {})
    else mainFrom env fuel g {}

/-- The events recorded by `main` itself in the pulse loop. -/
def Event.isMain : Event → Bool
  | Event.tryOpenVCP _ _ => true
  | Event.sendFrameVCP _ _ _ => true
  | Event.tryCloseVCP _ _ => true
  | Event.waitDone => true
  | Event.impulses _ => true
  | _ => false

/-- The trace reached by a run, also when it is still running. -/
def runTrace : Res (Int × Globals × World) → List Event
  | Res.ok r => r.2.2.trace
  | Res.exited _ w => w.trace
  | Res.undef => []
  | Res.running w => w.trace

/-- The calls of `main` in a trace: the trace without the operating-system
events. -/
def mainEvents (t : List Event) : List Event := t.filter Event.isMain

/-- The value `main` returned, if it returned. -/
def runCode : Res (Int × Globals × World) → Option Int
  | Res.ok r => some r.1
  | _ => none

/-- The main-level events of one complete cycle of timed pulse mode that
leaves the value `v` in `_impulses`: open, send the ON batch, close, wait,
open, send the OFF batch, close, decrement. -/
def pulseCycle (onMsg offMsg : List Nat) (v : Nat) : List Event :=
  [Event.tryOpenVCP Phase.openRelays true,
   Event.sendFrameVCP Phase.openRelays onMsg true,
   Event.tryCloseVCP Phase.openRelays true,
   Event.waitDone,
   Event.tryOpenVCP Phase.closeRelays true,
   Event.sendFrameVCP Phase.closeRelays offMsg true,
   Event.tryCloseVCP Phase.closeRelays true,
   Event.impulses v]

/-- The main-level events of `n` complete cycles: the counter goes from `n`
down to 0. -/
def pulseCycles (onMsg offMsg : List Nat) : Nat → List Event
  | 0 => []
  | n + 1 => pulseCycle onMsg offMsg n ++ pulseCycles onMsg offMsg n

/-- The world `w'` continues the trace of `w`, and the calls of `main` among
the added events are `m`. -/
def Extends (w w' : World) (m : List Event) : Prop :=
  ∃ evs, w'.trace = w.trace ++ evs ∧ mainEvents evs = m

/-- A call of `tryOpenVCP` or `tryCloseVCP` by `main` that returned false. -/
def Event.isFail : Event → Bool
  | Event.tryOpenVCP _ false => true
  | Event.tryCloseVCP _ false => true
  | _ => false

/-- The record of `_impulses--`. -/
def Event.isDecr : Event → Bool
  | Event.impulses _ => true
  | _ => false

/-- Number of times `_impulses--` was executed in a list of events. -/
def decrs (m : List Event) : Nat := (m.filter Event.isDecr).length

/-- No call of `tryOpenVCP` or `tryCloseVCP` in `m` returned false. -/
def Clean (m : List Event) : Prop := ∀ e ∈ m, e.isFail = false

/-- No failed open or close and no decrement of the counter in `m`. -/
def Quiet (m : List Event) : Prop := Clean m ∧ decrs m = 0

/-- The variables that select the mode of the run, and the two message
pointers. -/
def modeOf (g : Globals) :
    Bool × Bool × Bool × Nat × List Char × Option (List Nat) × Option (List Nat) :=
  (g._stateFlag, g._openTimeFlag, g._impulsesFlag, g._impulses, g._relayState,
    g._rs485OpenMsg, g._rs485CloseMsg)

/-- What `parseArgs` maintains: with `_stateFlag` set, `_openTimeFlag` is clear
and `_relayState` is "on" or "off"; `_impulses` is 1 until `-impulses` is
read; the message pointers are NULL. -/
def ModeInv (g : Globals) : Prop :=
  (g._stateFlag = true →
    g._openTimeFlag = false ∧
      (g._relayState = "on".toList ∨ g._relayState = "off".toList)) ∧
  (g._impulsesFlag = false → g._impulses = 1) ∧
  g._rs485OpenMsg = none ∧ g._rs485CloseMsg = none

/-- Every primitive fails; the clock advances by one per reading. -/
def envFail : Env :=
  { CreateFile := fun _ => false, CloseHandle := fun _ => false, WriteFile := fun _ => none,
    GetCommState := fun _ => false, SetCommState := fun _ => false,
    SetCommTimeouts := fun _ => false, clock := fun k => k }

/-- Every primitive succeeds and every write accepts all it is offered; the
clock advances by one per reading. -/
def envOk : Env :=
  { CreateFile := fun _ => true, CloseHandle := fun _ => true, WriteFile := fun _ => some 1000,
    GetCommState := fun _ => true, SetCommState := fun _ => true,
    SetCommTimeouts := fun _ => true, clock := fun k => k }

/-- As `envOk`, but the first write accepts 2 bytes and every later write 1
byte. -/
def envSplit : Env :=
  { envOk with WriteFile := fun k => if k = 0 then some 2 else some 1 }

/-- As `envOk`, but only the first `CreateFile` (the one of `createVCP`) gives
a valid handle. -/
def envOpenOnce : Env :=
  { envOk with CreateFile := fun k => decide (k = 0) }

/-- The command line `RelayManager.exe -relay 4 -state on`. -/
def argvStateOn : List (List Char) :=
  ["RelayManager.exe".toList, "-relay".toList, "4".toList, "-state".toList, "on".toList]

/-- As `envOk`, but the third and fourth writes (the ON send of the second
cycle of a one-relay pulse run) accept 2 bytes and 1 byte. -/
def envCycle2 : Env :=
  { envOk with
    WriteFile := fun k => if k = 2 then some 2 else if k = 3 then some 1 else some 1000 }

/-- As `envOk`, with a clock that advances by 1000 per reading. -/
def envTick : Env :=
  { envOk with clock := fun k => 1000 * (k : Int) }

/-- The command line `RelayManager.exe -relay 4 -openTime 0 -impulses 3`. -/
def argvPulse3 : List (List Char) :=
  ["RelayManager.exe".toList, "-relay".toList, "4".toList, "-openTime".toList, "0".toList,
   "-impulses".toList, "3".toList]

/-- The command line `RelayManager.exe -relay 4 -openTime 500 -impulses 2`. -/
def argvPulse2 : List (List Char) :=
  ["RelayManager.exe".toList, "-relay".toList, "4".toList, "-openTime".toList, "500".toList,
   "-impulses".toList, "2".toList]

/-- The messages passed to `sendFrameVCP` by `main`, in order. -/
def sentBatches : List Event → List (List Nat)
  | [] => []
  | Event.sendFrameVCP _ msg _ :: t => msg :: sentBatches t
  | _ :: t => sentBatches t

/-- Every write fails; everything else succeeds. -/
def envWriteFail : Env :=
  { envOk with WriteFile := fun _ => none }

/-- As `envOk`, but the first write fails. -/
def envWriteErrOnce : Env :=
  { envOk with WriteFile := fun k => if k = 0 then none else some 1000 }

/-- The command line `RelayManager.exe -relay 4 -state on -baudRate 19200`. -/
def argvBaud : List (List Char) :=
  ["RelayManager.exe".toList, "-relay".toList, "4".toList, "-state".toList, "on".toList,
   "-baudRate".toList, "19200".toList]

/-- The command line `RelayManager.exe -relay r -state on`. -/
def argvRelayOn (r : String) : List (List Char) :=
  ["RelayManager.exe".toList, "-relay".toList, r.toList, "-state".toList, "on".toList]

/-- The command line `RelayManager.exe -relay 4 -openTime 0 -impulses -1`. -/
def argvNegImpulses : List (List Char) :=
  ["RelayManager.exe".toList, "-relay".toList, "4".toList, "-openTime".toList, "0".toList,
   "-impulses".toList, "-1".toList]

/-- The command line `RelayManager.exe -relay 4 -comPort 3`. -/
def argvNoMode : List (List Char) :=
  ["RelayManager.exe".toList, "-relay".toList, "4".toList, "-comPort".toList, "3".toList]

/-- The variables `parseArgs` left, when it returned at least 4. -/
def accepted (r : Option (Int × Globals)) : Option Globals :=
  match r with
  | some (ret, g) => if 4 ≤ ret then some g else none
  | none => none

/-- The test-only decoder of the round-trip property: the batch is split into
consecutive 3-byte frames, each read as (byte 0, byte 1 = index, byte 2 =
state). -/
def decodeBatch : List Nat → List (Nat × Nat × Nat)
  | b0 :: b1 :: b2 :: rest => (b0, b1, b2) :: decodeBatch rest
  | _ => []

/-- The variables of a timed run on relays 4 and 9: 3 ms, 2 impulses, batches
built. -/
def globalsTimed : Globals :=
  { _openTimeFlag := true, _openTime := 3, _impulses := 2, _relays := [some 4, some 9],
    _numOfRelays := 2, _rs485OpenMsg := some [0xff, 4, 1, 0xff, 9, 1],
    _rs485CloseMsg := some [0xff, 4, 0, 0xff, 9, 0] }

/-- The elements of `argv + 1` that the loop of `parseArgs` compares with the
option names as long as it goes on: each option read takes the next element as
its value (`++argn`, then `argn++`), so they are `argv[1]`, `argv[3]`, ... -/
def optionTokens : List (List Char) → List (List Char)
  | [] => []
  | [a] => [a]
  | a :: _ :: rest => a :: optionTokens rest

/-- The command line `RelayManager.exe -comPort -state -openTime 5 -relay 1`:
"-state" is read as the value of `-comPort`. -/
def argvStateAsValue : List (List Char) :=
  ["RelayManager.exe".toList, "-comPort".toList, "-state".toList, "-openTime".toList,
   "5".toList, "-relay".toList, "1".toList]

/-- The command line `RelayManager.exe -relay 4 -state on -openTime 500`. -/
def argvStateThenOpenTime : List (List Char) :=
  ["RelayManager.exe".toList, "-relay".toList, "4".toList, "-state".toList, "on".toList,
   "-openTime".toList, "500".toList]

/-- The number a string of decimal digits denotes (leading zeros allowed). -/
def decVal (ds : List Char) : Nat := ds.foldl (fun acc c => 10 * acc + (c.toNat - 48)) 0

/-- What the digit branch of `relayModality` (lines 517-518) leaves when the
number read so far is `v`: `_relayBegin` for the first number of the argument
and `_relayEnd` for the others, through the conversion to `uint8_t`. -/
def storeNumber (g : Globals) (v : Nat) : Globals :=
  if g._numOfRelays = 1 then { g with _relayBegin := v % 256 }
  else { g with _relayEnd := v % 256 }

/-- The command line `RelayManager.exe -relay 256:1 -state on`. -/
def argvRangeWrap : List (List Char) :=
  ["RelayManager.exe".toList, "-relay".toList, "256:1".toList, "-state".toList, "on".toList]

/-- The argument that lists the numbers `ns` (strings of digits) separated by
single commas, as in `2,7,11`. -/
def commaSeparated : List (List Char) → List Char
  | [] => []
  | [d] => d
  | d :: e :: es => d ++ ',' :: commaSeparated (e :: es)

/-- The command line `RelayManager.exe -relay 254:255 -state on -openTime 5`. -/
def argvRangeTo255 : List (List Char) :=
  ["RelayManager.exe".toList, "-relay".toList, "254:255".toList, "-state".toList, "on".toList,
   "-openTime".toList, "5".toList]

/-! ## Theorems -/

theorem packFrame_eq (x s r : Nat) (h1 : 1 ≤ r) (h2 : r ≤ 255) :
    packFrame [0xff, x, s, 0] r = ([0xff, r, s, 0], [0xff, r, s]) := by
  have hr : r % 256 = r := Nat.mod_eq_of_lt (by omega)
  have hne : ¬ r = 0 := by omega
  by_cases hs : s = 0
  · subst hs
    simp [packFrame, strncpy, _FRAME_LENGTH, hr, hne]
  · simp [packFrame, strncpy, _FRAME_LENGTH, hr, hne, hs]

theorem length_frames (s : Nat) (l : List Nat) :
    (l.flatMap (frameOf s)).length = 3 * l.length := by
  induction l with
  | nil => simp
  | cons a t ih =>
    simp only [List.flatMap_cons, List.length_append, List.length_cons, ih, frameOf,
      List.length_nil]
    omega

theorem storeBytes_next (A B : List Nat) (n k : Nat) (hA : A.length = 3 * k) (hB : B.length = 3)
    (hk : k < n) :
    storeBytes (A ++ List.replicate (3 * (n - k)) 0) (k * 3) B
      = some ((A ++ B) ++ List.replicate (3 * (n - (k + 1))) 0) := by
  have hoff : k * 3 = A.length := by omega
  have hsplit : List.replicate (3 * (n - k)) 0
      = List.replicate 3 (0 : Nat) ++ List.replicate (3 * (n - (k + 1))) 0 := by
    rw [← List.replicate_add]
    congr 1
    omega
  have hlen : k * 3 + B.length ≤ (A ++ List.replicate (3 * (n - k)) 0).length := by
    simp only [List.length_append, List.length_replicate]
    omega
  unfold storeBytes
  rw [if_pos hlen, hoff, List.take_left]
  have hdrop : List.drop (A.length + B.length) (A ++ List.replicate (3 * (n - k)) 0)
      = List.replicate (3 * (n - (k + 1))) 0 := by
    rw [List.drop_append, hsplit, hB]
    exact List.drop_left' (by simp)
  rw [hdrop]

/-- Loop invariant of the batch loop: after `k` iterations the batch holds the
frames of the first `k` relays followed by the zeros written by `memset`. -/
theorem buildMsg_inv (s x : Nat) (sel : List Nat) (hsel : ∀ r ∈ sel, 1 ≤ r ∧ r ≤ 255) :
    ∀ k, k ≤ sel.length →
      ∃ y, (List.range k).foldl (msgStep (sel.map some))
            (some ([0xff, x, s, 0], List.replicate (_FRAME_LENGTH * sel.length) 0))
          = some ([0xff, y, s, 0],
              (sel.take k).flatMap (frameOf s) ++ List.replicate (3 * (sel.length - k)) 0) := by
  intro k
  induction k with
  | zero => intro _; exact ⟨x, by simp [_FRAME_LENGTH]⟩
  | succ k ih =>
    intro hk
    obtain ⟨y, hy⟩ := ih (by omega)
    have hlt : k < sel.length := by omega
    have hr := hsel (sel[k]) (List.getElem_mem _)
    refine ⟨sel[k], ?_⟩
    rw [List.range_succ, List.foldl_append, hy]
    have hget : (List.map some sel).getD k none = some sel[k] := by
      simp [List.getD_eq_getElem?_getD, List.getElem?_eq_getElem hlt]
    have hA : ((sel.take k).flatMap (frameOf s)).length = 3 * k := by
      rw [length_frames, List.length_take]
      omega
    have htake : sel.take (k + 1) = sel.take k ++ [sel[k]] := by
      rw [List.take_succ, List.getElem?_eq_getElem hlt]
      rfl
    simp only [List.foldl_cons, List.foldl_nil, msgStep, hget, packFrame_eq y s _ hr.1 hr.2,
      _FRAME_LENGTH]
    rw [storeBytes_next _ _ sel.length k hA (by simp) hlt]
    simp only [htake, List.flatMap_append, List.flatMap_cons, List.flatMap_nil, frameOf,
      List.append_nil]

/-- The batch loop on a selection of relay indices: the batch is the
concatenation of the frames, in selection order. -/
theorem buildMsg_eq (s x : Nat) (sel : List Nat) (hsel : ∀ r ∈ sel, 1 ≤ r ∧ r ≤ 255) :
    ∃ y, buildMsg [0xff, x, s, 0] (sel.map some) sel.length
      = some ([0xff, y, s, 0], sel.flatMap (frameOf s)) := by
  obtain ⟨y, hy⟩ := buildMsg_inv s x sel hsel sel.length (Nat.le_refl _)
  exact ⟨y, by simpa [buildMsg] using hy⟩

theorem frames_drop_take (s : Nat) (sel : List Nat) (k : Nat) (hk : k < sel.length) :
    ((sel.flatMap (frameOf s)).drop (3 * k)).take 3 = [0xff, sel[k], s] := by
  have hsplit : sel = sel.take k ++ (sel[k] :: sel.drop (k + 1)) := by
    rw [← List.drop_eq_getElem_cons hk, List.take_append_drop]
  have hlen : ((sel.take k).flatMap (frameOf s)).length = 3 * k := by
    rw [length_frames, List.length_take]
    omega
  have hfl : sel.flatMap (frameOf s)
      = (sel.take k).flatMap (frameOf s)
        ++ (frameOf s sel[k] ++ (sel.drop (k + 1)).flatMap (frameOf s)) := by
    conv_lhs => rw [hsplit]
    rw [List.flatMap_append, List.flatMap_cons]
  rw [hfl, List.drop_left' hlen]
  simp [frameOf]

/-- C1: for every relay index in 1..120 the three bytes copied into a batch
are `[0xFF, relayIndex, 0x01]` in the open (ON) batch and
`[0xFF, relayIndex, 0x00]` in the close (OFF) batch, whatever relay byte `x`
the frame buffer held before. -/
theorem C1_frame_bytes (x r : Nat) (h1 : 1 ≤ r) (h2 : r ≤ 120) :
    (packFrame openRelayMess r).2 = [0xff, r, 0x01] ∧
    (packFrame closeRelayMess r).2 = [0xff, r, 0x00] ∧
    (packFrame (openRelayMess.set 1 x) r).2 = [0xff, r, 0x01] ∧
    (packFrame (closeRelayMess.set 1 x) r).2 = [0xff, r, 0x00] := by
  have h255 : r ≤ 255 := by omega
  have e1 := packFrame_eq 0 1 r h1 h255
  have e2 := packFrame_eq 0 0 r h1 h255
  have e3 := packFrame_eq x 1 r h1 h255
  have e4 := packFrame_eq x 0 r h1 h255
  refine ⟨?_, ?_, ?_, ?_⟩
  · simpa [openRelayMess, sprintf_ccc, _FRAME_RELAY_ON] using congrArg Prod.snd e1
  · simpa [closeRelayMess, sprintf_ccc, _FRAME_RELAY_OFF] using congrArg Prod.snd e2
  · simpa [openRelayMess, sprintf_ccc, _FRAME_RELAY_ON] using congrArg Prod.snd e3
  · simpa [closeRelayMess, sprintf_ccc, _FRAME_RELAY_OFF] using congrArg Prod.snd e4

theorem C1_frame_bytes_witness :
    (1 ≤ 4 ∧ 4 ≤ 120) ∧
    ((packFrame openRelayMess 4).2 = [0xff, 4, 0x01] ∧
     (packFrame closeRelayMess 4).2 = [0xff, 4, 0x00] ∧
     (packFrame (openRelayMess.set 1 7) 4).2 = [0xff, 4, 0x01] ∧
     (packFrame (closeRelayMess.set 1 7) 4).2 = [0xff, 4, 0x00]) :=
  ⟨by decide, C1_frame_bytes 7 4 (by decide) (by decide)⟩

/-- C2: for every selection of n relays (indices in 1..120, n a `uint8_t`
count) the ON batch and the OFF batch built by the loops of `main` have length
3 * n, their k-th 3-byte frame carries the k-th index of the selection, and
nothing stands between the frames; selection [2,7] with state ON gives
FF 02 01 FF 07 01. -/
theorem C2_batch_layout (sel : List Nat) (hsel : ∀ r ∈ sel, 1 ≤ r ∧ r ≤ 120)
    (hn : sel.length ≤ 255) :
    (∃ onMsg offMsg,
      (buildMsg openRelayMess (sel.map some) sel.length).map Prod.snd = some onMsg ∧
      (buildMsg closeRelayMess (sel.map some) sel.length).map Prod.snd = some offMsg ∧
      onMsg.length = 3 * sel.length ∧ offMsg.length = 3 * sel.length ∧
      onMsg = sel.flatMap (fun r => [0xff, r, 0x01]) ∧
      offMsg = sel.flatMap (fun r => [0xff, r, 0x00]) ∧
      ∀ k (hk : k < sel.length),
        (onMsg.drop (3 * k)).take 3 = [0xff, sel[k], 0x01] ∧
        (offMsg.drop (3 * k)).take 3 = [0xff, sel[k], 0x00]) ∧
    (buildMsg openRelayMess [some 2, some 7] 2).map Prod.snd
      = some [0xff, 0x02, 0x01, 0xff, 0x07, 0x01] := by
  have _hn := hn
  have hsel2 : ∀ r ∈ sel, 1 ≤ r ∧ r ≤ 255 := fun r hr => ⟨(hsel r hr).1, by
    have := (hsel r hr).2
    omega⟩
  obtain ⟨y1, h1⟩ := buildMsg_eq 1 0 sel hsel2
  obtain ⟨y0, h0⟩ := buildMsg_eq 0 0 sel hsel2
  have ho : openRelayMess = [0xff, 0, 1, 0] := by
    simp [openRelayMess, sprintf_ccc, _FRAME_RELAY_ON]
  have hc : closeRelayMess = [0xff, 0, 0, 0] := by
    simp [closeRelayMess, sprintf_ccc, _FRAME_RELAY_OFF]
  refine ⟨⟨sel.flatMap (frameOf 1), sel.flatMap (frameOf 0), ?_, ?_, length_frames 1 sel,
    length_frames 0 sel, rfl, rfl, ?_⟩, ?_⟩
  · rw [ho, h1]; rfl
  · rw [hc, h0]; rfl
  · intro k hk
    exact ⟨frames_drop_take 1 sel k hk, frames_drop_take 0 sel k hk⟩
  · decide

theorem C2_batch_layout_witness :
    (buildMsg openRelayMess ([4, 9, 4].map some) 3).map Prod.snd
      = some [0xff, 4, 1, 0xff, 9, 1, 0xff, 4, 1] := by
  obtain ⟨⟨onMsg, offMsg, h1, _, _, _, h5, _, _⟩, _⟩ :=
    C2_batch_layout [4, 9, 4] (by decide) (by decide)
  rw [h5] at h1
  exact h1

/-! ### Bounded retries -/

theorem tryOpenLoop_spec (env : Env) (M : Nat) (hM : M ≤ 255) :
    ∀ (d fuel t : Nat) (w : World), t + d = max M 1 → 1 ≤ d → d ≤ fuel →
      ∃ n r w', tryOpenLoop env M fuel t w = Res.ok (r, w') ∧
        (∀ k < n, env.CreateFile (w.nCreateFile + k) = false) ∧
        w'.trace = w.trace
          ++ (List.replicate n [Event.CreateFile false, Event.Sleep 50]).flatten
          ++ (if r then [Event.CreateFile true] else []) ∧
        w'.nCreateFile = w.nCreateFile + n + (if r then 1 else 0) ∧
        n + (if r then 1 else 0) ≤ d ∧
        (r = true → env.CreateFile (w.nCreateFile + n) = true) ∧
        (r = false → n = d) := by
  intro d
  induction d with
  | zero => intro fuel t w _ h; omega
  | succ d ih =>
    intro fuel t w htd _ hfuel
    obtain ⟨f, rfl⟩ : ∃ f, fuel = f + 1 := ⟨fuel - 1, by omega⟩
    have hmax : max M 1 ≤ 255 := by omega
    have hmod : (t + 1) % 256 = t + 1 := Nat.mod_eq_of_lt (by omega)
    cases h0 : env.CreateFile w.nCreateFile with
    | true =>
      refine ⟨0, true, (CreateFile env w).2, ?_, ?_, ?_, ?_, ?_, ?_, ?_⟩
      · simp [tryOpenLoop, openVCP, CreateFile, h0]
      · intro k hk; omega
      · simp [CreateFile, h0]
      · simp [CreateFile]
      · simp
      · intro _; simpa using h0
      · intro h; cases h
    | false =>
      by_cases hge : t + 1 ≥ M
      · have hd : d = 0 := by omega
        subst hd
        refine ⟨1, false, Sleep 50 (CreateFile env w).2, ?_, ?_, ?_, ?_, ?_, ?_, ?_⟩
        · simp [tryOpenLoop, openVCP, CreateFile, h0, hmod, hge]
        · intro k hk
          have : k = 0 := by omega
          subst this
          simpa using h0
        · simp [CreateFile, h0, Sleep, World.log]
        · simp [CreateFile, Sleep, World.log]
        · simp
        · intro h; cases h
        · intro _; rfl
      · obtain ⟨n, r, w', hrun, hfail, htr, hcnt, hle, hsucc, hexh⟩ :=
          ih f (t + 1) (Sleep 50 (CreateFile env w).2) (by omega) (by omega) (by omega)
        have hw2 : (Sleep 50 (CreateFile env w).2).nCreateFile = w.nCreateFile + 1 := by
          simp [CreateFile, Sleep, World.log]
        have hw2t : (Sleep 50 (CreateFile env w).2).trace
            = w.trace ++ [Event.CreateFile false, Event.Sleep 50] := by
          simp [CreateFile, h0, Sleep, World.log]
        refine ⟨n + 1, r, w', ?_, ?_, ?_, ?_, ?_, ?_, ?_⟩
        · simp only [tryOpenLoop, openVCP]
          have hcf : CreateFile env w = (false, (CreateFile env w).2) := by
            simp [CreateFile, h0]
          rw [hcf]
          simp only [hmod, hge, if_false]
          exact hrun
        · intro k hk
          cases k with
          | zero => simpa using h0
          | succ k =>
            have := hfail k (by omega)
            rw [hw2] at this
            rw [← this]
            congr 1
            omega
        · rw [htr, hw2t]
          simp [List.replicate_succ]
        · rw [hcnt, hw2]; omega
        · omega
        · intro hr
          have := hsucc hr
          rw [hw2] at this
          rw [← this]
          congr 1
          omega
        · intro hr
          have := hexh hr
          omega

theorem tryCloseLoop_spec (env : Env) (M : Nat) (hM : M ≤ 255) :
    ∀ (d fuel t : Nat) (w : World), t + d = max M 1 → 1 ≤ d → d ≤ fuel →
      ∃ n r w', tryCloseLoop env M fuel t w = Res.ok (r, w') ∧
        (∀ k < n, env.CloseHandle (w.nCloseHandle + k) = false) ∧
        w'.trace = w.trace
          ++ (List.replicate n
                [Event.FlushFileBuffers, Event.CloseHandle false, Event.Sleep 50]).flatten
          ++ (if r then [Event.FlushFileBuffers, Event.CloseHandle true] else []) ∧
        w'.nCloseHandle = w.nCloseHandle + n + (if r then 1 else 0) ∧
        n + (if r then 1 else 0) ≤ d ∧
        (r = true → env.CloseHandle (w.nCloseHandle + n) = true) ∧
        (r = false → n = d) := by
  intro d
  induction d with
  | zero => intro fuel t w _ h; omega
  | succ d ih =>
    intro fuel t w htd _ hfuel
    obtain ⟨f, rfl⟩ : ∃ f, fuel = f + 1 := ⟨fuel - 1, by omega⟩
    have hmax : max M 1 ≤ 255 := by omega
    have hmod : (t + 1) % 256 = t + 1 := Nat.mod_eq_of_lt (by omega)
    cases h0 : env.CloseHandle w.nCloseHandle with
    | true =>
      refine ⟨0, true, (closeVCP env w).2, ?_, ?_, ?_, ?_, ?_, ?_, ?_⟩
      · simp [tryCloseLoop, closeVCP, CloseHandle, FlushFileBuffers, World.log, h0]
      · intro k hk; omega
      · simp [closeVCP, CloseHandle, FlushFileBuffers, World.log, h0]
      · simp [closeVCP, CloseHandle, FlushFileBuffers, World.log]
      · simp
      · intro _; simpa using h0
      · intro h; cases h
    | false =>
      by_cases hge : t + 1 ≥ M
      · have hd : d = 0 := by omega
        subst hd
        refine ⟨1, false, Sleep 50 (closeVCP env w).2, ?_, ?_, ?_, ?_, ?_, ?_, ?_⟩
        · simp [tryCloseLoop, closeVCP, CloseHandle, FlushFileBuffers, World.log, h0, hmod, hge]
        · intro k hk
          have : k = 0 := by omega
          subst this
          simpa using h0
        · simp [closeVCP, CloseHandle, FlushFileBuffers, h0, Sleep, World.log]
        · simp [closeVCP, CloseHandle, FlushFileBuffers, Sleep, World.log]
        · simp
        · intro h; cases h
        · intro _; rfl
      · obtain ⟨n, r, w', hrun, hfail, htr, hcnt, hle, hsucc, hexh⟩ :=
          ih f (t + 1) (Sleep 50 (closeVCP env w).2) (by omega) (by omega) (by omega)
        have hw2 : (Sleep 50 (closeVCP env w).2).nCloseHandle = w.nCloseHandle + 1 := by
          simp [closeVCP, CloseHandle, FlushFileBuffers, Sleep, World.log]
        have hw2t : (Sleep 50 (closeVCP env w).2).trace
            = w.trace ++ [Event.FlushFileBuffers, Event.CloseHandle false, Event.Sleep 50] := by
          simp [closeVCP, CloseHandle, FlushFileBuffers, h0, Sleep, World.log]
        refine ⟨n + 1, r, w', ?_, ?_, ?_, ?_, ?_, ?_, ?_⟩
        · simp only [tryCloseLoop]
          have hcf : closeVCP env w = (false, (closeVCP env w).2) := by
            simp [closeVCP, CloseHandle, FlushFileBuffers, World.log, h0]
          rw [hcf]
          simp only [hmod, hge, if_false]
          exact hrun
        · intro k hk
          cases k with
          | zero => simpa using h0
          | succ k =>
            have := hfail k (by omega)
            rw [hw2] at this
            rw [← this]
            congr 1
            omega
        · rw [htr, hw2t]
          simp [List.replicate_succ]
        · rw [hcnt, hw2]; omega
        · omega
        · intro hr
          have := hsucc hr
          rw [hw2] at this
          rw [← this]
          congr 1
          omega
        · intro hr
          have := hexh hr
          omega

/-- The budget of `tryOpenVCP` is never exhausted: it returns for every
environment and every `maxNtries`. -/
theorem tryOpenVCP_returns (env : Env) (maxNtries : Nat) (w : World) :
    ∃ r w', tryOpenVCP env maxNtries w = Res.ok (r, w') := by
  have hM : maxNtries % 256 ≤ 255 := by omega
  obtain ⟨n, r, w', h, _⟩ := tryOpenLoop_spec env (maxNtries % 256) hM
    (max (maxNtries % 256) 1) 256 0 w (by omega) (by omega) (by omega)
  exact ⟨r, w', h⟩

/-- The budget of `tryCloseVCP` is never exhausted. -/
theorem tryCloseVCP_returns (env : Env) (maxNtries : Nat) (w : World) :
    ∃ r w', tryCloseVCP env maxNtries w = Res.ok (r, w') := by
  have hM : maxNtries % 256 ≤ 255 := by omega
  obtain ⟨n, r, w', h, _⟩ := tryCloseLoop_spec env (maxNtries % 256) hM
    (max (maxNtries % 256) 1) 256 0 w (by omega) (by omega) (by omega)
  exact ⟨r, w', h⟩

/-- C7: for every maxTries from 1 to 255, when every open attempt fails
`tryOpenVCP` returns false after exactly maxTries attempts, each followed by
one 50 ms sleep; and when every close attempt fails `tryCloseVCP` returns
false after exactly maxTries attempts, each followed by one 50 ms sleep. -/
theorem C7_retry_exhaustion (env : Env) (maxTries : Nat) (w : World)
    (h1 : 1 ≤ maxTries) (h2 : maxTries ≤ 255) :
    ((∀ k, env.CreateFile (w.nCreateFile + k) = false) →
      ∃ w', tryOpenVCP env maxTries w = Res.ok (false, w') ∧
        w'.trace = w.trace
          ++ (List.replicate maxTries [Event.CreateFile false, Event.Sleep 50]).flatten ∧
        w'.nCreateFile = w.nCreateFile + maxTries) ∧
    ((∀ k, env.CloseHandle (w.nCloseHandle + k) = false) →
      ∃ w', tryCloseVCP env maxTries w = Res.ok (false, w') ∧
        w'.trace = w.trace
          ++ (List.replicate maxTries
                [Event.FlushFileBuffers, Event.CloseHandle false, Event.Sleep 50]).flatten ∧
        w'.nCloseHandle = w.nCloseHandle + maxTries) := by
  have hmod : maxTries % 256 = maxTries := Nat.mod_eq_of_lt (by omega)
  have hmax : max maxTries 1 = maxTries := by omega
  constructor
  · intro hfail
    obtain ⟨n, r, w', hrun, _, htr, hcnt, _, hsucc, hexh⟩ :=
      tryOpenLoop_spec env maxTries h2 maxTries 256 0 w (by omega) h1 (by omega)
    cases r with
    | true =>
      have := hsucc rfl
      rw [hfail n] at this
      cases this
    | false =>
      have hn := hexh rfl
      subst hn
      refine ⟨w', ?_, ?_, ?_⟩
      · simpa [tryOpenVCP, hmod] using hrun
      · simpa using htr
      · simpa using hcnt
  · intro hfail
    obtain ⟨n, r, w', hrun, _, htr, hcnt, _, hsucc, hexh⟩ :=
      tryCloseLoop_spec env maxTries h2 maxTries 256 0 w (by omega) h1 (by omega)
    cases r with
    | true =>
      have := hsucc rfl
      rw [hfail n] at this
      cases this
    | false =>
      have hn := hexh rfl
      subst hn
      refine ⟨w', ?_, ?_, ?_⟩
      · simpa [tryCloseVCP, hmod] using hrun
      · simpa using htr
      · simpa using hcnt

theorem C7_retry_exhaustion_witness :
    (1 ≤ 3 ∧ 3 ≤ 255) ∧
    (∃ w', tryOpenVCP envFail 3 {} = Res.ok (false, w') ∧
      w'.trace = ({} : World).trace
        ++ (List.replicate 3 [Event.CreateFile false, Event.Sleep 50]).flatten ∧
      w'.nCreateFile = ({} : World).nCreateFile + 3) ∧
    (∃ w', tryCloseVCP envFail 3 {} = Res.ok (false, w') ∧
      w'.trace = ({} : World).trace
        ++ (List.replicate 3
              [Event.FlushFileBuffers, Event.CloseHandle false, Event.Sleep 50]).flatten ∧
      w'.nCloseHandle = ({} : World).nCloseHandle + 3) :=
  ⟨by decide,
   (C7_retry_exhaustion envFail 3 {} (by decide) (by decide)).1 (fun _ => rfl),
   (C7_retry_exhaustion envFail 3 {} (by decide) (by decide)).2 (fun _ => rfl)⟩

/-- C8 as stated fails: with maxTries = 0 `tryOpenVCP` and `tryCloseVCP` still
make one attempt (more than maxTries), and report its outcome. -/
theorem C8_zero_tries_counterexample :
    tryOpenVCP envFail 0 {}
      = Res.ok (false, { nCreateFile := 1, trace := [Event.CreateFile false, Event.Sleep 50] }) ∧
    tryOpenVCP envOk 0 {}
      = Res.ok (true, { nCreateFile := 1, trace := [Event.CreateFile true] }) ∧
    tryCloseVCP envFail 0 {}
      = Res.ok (false,
          { nCloseHandle := 1,
            trace := [Event.FlushFileBuffers, Event.CloseHandle false, Event.Sleep 50] }) ∧
    ¬ ((1 : Nat) ≤ 0) := by
  decide

/-- C8 (amended): for every maxTries from 0 to 255 and every sequence of
outcomes, `tryOpenVCP` calls `openVCP` at most max(maxTries, 1) times; it makes
`n` failed calls, each followed by one 50 ms sleep, and then either returns true
right after the first successful call (nothing follows it in the trace) or
returns false with `n = max(maxTries, 1)` calls made, all failed. The same
holds for `tryCloseVCP` over `closeVCP`. -/
theorem C8_retry_bound (env : Env) (maxTries : Nat) (w : World) (h : maxTries ≤ 255) :
    (∃ n r w', tryOpenVCP env maxTries w = Res.ok (r, w') ∧
      (∀ k < n, env.CreateFile (w.nCreateFile + k) = false) ∧
      w'.trace = w.trace
        ++ (List.replicate n [Event.CreateFile false, Event.Sleep 50]).flatten
        ++ (if r then [Event.CreateFile true] else []) ∧
      w'.nCreateFile = w.nCreateFile + n + (if r then 1 else 0) ∧
      n + (if r then 1 else 0) ≤ max maxTries 1 ∧
      (r = true → env.CreateFile (w.nCreateFile + n) = true) ∧
      (r = false → n = max maxTries 1)) ∧
    (∃ n r w', tryCloseVCP env maxTries w = Res.ok (r, w') ∧
      (∀ k < n, env.CloseHandle (w.nCloseHandle + k) = false) ∧
      w'.trace = w.trace
        ++ (List.replicate n
              [Event.FlushFileBuffers, Event.CloseHandle false, Event.Sleep 50]).flatten
        ++ (if r then [Event.FlushFileBuffers, Event.CloseHandle true] else []) ∧
      w'.nCloseHandle = w.nCloseHandle + n + (if r then 1 else 0) ∧
      n + (if r then 1 else 0) ≤ max maxTries 1 ∧
      (r = true → env.CloseHandle (w.nCloseHandle + n) = true) ∧
      (r = false → n = max maxTries 1)) := by
  have hmod : maxTries % 256 = maxTries := Nat.mod_eq_of_lt (by omega)
  constructor
  · obtain ⟨n, r, w', hrun, rest⟩ :=
      tryOpenLoop_spec env maxTries h (max maxTries 1) 256 0 w (by omega) (by omega) (by omega)
    exact ⟨n, r, w', by simpa [tryOpenVCP, hmod] using hrun, rest⟩
  · obtain ⟨n, r, w', hrun, rest⟩ :=
      tryCloseLoop_spec env maxTries h (max maxTries 1) 256 0 w (by omega) (by omega) (by omega)
    exact ⟨n, r, w', by simpa [tryCloseVCP, hmod] using hrun, rest⟩

theorem C8_retry_bound_witness :
    (5 : Nat) ≤ 255 ∧
    ∃ n r w', tryOpenVCP envSplit 5 {} = Res.ok (r, w') ∧
      (∀ k < n, envSplit.CreateFile (({} : World).nCreateFile + k) = false) ∧
      w'.trace = ({} : World).trace
        ++ (List.replicate n [Event.CreateFile false, Event.Sleep 50]).flatten
        ++ (if r then [Event.CreateFile true] else []) ∧
      w'.nCreateFile = ({} : World).nCreateFile + n + (if r then 1 else 0) ∧
      n + (if r then 1 else 0) ≤ max 5 1 ∧
      (r = true → envSplit.CreateFile (({} : World).nCreateFile + n) = true) ∧
      (r = false → n = max 5 1) :=
  ⟨by decide, (C8_retry_bound envSplit 5 {} (by decide)).1⟩

/-! ### Locating the device -/

theorem createLoop_allfail (env : Env) (portNum : Int)
    (hfail : ∀ k, env.CreateFile k = false) :
    ∀ (fuel tries : Nat) (vcp : Vcp) (w : World),
      ∃ w', createLoop env portNum fuel tries vcp w = Res.running w' ∧
        w'.nCreateFile = w.nCreateFile + fuel ∧
        w'.trace = w.trace
          ++ (List.replicate fuel [Event.CreateFile false, Event.Sleep 50]).flatten := by
  intro fuel
  induction fuel with
  | zero => intro tries vcp w; exact ⟨w, by simp [createLoop]⟩
  | succ f ih =>
    intro tries vcp w
    obtain ⟨w', hrun, hcnt, htr⟩ := ih ((tries + 256 - 1) % 256)
      { vcp with name := portNum, hSerial := false } (Sleep 50 (CreateFile env w).2)
    refine ⟨w', ?_, ?_, ?_⟩
    · simp only [createLoop, ge_iff_le, Nat.zero_le, if_true]
      have hcf : CreateFile env w = (false, (CreateFile env w).2) := by
        simp [CreateFile, hfail]
      rw [hcf]
      exact hrun
    · rw [hcnt]
      simp [CreateFile, Sleep, World.log]
      omega
    · rw [htr]
      simp [CreateFile, hfail, Sleep, World.log, List.replicate_succ]

/-- C9 (the code at the failing input): when every `CreateFile` fails,
`createVCP` is still retrying after any number of attempts: for every budget
`fuel` it has made `fuel` attempts, each followed by a 50 ms sleep, and has
neither returned nor ended the process. -/
theorem C9_createVCP_retries_forever (env : Env) (hfail : ∀ k, env.CreateFile k = false)
    (fuel : Nat) (portNum : Int) (w : World) :
    ∃ w', createVCP env fuel portNum w = Res.running w' ∧
      w'.nCreateFile = w.nCreateFile + fuel ∧
      w'.trace = w.trace
        ++ (List.replicate fuel [Event.CreateFile false, Event.Sleep 50]).flatten := by
  obtain ⟨w', hrun, hcnt, htr⟩ :=
    createLoop_allfail env portNum hfail fuel (MAX_TRIES_TO_CREATE_VCP % 256) {} w
  exact ⟨w', by simp [createVCP, hrun, Res.bind], hcnt, htr⟩

theorem C9_createVCP_retries_forever_witness :
    (∀ k, envFail.CreateFile k = false) ∧
    ∃ w', createVCP envFail 1000 7 {} = Res.running w' ∧
      w'.nCreateFile = ({} : World).nCreateFile + 1000 ∧
      w'.trace = ({} : World).trace
        ++ (List.replicate 1000 [Event.CreateFile false, Event.Sleep 50]).flatten :=
  ⟨fun _ => rfl, C9_createVCP_retries_forever envFail (fun _ => rfl) 1000 7 {}⟩

/-! ### Sending -/

/-- C10 (the code at the failing input): a 3-byte message that goes out in two
successful writes of 2 and 1 bytes is written completely, and `sendFrameVCP`
returns false. -/
theorem C10_split_write_returns_false :
    sendFrameVCP envSplit 10 [0xff, 0x04, 0x01] 3 {}
      = Res.ok (false,
          { nWriteFile := 2,
            trace := [Event.WriteFile [0xff, 0x04, 0x01] (some 2),
                      Event.WriteFile [0x01] (some 1)] }) ∧
    wire [Event.WriteFile [0xff, 0x04, 0x01] (some 2), Event.WriteFile [0x01] (some 1)]
      = [0xff, 0x04, 0x01] := by
  decide

/-! ### Main-level events and the primitives -/

theorem mainEvents_append (a b : List Event) :
    mainEvents (a ++ b) = mainEvents a ++ mainEvents b := by
  simp [mainEvents]

theorem mainEvents_log (w : World) (e : Event) (h : e.isMain = true) :
    mainEvents (w.log e).trace = mainEvents w.trace ++ [e] := by
  simp [World.log, mainEvents, List.filter_append, h]

theorem tryOpenLoop_succ (env : Env) (M fuel t : Nat) (w : World)
    (h : env.CreateFile w.nCreateFile = true) :
    tryOpenLoop env M (fuel + 1) t w = Res.ok (true, (CreateFile env w).2) := by
  simp [tryOpenLoop, openVCP, CreateFile, h]

theorem tryOpenVCP_succ (env : Env) (M : Nat) (w : World) (h : ∀ k, env.CreateFile k = true) :
    ∃ w', tryOpenVCP env M w = Res.ok (true, w') ∧
      mainEvents w'.trace = mainEvents w.trace ∧ w'.nClock = w.nClock := by
  refine ⟨(CreateFile env w).2, tryOpenLoop_succ env _ 255 0 w (h _), ?_, ?_⟩
  · simp [CreateFile, mainEvents, List.filter_append, Event.isMain]
  · simp [CreateFile]

theorem tryCloseLoop_succ (env : Env) (M fuel t : Nat) (w : World)
    (h : env.CloseHandle w.nCloseHandle = true) :
    tryCloseLoop env M (fuel + 1) t w = Res.ok (true, (closeVCP env w).2) := by
  simp [tryCloseLoop, closeVCP, CloseHandle, FlushFileBuffers, World.log, h]

theorem tryCloseVCP_succ (env : Env) (M : Nat) (w : World) (h : ∀ k, env.CloseHandle k = true) :
    ∃ w', tryCloseVCP env M w = Res.ok (true, w') ∧
      mainEvents w'.trace = mainEvents w.trace ∧ w'.nClock = w.nClock := by
  refine ⟨(closeVCP env w).2, tryCloseLoop_succ env _ 255 0 w (h _), ?_, ?_⟩
  · simp [closeVCP, CloseHandle, FlushFileBuffers, World.log, mainEvents, List.filter_append,
      Event.isMain]
  · simp [closeVCP, CloseHandle, FlushFileBuffers, World.log]

theorem sendLoop_done (env : Env) (message : List Nat) (L fuel bw total : Nat) (w : World)
    (h : ¬ total < L) :
    sendLoop env message L fuel bw total w = Res.ok (bw, total, w) := by
  cases fuel <;> simp [sendLoop, h]

/-- A send whose first write accepts the whole message returns true after that
single write. -/
theorem sendFrameVCP_full (env : Env) (fuel : Nat) (message : List Nat) (L : Nat) (w : World)
    (hL : L < 2 ^ 32) (h : ∀ k, ∃ b, env.WriteFile k = some b ∧ L ≤ b) :
    ∃ w', sendFrameVCP env (fuel + 1) message L w = Res.ok (true, w') ∧
      mainEvents w'.trace = mainEvents w.trace ∧ w'.nClock = w.nClock := by
  by_cases h0 : L = 0
  · subst h0
    exact ⟨w, by simp [sendFrameVCP, sendLoop, Res.bind], rfl, rfl⟩
  · obtain ⟨b, hb, hle⟩ := h w.nWriteFile
    have hpos : 0 < L := Nat.pos_of_ne_zero h0
    have hmod : L % 2 ^ 32 = L := Nat.mod_eq_of_lt hL
    have hmin : min b L = L := Nat.min_eq_right hle
    refine ⟨(WriteFile env message L w).2, ?_, ?_, ?_⟩
    · simp only [sendFrameVCP, sendLoop, hpos, if_true, Nat.sub_zero, hmod, List.drop_zero]
      have hw : WriteFile env message L w = (some L, (WriteFile env message L w).2) := by
        simp [WriteFile, hb, hmin]
      rw [hw]
      simp only [Nat.zero_add, hmod]
      rw [sendLoop_done env message L fuel L L _ (Nat.lt_irrefl L)]
      simp [Res.bind]
    · simp [WriteFile, mainEvents, List.filter_append, Event.isMain]
    · simp [WriteFile]

/-- With a clock that advances at every reading, the wait loop ends within
`openTime + 1` readings. -/
theorem waitLoop_done (env : Env) (openTime : Nat) (startTime : Int)
    (hclock : ∀ k, env.clock k < env.clock (k + 1)) :
    ∀ (d fuel : Nat) (w : World), (openTime : Int) - (env.clock w.nClock - startTime) ≤ d →
      d < fuel →
      ∃ w', waitLoop env openTime startTime fuel w = Res.ok w' ∧
        mainEvents w'.trace = mainEvents w.trace := by
  intro d
  induction d with
  | zero =>
    intro fuel w hd hfuel
    obtain ⟨f, rfl⟩ : ∃ f, fuel = f + 1 := ⟨fuel - 1, by omega⟩
    have hnot : ¬ (env.clock w.nClock - startTime < (openTime : Int)) := by
      simp only [Nat.cast_zero] at hd
      omega
    refine ⟨(clock env w).2, ?_, ?_⟩
    · simp [waitLoop, clock, hnot]
    · simp [clock, mainEvents, List.filter_append, Event.isMain]
  | succ d ih =>
    intro fuel w hd hfuel
    obtain ⟨f, rfl⟩ : ∃ f, fuel = f + 1 := ⟨fuel - 1, by omega⟩
    by_cases hlt : env.clock w.nClock - startTime < (openTime : Int)
    · have hstep := hclock w.nClock
      obtain ⟨w', hrun, hev⟩ := ih f (Sleep _SLEEP_TIME (clock env w).2) (by
        simp only [Sleep, World.log, clock]
        push_cast at hd ⊢
        omega) (by omega)
      refine ⟨w', ?_, ?_⟩
      · have hc : (clock env w).1 - startTime < (openTime : Int) := by simpa [clock] using hlt
        simp only [waitLoop, hc, if_true]
        exact hrun
      · rw [hev]
        simp [Sleep, World.log, clock, mainEvents, List.filter_append, Event.isMain]
    · refine ⟨(clock env w).2, ?_, ?_⟩
      · have hc : ¬ ((clock env w).1 - startTime < (openTime : Int)) := by simpa [clock] using hlt
        simp only [waitLoop, hc, if_false]
      · simp [clock, mainEvents, List.filter_append, Event.isMain]

/-! ### Timed pulse mode when every operation succeeds -/

theorem openRelaysPhase_ok (env : Env) (fuel : Nat) (g : Globals) (s : Int) (w : World)
    (hopen : ∀ k, env.CreateFile k = true) (hclose : ∀ k, env.CloseHandle k = true)
    (hwrite : ∀ k, ∃ b, env.WriteFile k = some b ∧ g._numOfRelays * 3 ≤ b)
    (hclock : ∀ k, env.clock k < env.clock (k + 1))
    (hL : g._numOfRelays * 3 < 2 ^ 32) (hcond : openCond g = true) :
    ∃ t w', openRelaysPhase env (fuel + 1) g s w = Res.ok (none, t, w') ∧
      mainEvents w'.trace = mainEvents w.trace ++
        [Event.tryOpenVCP Phase.openRelays true,
         Event.sendFrameVCP Phase.openRelays (g._rs485OpenMsg.getD []) true,
         Event.tryCloseVCP Phase.openRelays true] ∧
      t ≤ env.clock w'.nClock := by
  obtain ⟨w1, h1, e1, c1⟩ := tryOpenVCP_succ env _MAX_OPEN_VCP_TRIES w hopen
  obtain ⟨w2, h2, e2, c2⟩ := sendFrameVCP_full env fuel (g._rs485OpenMsg.getD [])
    (g._numOfRelays * 3) (w1.log (Event.tryOpenVCP Phase.openRelays true)) hL hwrite
  obtain ⟨w4, h4, e4, c4⟩ := tryCloseVCP_succ env _MAX_CLOSE_VCP_TRIES
    (clock env (w2.log (Event.sendFrameVCP Phase.openRelays (g._rs485OpenMsg.getD []) true))).2
    hclose
  refine ⟨(clock env (w2.log (Event.sendFrameVCP Phase.openRelays
      (g._rs485OpenMsg.getD []) true))).1, w4.log (Event.tryCloseVCP Phase.openRelays true),
    ?_, ?_, ?_⟩
  · simp only [openRelaysPhase, hcond, if_true, h1, Res.bind, Bool.not_true, Bool.false_eq_true,
      if_false, h2, h4]
  · have : mainEvents (clock env (w2.log (Event.sendFrameVCP Phase.openRelays
        (g._rs485OpenMsg.getD []) true))).2.trace
        = mainEvents (w2.log (Event.sendFrameVCP Phase.openRelays
            (g._rs485OpenMsg.getD []) true)).trace := by
      simp [clock, mainEvents, List.filter_append, Event.isMain]
    simp [mainEvents_log, Event.isMain, e4, this, e2, e1]
  · have hn : (w4.log (Event.tryCloseVCP Phase.openRelays true)).nClock
        = (w2.log (Event.sendFrameVCP Phase.openRelays
            (g._rs485OpenMsg.getD []) true)).nClock + 1 := by
      simp only [World.log, c4, clock]
    rw [hn]
    simp only [clock]
    exact Int.le_of_lt (hclock _)

theorem waitPhase_ok (env : Env) (fuel : Nat) (g : Globals) (s : Int) (w : World)
    (hclock : ∀ k, env.clock k < env.clock (k + 1))
    (hflag : g._openTimeFlag = true) (hs : s ≤ env.clock w.nClock) (hfuel : g._openTime < fuel) :
    ∃ w', waitPhase env fuel g s w = Res.ok w' ∧
      mainEvents w'.trace = mainEvents w.trace ++ [Event.waitDone] := by
  obtain ⟨w1, h1, e1⟩ := waitLoop_done env g._openTime s hclock g._openTime fuel w
    (by omega) hfuel
  refine ⟨w1.log Event.waitDone, ?_, ?_⟩
  · simp [waitPhase, hflag, h1, Res.bind]
  · simp [mainEvents_log, Event.isMain, e1]

theorem closeRelaysPhase_ok (env : Env) (fuel : Nat) (g : Globals) (w : World)
    (hopen : ∀ k, env.CreateFile k = true) (hclose : ∀ k, env.CloseHandle k = true)
    (hwrite : ∀ k, ∃ b, env.WriteFile k = some b ∧ g._numOfRelays * 3 ≤ b)
    (hL : g._numOfRelays * 3 < 2 ^ 32) (hcond : closeCond g = true) :
    ∃ w', closeRelaysPhase env (fuel + 1) g w = Res.ok (none, w') ∧
      mainEvents w'.trace = mainEvents w.trace ++
        [Event.tryOpenVCP Phase.closeRelays true,
         Event.sendFrameVCP Phase.closeRelays (g._rs485CloseMsg.getD []) true,
         Event.tryCloseVCP Phase.closeRelays true] := by
  obtain ⟨w1, h1, e1, c1⟩ := tryOpenVCP_succ env _MAX_OPEN_VCP_TRIES w hopen
  obtain ⟨w2, h2, e2, c2⟩ := sendFrameVCP_full env fuel (g._rs485CloseMsg.getD [])
    (g._numOfRelays * 3) (w1.log (Event.tryOpenVCP Phase.closeRelays true)) hL hwrite
  obtain ⟨w3, h3, e3, c3⟩ := tryCloseVCP_succ env _MAX_CLOSE_VCP_TRIES
    (w2.log (Event.sendFrameVCP Phase.closeRelays (g._rs485CloseMsg.getD []) true)) hclose
  refine ⟨w3.log (Event.tryCloseVCP Phase.closeRelays true), ?_, ?_⟩
  · simp only [closeRelaysPhase, hcond, if_true, h1, Res.bind, Bool.not_true,
      Bool.false_eq_true, if_false, h2, h3]
  · simp [mainEvents_log, Event.isMain, e3, e2, e1]

/-- In timed pulse mode with every operation succeeding, the loop started with
the counter at `n` runs `n` complete cycles and `main` returns 0. -/
theorem pulseLoop_ok (env : Env) (fuel : Nat) (g : Globals)
    (hopen : ∀ k, env.CreateFile k = true) (hclose : ∀ k, env.CloseHandle k = true)
    (hwrite : ∀ k, ∃ b, env.WriteFile k = some b ∧ g._numOfRelays * 3 ≤ b)
    (hclock : ∀ k, env.clock k < env.clock (k + 1))
    (hL : g._numOfRelays * 3 < 2 ^ 32) (hflag : g._openTimeFlag = true)
    (hfuel : g._openTime < fuel) :
    ∀ (n : Nat) (s : Int) (w : World),
      ∃ w', pulseLoop env fuel g n s w = Res.ok (0, 0, w') ∧
        mainEvents w'.trace = mainEvents w.trace ++
          pulseCycles (g._rs485OpenMsg.getD []) (g._rs485CloseMsg.getD []) n := by
  obtain ⟨f, rfl⟩ : ∃ f, fuel = f + 1 := ⟨fuel - 1, by omega⟩
  have hoc : openCond g = true := by simp [openCond, hflag]
  have hcc : closeCond g = true := by simp [closeCond, hflag]
  intro n
  induction n with
  | zero => intro s w; exact ⟨w, rfl, by simp [pulseCycles]⟩
  | succ n ih =>
    intro s w
    obtain ⟨t, w1, h1, e1, ht⟩ := openRelaysPhase_ok env f g s w hopen hclose hwrite hclock hL hoc
    obtain ⟨w2, h2, e2⟩ := waitPhase_ok env (f + 1) g t w1 hclock hflag ht hfuel
    obtain ⟨w3, h3, e3⟩ := closeRelaysPhase_ok env f g w2 hopen hclose hwrite hL hcc
    obtain ⟨w4, h4, e4⟩ := ih t (w3.log (Event.impulses n))
    refine ⟨w4, ?_, ?_⟩
    · simp only [pulseLoop, h1, Res.bind, h2, h3]
      exact h4
    · simp [mainEvents_log, Event.isMain, e4, e3, e2, e1, pulseCycles, pulseCycle]

/-! ### Every run extends the trace -/

theorem Extends.refl (w : World) : Extends w w [] := ⟨[], by simp, rfl⟩

theorem Extends.trans {w w1 w2 : World} {m1 m2 : List Event}
    (h1 : Extends w w1 m1) (h2 : Extends w1 w2 m2) : Extends w w2 (m1 ++ m2) := by
  obtain ⟨e1, ht1, hm1⟩ := h1
  obtain ⟨e2, ht2, hm2⟩ := h2
  exact ⟨e1 ++ e2, by rw [ht2, ht1, List.append_assoc], by rw [mainEvents_append, hm1, hm2]⟩

theorem Extends.log (w : World) (e : Event) (h : e.isMain = true) : Extends w (w.log e) [e] :=
  ⟨[e], rfl, by simp [mainEvents, h]⟩

theorem Extends.then_log {w w1 : World} {m : List Event} (h1 : Extends w w1 m) (e : Event)
    (h : e.isMain = true) : Extends w (w1.log e) (m ++ [e]) :=
  h1.trans (Extends.log w1 e h)

theorem Extends.mainEvents_eq {w w' : World} {m : List Event} (h : Extends w w' m) :
    mainEvents w'.trace = mainEvents w.trace ++ m := by
  obtain ⟨evs, ht, hm⟩ := h
  rw [ht, mainEvents_append, hm]

theorem Extends.os (w : World) (w' : World) (evs : List Event) (ht : w'.trace = w.trace ++ evs)
    (hm : mainEvents evs = []) : Extends w w' [] := ⟨evs, ht, hm⟩

theorem Extends_CreateFile (env : Env) (w : World) : Extends w (CreateFile env w).2 [] :=
  ⟨[Event.CreateFile (env.CreateFile w.nCreateFile)], rfl, rfl⟩

theorem Extends_CloseHandle (env : Env) (w : World) : Extends w (CloseHandle env w).2 [] :=
  ⟨[Event.CloseHandle (env.CloseHandle w.nCloseHandle)], rfl, rfl⟩

theorem Extends_Sleep (ms : Nat) (w : World) : Extends w (Sleep ms w) [] :=
  ⟨[Event.Sleep ms], rfl, rfl⟩

theorem Extends_clock (env : Env) (w : World) : Extends w (clock env w).2 [] :=
  ⟨[Event.clock (env.clock w.nClock)], rfl, rfl⟩

theorem Extends_WriteFile (env : Env) (buffer : List Nat) (n : Nat) (w : World) :
    Extends w (WriteFile env buffer n w).2 [] :=
  ⟨[Event.WriteFile (buffer.take n) ((env.WriteFile w.nWriteFile).map (fun b => min b n))],
    rfl, rfl⟩

theorem Extends_closeVCP (env : Env) (w : World) : Extends w (closeVCP env w).2 [] :=
  ⟨[Event.FlushFileBuffers, Event.CloseHandle (env.CloseHandle w.nCloseHandle)],
    by simp [closeVCP, CloseHandle, FlushFileBuffers, World.log], rfl⟩

theorem Extends_GetCommState (env : Env) (w : World) : Extends w (GetCommState env w).2 [] :=
  ⟨[Event.GetCommState (env.GetCommState w.nGetCommState)], rfl, rfl⟩

theorem Extends_SetCommState (env : Env) (a b c d : Nat) (w : World) :
    Extends w (SetCommState env a b c d w).2 [] :=
  ⟨[Event.SetCommState a b c d (env.SetCommState w.nSetCommState)], rfl, rfl⟩

theorem Extends_SetCommTimeouts (env : Env) (w : World) :
    Extends w (SetCommTimeouts env w).2 [] :=
  ⟨[Event.SetCommTimeouts (env.SetCommTimeouts w.nSetCommTimeouts)], rfl, rfl⟩

theorem Extends_setConnectionParameters (env : Env) (vcp : Vcp) (w : World) :
    Extends w (_setConnectionParameters env vcp w).2.2 [] := by
  have hg := Extends_GetCommState env w
  unfold _setConnectionParameters
  cases h1 : env.GetCommState w.nGetCommState with
  | false =>
    have e1 : GetCommState env w = (false, (GetCommState env w).2) := by simp [GetCommState, h1]
    rw [e1]
    exact hg.trans (Extends_CloseHandle env _)
  | true =>
    have e1 : GetCommState env w = (true, (GetCommState env w).2) := by simp [GetCommState, h1]
    rw [e1]
    simp only
    have hs := Extends_SetCommState env BAUD_RATE_DEFAULT 8 0 0 (GetCommState env w).2
    cases h2 : env.SetCommState (GetCommState env w).2.nSetCommState with
    | false =>
      have e2 : SetCommState env BAUD_RATE_DEFAULT 8 0 0 (GetCommState env w).2
          = (false, (SetCommState env BAUD_RATE_DEFAULT 8 0 0 (GetCommState env w).2).2) := by
        simp [SetCommState, h2]
      rw [e2]
      exact (hg.trans hs).trans (Extends_CloseHandle env _)
    | true =>
      have e2 : SetCommState env BAUD_RATE_DEFAULT 8 0 0 (GetCommState env w).2
          = (true, (SetCommState env BAUD_RATE_DEFAULT 8 0 0 (GetCommState env w).2).2) := by
        simp [SetCommState, h2]
      rw [e2]
      simp only
      have ht := Extends_SetCommTimeouts env
        (SetCommState env BAUD_RATE_DEFAULT 8 0 0 (GetCommState env w).2).2
      cases h3 : env.SetCommTimeouts
          (SetCommState env BAUD_RATE_DEFAULT 8 0 0 (GetCommState env w).2).2.nSetCommTimeouts with
      | false =>
        have e3 : SetCommTimeouts env
              (SetCommState env BAUD_RATE_DEFAULT 8 0 0 (GetCommState env w).2).2
            = (false, (SetCommTimeouts env
              (SetCommState env BAUD_RATE_DEFAULT 8 0 0 (GetCommState env w).2).2).2) := by
          simp [SetCommTimeouts, h3]
        rw [e3]
        exact ((hg.trans hs).trans ht).trans (Extends_closeVCP env _)
      | true =>
        have e3 : SetCommTimeouts env
              (SetCommState env BAUD_RATE_DEFAULT 8 0 0 (GetCommState env w).2).2
            = (true, (SetCommTimeouts env
              (SetCommState env BAUD_RATE_DEFAULT 8 0 0 (GetCommState env w).2).2).2) := by
          simp [SetCommTimeouts, h3]
        rw [e3]
        exact (hg.trans hs).trans ht

theorem createLoop_gen (env : Env) (portNum : Int) :
    ∀ (fuel tries : Nat) (vcp : Vcp) (w : World),
      (∃ t v w', createLoop env portNum fuel tries vcp w = Res.ok (t, v, w') ∧ Extends w w' []) ∨
      (∃ w', createLoop env portNum fuel tries vcp w = Res.running w' ∧ Extends w w' []) := by
  intro fuel
  induction fuel with
  | zero =>
    intro tries vcp w
    exact Or.inr ⟨w, by simp [createLoop], Extends.refl w⟩
  | succ f ih =>
    intro tries vcp w
    simp only [createLoop, ge_iff_le, Nat.zero_le, if_true]
    cases h0 : env.CreateFile w.nCreateFile with
    | false =>
      have e0 : CreateFile env w = (false, (CreateFile env w).2) := by simp [CreateFile, h0]
      rw [e0]
      simp only
      have hx : Extends w (Sleep 50 (CreateFile env w).2) [] :=
        (Extends_CreateFile env w).trans (Extends_Sleep 50 _)
      rcases ih ((tries + 256 - 1) % 256) { vcp with name := portNum, hSerial := false }
          (Sleep 50 (CreateFile env w).2) with ⟨t, v, w', hr, he⟩ | ⟨w', hr, he⟩
      · exact Or.inl ⟨t, v, w', hr, hx.trans he⟩
      · exact Or.inr ⟨w', hr, hx.trans he⟩
    | true =>
      have e0 : CreateFile env w = (true, (CreateFile env w).2) := by simp [CreateFile, h0]
      rw [e0]
      exact Or.inl ⟨_, _, _, rfl,
        (Extends_CreateFile env w).trans (Extends_setConnectionParameters env _ _)⟩

/-- `createVCP` either returns or is still retrying; it never ends the process
and records no call of `main`. -/
theorem createVCP_gen (env : Env) (fuel : Nat) (portNum : Int) (w : World) :
    (∃ v w', createVCP env fuel portNum w = Res.ok (v, w') ∧ Extends w w' []) ∨
    (∃ w', createVCP env fuel portNum w = Res.running w' ∧ Extends w w' []) := by
  unfold createVCP
  rcases createLoop_gen env portNum fuel (MAX_TRIES_TO_CREATE_VCP % 256) {} w with
    ⟨t, v, w', hr, he⟩ | ⟨w', hr, he⟩
  · refine Or.inl ⟨v, (CloseHandle env w').2, ?_, he.trans (Extends_CloseHandle env w')⟩
    rw [hr]
    simp [Res.bind]
  · refine Or.inr ⟨w', ?_, he⟩
    rw [hr]
    simp [Res.bind]

theorem mainEvents_flatten_replicate (l : List Event) (h : mainEvents l = []) (n : Nat) :
    mainEvents (List.replicate n l).flatten = [] := by
  induction n with
  | zero => rfl
  | succ n ih => rw [List.replicate_succ, List.flatten_cons, mainEvents_append, h, ih]; rfl

theorem tryOpenVCP_gen (env : Env) (maxNtries : Nat) (w : World) :
    ∃ r w', tryOpenVCP env maxNtries w = Res.ok (r, w') ∧ Extends w w' [] := by
  have hM : maxNtries % 256 ≤ 255 := by omega
  obtain ⟨n, r, w', h, _, htr, _⟩ := tryOpenLoop_spec env (maxNtries % 256) hM
    (max (maxNtries % 256) 1) 256 0 w (by omega) (by omega) (by omega)
  refine ⟨r, w', h, _, by rw [htr, List.append_assoc], ?_⟩
  rw [mainEvents_append,
    mainEvents_flatten_replicate [Event.CreateFile false, Event.Sleep 50] rfl]
  cases r <;> rfl

theorem tryCloseVCP_gen (env : Env) (maxNtries : Nat) (w : World) :
    ∃ r w', tryCloseVCP env maxNtries w = Res.ok (r, w') ∧ Extends w w' [] := by
  have hM : maxNtries % 256 ≤ 255 := by omega
  obtain ⟨n, r, w', h, _, htr, _⟩ := tryCloseLoop_spec env (maxNtries % 256) hM
    (max (maxNtries % 256) 1) 256 0 w (by omega) (by omega) (by omega)
  refine ⟨r, w', h, _, by rw [htr, List.append_assoc], ?_⟩
  rw [mainEvents_append, mainEvents_flatten_replicate
    [Event.FlushFileBuffers, Event.CloseHandle false, Event.Sleep 50] rfl]
  cases r <;> rfl

theorem sendLoop_gen (env : Env) (message : List Nat) (L : Nat) :
    ∀ (fuel bw total : Nat) (w : World),
      (∃ b t w', sendLoop env message L fuel bw total w = Res.ok (b, t, w') ∧ Extends w w' []) ∨
      (∃ w', sendLoop env message L fuel bw total w = Res.running w' ∧ Extends w w' []) := by
  intro fuel
  induction fuel with
  | zero =>
    intro bw total w
    by_cases h : total < L
    · exact Or.inr ⟨w, by simp [sendLoop, h], Extends.refl w⟩
    · exact Or.inl ⟨bw, total, w, by simp [sendLoop, h], Extends.refl w⟩
  | succ f ih =>
    intro bw total w
    by_cases h : total < L
    · have hx := Extends_WriteFile env (message.drop total) ((L - total) % 2 ^ 32) w
      simp only [sendLoop, h, if_true]
      cases hr : (WriteFile env (message.drop total) ((L - total) % 2 ^ 32) w).1 with
      | none =>
        have e0 : WriteFile env (message.drop total) ((L - total) % 2 ^ 32) w
            = (none, (WriteFile env (message.drop total) ((L - total) % 2 ^ 32) w).2) := by
          rw [← hr]
        rw [e0]
        simp only
        rcases ih 0 total (WriteFile env (message.drop total) ((L - total) % 2 ^ 32) w).2 with
          ⟨b, t, w', hr', he⟩ | ⟨w', hr', he⟩
        · exact Or.inl ⟨b, t, w', hr', hx.trans he⟩
        · exact Or.inr ⟨w', hr', hx.trans he⟩
      | some b0 =>
        have e0 : WriteFile env (message.drop total) ((L - total) % 2 ^ 32) w
            = (some b0, (WriteFile env (message.drop total) ((L - total) % 2 ^ 32) w).2) := by
          rw [← hr]
        rw [e0]
        simp only
        rcases ih b0 ((total + b0) % 2 ^ 32)
            (WriteFile env (message.drop total) ((L - total) % 2 ^ 32) w).2 with
          ⟨b, t, w', hr', he⟩ | ⟨w', hr', he⟩
        · exact Or.inl ⟨b, t, w', hr', hx.trans he⟩
        · exact Or.inr ⟨w', hr', hx.trans he⟩
    · exact Or.inl ⟨bw, total, w, by simp [sendLoop, h], Extends.refl w⟩

/-- `sendFrameVCP` either returns or is still writing; it records no call of
`main`. -/
theorem sendFrameVCP_gen (env : Env) (fuel : Nat) (message : List Nat) (L : Nat) (w : World) :
    (∃ r w', sendFrameVCP env fuel message L w = Res.ok (r, w') ∧ Extends w w' []) ∨
    (∃ w', sendFrameVCP env fuel message L w = Res.running w' ∧ Extends w w' []) := by
  unfold sendFrameVCP
  rcases sendLoop_gen env message L fuel 0 0 w with ⟨b, t, w', hr, he⟩ | ⟨w', hr, he⟩
  · rw [hr]
    by_cases hb : b = L
    · exact Or.inl ⟨true, w', by simp [Res.bind, hb], he⟩
    · exact Or.inl ⟨false, w', by simp [Res.bind, hb], he⟩
  · rw [hr]
    exact Or.inr ⟨w', by simp [Res.bind], he⟩

theorem waitLoop_gen (env : Env) (openTime : Nat) (startTime : Int) :
    ∀ (fuel : Nat) (w : World),
      (∃ w', waitLoop env openTime startTime fuel w = Res.ok w' ∧ Extends w w' []) ∨
      (∃ w', waitLoop env openTime startTime fuel w = Res.running w' ∧ Extends w w' []) := by
  intro fuel
  induction fuel with
  | zero => intro w; exact Or.inr ⟨w, rfl, Extends.refl w⟩
  | succ f ih =>
    intro w
    by_cases h : (clock env w).1 - startTime < (openTime : Int)
    · simp only [waitLoop, h, if_true]
      have hx : Extends w (Sleep _SLEEP_TIME (clock env w).2) [] :=
        (Extends_clock env w).trans (Extends_Sleep _ _)
      rcases ih (Sleep _SLEEP_TIME (clock env w).2) with ⟨w', hr, he⟩ | ⟨w', hr, he⟩
      · exact Or.inl ⟨w', hr, hx.trans he⟩
      · exact Or.inr ⟨w', hr, hx.trans he⟩
    · exact Or.inl ⟨(clock env w).2, by simp [waitLoop, h], Extends_clock env w⟩

/-! ### The phases of a cycle in any environment -/

/-- The four ways the "OPEN RELAY/S" section can go when its condition
holds: the open fails and `main` returns -1; the send is still writing; the
close fails and `main` returns -1; or the section completes. -/
theorem openRelaysPhase_gen (env : Env) (fuel : Nat) (g : Globals) (s : Int) (w : World)
    (hcond : openCond g = true) :
    (∃ w1, openRelaysPhase env fuel g s w
        = Res.ok (some (-1), s, w1.log (Event.tryOpenVCP Phase.openRelays false)) ∧
      Extends w w1 []) ∨
    (∃ w', openRelaysPhase env fuel g s w = Res.running w' ∧
      Extends w w' [Event.tryOpenVCP Phase.openRelays true]) ∨
    (∃ r t w1, openRelaysPhase env fuel g s w
        = Res.ok (some (-1), t, w1.log (Event.tryCloseVCP Phase.openRelays false)) ∧
      Extends w w1 [Event.tryOpenVCP Phase.openRelays true,
        Event.sendFrameVCP Phase.openRelays (g._rs485OpenMsg.getD []) r]) ∨
    (∃ r t w', openRelaysPhase env fuel g s w = Res.ok (none, t, w') ∧
      Extends w w' [Event.tryOpenVCP Phase.openRelays true,
        Event.sendFrameVCP Phase.openRelays (g._rs485OpenMsg.getD []) r,
        Event.tryCloseVCP Phase.openRelays true]) := by
  obtain ⟨r1, w1, h1, x1⟩ := tryOpenVCP_gen env _MAX_OPEN_VCP_TRIES w
  cases r1 with
  | false =>
    refine Or.inl ⟨w1, ?_, x1⟩
    simp [openRelaysPhase, hcond, h1, Res.bind]
  | true =>
    have x1' := x1.then_log (Event.tryOpenVCP Phase.openRelays true) rfl
    rcases sendFrameVCP_gen env fuel (g._rs485OpenMsg.getD []) (g._numOfRelays * 3)
        (w1.log (Event.tryOpenVCP Phase.openRelays true)) with ⟨r2, w2, h2, x2⟩ | ⟨w2, h2, x2⟩
    · have x2' := ((x1'.trans x2).then_log
        (Event.sendFrameVCP Phase.openRelays (g._rs485OpenMsg.getD []) r2) rfl).trans
        (Extends_clock env _)
      obtain ⟨r3, w4, h3, x3⟩ := tryCloseVCP_gen env _MAX_CLOSE_VCP_TRIES
        (clock env (w2.log (Event.sendFrameVCP Phase.openRelays
          (g._rs485OpenMsg.getD []) r2))).2
      cases r3 with
      | false =>
        refine Or.inr (Or.inr (Or.inl ⟨r2, (clock env (w2.log (Event.sendFrameVCP
          Phase.openRelays (g._rs485OpenMsg.getD []) r2))).1, w4, ?_, x2'.trans x3⟩))
        simp [openRelaysPhase, hcond, h1, h2, h3, Res.bind]
      | true =>
        refine Or.inr (Or.inr (Or.inr ⟨r2, (clock env (w2.log (Event.sendFrameVCP
          Phase.openRelays (g._rs485OpenMsg.getD []) r2))).1,
          w4.log (Event.tryCloseVCP Phase.openRelays true), ?_,
          (x2'.trans x3).then_log (Event.tryCloseVCP Phase.openRelays true) rfl⟩))
        simp [openRelaysPhase, hcond, h1, h2, h3, Res.bind]
    · refine Or.inr (Or.inl ⟨w2, ?_, x1'.trans x2⟩)
      simp [openRelaysPhase, hcond, h1, h2, Res.bind]

/-- The four ways the "CLOSE RELAY/S" section can go when its condition
holds. -/
theorem closeRelaysPhase_gen (env : Env) (fuel : Nat) (g : Globals) (w : World)
    (hcond : closeCond g = true) :
    (∃ w1, closeRelaysPhase env fuel g w
        = Res.ok (some (-1), w1.log (Event.tryOpenVCP Phase.closeRelays false)) ∧
      Extends w w1 []) ∨
    (∃ w', closeRelaysPhase env fuel g w = Res.running w' ∧
      Extends w w' [Event.tryOpenVCP Phase.closeRelays true]) ∨
    (∃ r w1, closeRelaysPhase env fuel g w
        = Res.ok (some (-1), w1.log (Event.tryCloseVCP Phase.closeRelays false)) ∧
      Extends w w1 [Event.tryOpenVCP Phase.closeRelays true,
        Event.sendFrameVCP Phase.closeRelays (g._rs485CloseMsg.getD []) r]) ∨
    (∃ r w', closeRelaysPhase env fuel g w = Res.ok (none, w') ∧
      Extends w w' [Event.tryOpenVCP Phase.closeRelays true,
        Event.sendFrameVCP Phase.closeRelays (g._rs485CloseMsg.getD []) r,
        Event.tryCloseVCP Phase.closeRelays true]) := by
  obtain ⟨r1, w1, h1, x1⟩ := tryOpenVCP_gen env _MAX_OPEN_VCP_TRIES w
  cases r1 with
  | false =>
    refine Or.inl ⟨w1, ?_, x1⟩
    simp [closeRelaysPhase, hcond, h1, Res.bind]
  | true =>
    have x1' := x1.then_log (Event.tryOpenVCP Phase.closeRelays true) rfl
    rcases sendFrameVCP_gen env fuel (g._rs485CloseMsg.getD []) (g._numOfRelays * 3)
        (w1.log (Event.tryOpenVCP Phase.closeRelays true)) with ⟨r2, w2, h2, x2⟩ | ⟨w2, h2, x2⟩
    · have x2' := (x1'.trans x2).then_log
        (Event.sendFrameVCP Phase.closeRelays (g._rs485CloseMsg.getD []) r2) rfl
      obtain ⟨r3, w3, h3, x3⟩ := tryCloseVCP_gen env _MAX_CLOSE_VCP_TRIES
        (w2.log (Event.sendFrameVCP Phase.closeRelays (g._rs485CloseMsg.getD []) r2))
      cases r3 with
      | false =>
        refine Or.inr (Or.inr (Or.inl ⟨r2, w3, ?_, x2'.trans x3⟩))
        simp [closeRelaysPhase, hcond, h1, h2, h3, Res.bind]
      | true =>
        refine Or.inr (Or.inr (Or.inr ⟨r2, w3.log (Event.tryCloseVCP Phase.closeRelays true), ?_,
          (x2'.trans x3).then_log (Event.tryCloseVCP Phase.closeRelays true) rfl⟩))
        simp [closeRelaysPhase, hcond, h1, h2, h3, Res.bind]
    · refine Or.inr (Or.inl ⟨w2, ?_, x1'.trans x2⟩)
      simp [closeRelaysPhase, hcond, h1, h2, Res.bind]

theorem waitPhase_gen (env : Env) (fuel : Nat) (g : Globals) (s : Int) (w : World) :
    (∃ w', waitPhase env fuel g s w = Res.ok w' ∧
      Extends w w' (if g._openTimeFlag then [Event.waitDone] else [])) ∨
    (∃ w', waitPhase env fuel g s w = Res.running w' ∧ Extends w w' []) := by
  cases hflag : g._openTimeFlag with
  | false => exact Or.inl ⟨w, by simp [waitPhase, hflag], Extends.refl w⟩
  | true =>
    rcases waitLoop_gen env g._openTime s fuel w with ⟨w1, h1, x1⟩ | ⟨w1, h1, x1⟩
    · exact Or.inl ⟨w1.log Event.waitDone, by simp [waitPhase, hflag, h1, Res.bind],
        x1.then_log Event.waitDone rfl⟩
    · exact Or.inr ⟨w1, by simp [waitPhase, hflag, h1, Res.bind], x1⟩

/-! ### The pulse loop in any environment -/

theorem Clean_nil : Clean [] := by intro e he; cases he

theorem Clean_append {a b : List Event} (ha : Clean a) (hb : Clean b) : Clean (a ++ b) := by
  intro e he
  rcases List.mem_append.mp he with h | h
  · exact ha e h
  · exact hb e h

theorem decrs_append (a b : List Event) : decrs (a ++ b) = decrs a + decrs b := by
  simp [decrs, List.filter_append]

theorem Quiet_nil : Quiet [] := ⟨Clean_nil, rfl⟩

theorem Quiet_append {a b : List Event} (ha : Quiet a) (hb : Quiet b) : Quiet (a ++ b) :=
  ⟨Clean_append ha.1 hb.1, by rw [decrs_append, ha.2, hb.2]⟩

theorem Quiet_of_forall (m : List Event) (h : ∀ e ∈ m, e.isFail = false ∧ e.isDecr = false) :
    Quiet m := by
  refine ⟨fun e he => (h e he).1, ?_⟩
  unfold decrs
  rw [List.length_eq_zero, List.filter_eq_nil_iff]
  intro e he
  simp [(h e he).2]

theorem openRelaysPhase_uniform (env : Env) (fuel : Nat) (g : Globals) (s : Int) (w : World) :
    ∃ m, Quiet m ∧
      ((∃ t w1 e, openRelaysPhase env fuel g s w = Res.ok (some (-1), t, w1.log e) ∧
          Extends w w1 m ∧ e.isFail = true) ∨
       (∃ w', openRelaysPhase env fuel g s w = Res.running w' ∧ Extends w w' m) ∨
       (∃ t w', openRelaysPhase env fuel g s w = Res.ok (none, t, w') ∧ Extends w w' m)) := by
  cases hcond : openCond g with
  | false =>
    exact ⟨[], Quiet_nil, Or.inr (Or.inr ⟨s, w, by simp [openRelaysPhase, hcond],
      Extends.refl w⟩)⟩
  | true =>
    rcases openRelaysPhase_gen env fuel g s w hcond with
      ⟨w1, h, x⟩ | ⟨w', h, x⟩ | ⟨r, t, w1, h, x⟩ | ⟨r, t, w', h, x⟩
    · exact ⟨[], Quiet_nil, Or.inl ⟨s, w1, _, h, x, rfl⟩⟩
    · refine ⟨_, Quiet_of_forall _ ?_, Or.inr (Or.inl ⟨w', h, x⟩)⟩
      intro e he
      simp only [List.mem_singleton] at he
      subst he
      exact ⟨rfl, rfl⟩
    · refine ⟨_, Quiet_of_forall _ ?_, Or.inl ⟨t, w1, _, h, x, rfl⟩⟩
      intro e he
      simp only [List.mem_cons, List.mem_singleton, List.not_mem_nil, or_false] at he
      rcases he with rfl | rfl <;> exact ⟨rfl, rfl⟩
    · refine ⟨_, Quiet_of_forall _ ?_, Or.inr (Or.inr ⟨t, w', h, x⟩)⟩
      intro e he
      simp only [List.mem_cons, List.mem_singleton, List.not_mem_nil, or_false] at he
      rcases he with rfl | rfl | rfl <;> exact ⟨rfl, rfl⟩

theorem closeRelaysPhase_uniform (env : Env) (fuel : Nat) (g : Globals) (w : World) :
    ∃ m, Quiet m ∧
      ((∃ w1 e, closeRelaysPhase env fuel g w = Res.ok (some (-1), w1.log e) ∧
          Extends w w1 m ∧ e.isFail = true) ∨
       (∃ w', closeRelaysPhase env fuel g w = Res.running w' ∧ Extends w w' m) ∨
       (∃ w', closeRelaysPhase env fuel g w = Res.ok (none, w') ∧ Extends w w' m)) := by
  cases hcond : closeCond g with
  | false =>
    exact ⟨[], Quiet_nil, Or.inr (Or.inr ⟨w, by simp [closeRelaysPhase, hcond],
      Extends.refl w⟩)⟩
  | true =>
    rcases closeRelaysPhase_gen env fuel g w hcond with
      ⟨w1, h, x⟩ | ⟨w', h, x⟩ | ⟨r, w1, h, x⟩ | ⟨r, w', h, x⟩
    · exact ⟨[], Quiet_nil, Or.inl ⟨w1, _, h, x, rfl⟩⟩
    · refine ⟨_, Quiet_of_forall _ ?_, Or.inr (Or.inl ⟨w', h, x⟩)⟩
      intro e he
      simp only [List.mem_singleton] at he
      subst he
      exact ⟨rfl, rfl⟩
    · refine ⟨_, Quiet_of_forall _ ?_, Or.inl ⟨w1, _, h, x, rfl⟩⟩
      intro e he
      simp only [List.mem_cons, List.mem_singleton, List.not_mem_nil, or_false] at he
      rcases he with rfl | rfl <;> exact ⟨rfl, rfl⟩
    · refine ⟨_, Quiet_of_forall _ ?_, Or.inr (Or.inr ⟨w', h, x⟩)⟩
      intro e he
      simp only [List.mem_cons, List.mem_singleton, List.not_mem_nil, or_false] at he
      rcases he with rfl | rfl | rfl <;> exact ⟨rfl, rfl⟩

theorem waitPhase_uniform (env : Env) (fuel : Nat) (g : Globals) (s : Int) (w : World) :
    ∃ m, Quiet m ∧
      ((∃ w', waitPhase env fuel g s w = Res.running w' ∧ Extends w w' m) ∨
       (∃ w', waitPhase env fuel g s w = Res.ok w' ∧ Extends w w' m)) := by
  rcases waitPhase_gen env fuel g s w with ⟨w', h, x⟩ | ⟨w', h, x⟩
  · refine ⟨_, Quiet_of_forall _ ?_, Or.inr ⟨w', h, x⟩⟩
    intro e he
    cases hflag : g._openTimeFlag with
    | false => simp [hflag] at he
    | true =>
      simp only [hflag, if_true, List.mem_singleton] at he
      subst he
      exact ⟨rfl, rfl⟩
  · exact ⟨[], Quiet_nil, Or.inl ⟨w', h, x⟩⟩

/-- One iteration of the pulse loop: `main` returns -1 right after a failed
open or close, or is still running, or goes on to the next iteration after
`_impulses--`. -/
theorem pulseLoop_cycle (env : Env) (fuel : Nat) (g : Globals) (n : Nat) (s : Int) (w : World) :
    ∃ m, Quiet m ∧
      ((∃ w1 e, pulseLoop env fuel g (n + 1) s w = Res.ok (-1, n + 1, w1.log e) ∧
          Extends w w1 m ∧ e.isFail = true) ∨
       (∃ w', pulseLoop env fuel g (n + 1) s w = Res.running w' ∧ Extends w w' m) ∨
       (∃ t w', pulseLoop env fuel g (n + 1) s w
            = pulseLoop env fuel g n t (w'.log (Event.impulses n)) ∧
          Extends w w' m)) := by
  obtain ⟨m1, q1, h1⟩ := openRelaysPhase_uniform env fuel g s w
  rcases h1 with ⟨t, w1, e, h, x, hf⟩ | ⟨w', h, x⟩ | ⟨t, w1, h, x1⟩
  · exact ⟨m1, q1, Or.inl ⟨w1, e, by simp [pulseLoop, h, Res.bind], x, hf⟩⟩
  · exact ⟨m1, q1, Or.inr (Or.inl ⟨w', by simp [pulseLoop, h, Res.bind], x⟩)⟩
  · obtain ⟨m2, q2, h2⟩ := waitPhase_uniform env fuel g t w1
    rcases h2 with ⟨w', h', x⟩ | ⟨w2, h', x2⟩
    · exact ⟨m1 ++ m2, Quiet_append q1 q2,
        Or.inr (Or.inl ⟨w', by simp [pulseLoop, h, h', Res.bind], x1.trans x⟩)⟩
    · obtain ⟨m3, q3, h3⟩ := closeRelaysPhase_uniform env fuel g w2
      have q : Quiet (m1 ++ m2 ++ m3) := Quiet_append (Quiet_append q1 q2) q3
      rcases h3 with ⟨w3, e, h'', x, hf⟩ | ⟨w', h'', x⟩ | ⟨w3, h'', x⟩
      · exact ⟨_, q, Or.inl ⟨w3, e, by simp [pulseLoop, h, h', h'', Res.bind],
          (x1.trans x2).trans x, hf⟩⟩
      · exact ⟨_, q, Or.inr (Or.inl ⟨w', by simp [pulseLoop, h, h', h'', Res.bind],
          (x1.trans x2).trans x⟩)⟩
      · exact ⟨_, q, Or.inr (Or.inr ⟨t, w3, by simp [pulseLoop, h, h', h'', Res.bind],
          (x1.trans x2).trans x⟩)⟩

/-- The pulse loop from the counter value `n`: it completes `n` cycles and
`main` returns 0, or it is still running, or `main` returned -1 right after the
first failed open or close, with the counter at the value `k` it had at the
start of that cycle. -/
theorem pulseLoop_gen (env : Env) (fuel : Nat) (g : Globals) :
    ∀ (n : Nat) (s : Int) (w : World),
      ∃ m, Clean m ∧
        ((∃ w', pulseLoop env fuel g n s w = Res.ok (0, 0, w') ∧ Extends w w' m ∧
            decrs m = n) ∨
         (∃ w', pulseLoop env fuel g n s w = Res.running w' ∧ Extends w w' m) ∨
         (∃ k w1 e, pulseLoop env fuel g n s w = Res.ok (-1, k, w1.log e) ∧
            Extends w w1 m ∧ e.isFail = true ∧ decrs m + k = n ∧ 1 ≤ k)) := by
  intro n
  induction n with
  | zero =>
    intro s w
    exact ⟨[], Clean_nil, Or.inl ⟨w, rfl, Extends.refl w, rfl⟩⟩
  | succ n ih =>
    intro s w
    obtain ⟨m, q, hc⟩ := pulseLoop_cycle env fuel g n s w
    rcases hc with ⟨w1, e, h, x, hf⟩ | ⟨w', h, x⟩ | ⟨t, w1, h, x⟩
    · exact ⟨m, q.1, Or.inr (Or.inr ⟨n + 1, w1, e, h, x, hf, by rw [q.2]; omega, by omega⟩)⟩
    · exact ⟨m, q.1, Or.inr (Or.inl ⟨w', h, x⟩)⟩
    · obtain ⟨m', c', hrec⟩ := ih t (w1.log (Event.impulses n))
      have xl := x.then_log (Event.impulses n) rfl
      have cl : Clean (m ++ [Event.impulses n]) := by
        refine Clean_append q.1 ?_
        intro e he
        simp only [List.mem_singleton] at he
        subst he
        rfl
      have dl : decrs (m ++ [Event.impulses n]) = 1 := by
        rw [decrs_append, q.2]
        rfl
      refine ⟨(m ++ [Event.impulses n]) ++ m', Clean_append cl c', ?_⟩
      rcases hrec with ⟨w', h', x', hd⟩ | ⟨w', h', x'⟩ | ⟨k, w2, e, h', x', hf, hd, hk⟩
      · exact Or.inl ⟨w', by rw [h, h'], xl.trans x', by rw [decrs_append, dl, hd]; omega⟩
      · exact Or.inr (Or.inl ⟨w', by rw [h, h'], xl.trans x'⟩)
      · exact Or.inr (Or.inr ⟨k, w2, e, by rw [h, h'], xl.trans x', hf,
          by rw [decrs_append, dl]; omega, hk⟩)

theorem isMain_of_isFail (e : Event) (h : e.isFail = true) : e.isMain = true := by
  cases e <;> first | rfl | (simp [Event.isFail] at h)

theorem isMain_of_isDecr (e : Event) (h : e.isDecr = true) : e.isMain = true := by
  cases e <;> first | rfl | (simp [Event.isDecr] at h)

theorem decrs_mainEvents (l : List Event) : decrs (mainEvents l) = decrs l := by
  unfold decrs mainEvents
  rw [List.filter_filter]
  congr 1
  apply List.filter_congr
  intro e _
  cases hd : e.isDecr with
  | false => simp
  | true => simp [isMain_of_isDecr e hd]

theorem Clean_of_mainEvents (l : List Event) (h : Clean (mainEvents l)) :
    ∀ x ∈ l, x.isFail = false := by
  intro x hx
  cases hf : x.isFail with
  | false => rfl
  | true =>
    have hm : x ∈ mainEvents l := by
      unfold mainEvents
      exact List.mem_filter.mpr ⟨hx, isMain_of_isFail x hf⟩
    have hc := h x hm
    rw [hf] at hc
    cases hc

theorem buildBatches_fields (g g1 : Globals) (h : buildBatches g = some g1) :
    ∃ a b, g1 = { g with _rs485OpenMsg := a, _rs485CloseMsg := b } := by
  unfold buildBatches at h
  cases ho : openCond g with
  | false =>
    simp only [ho, Bool.false_eq_true, if_false] at h
    cases hc : closeCond g with
    | false =>
      simp only [hc, Bool.false_eq_true, if_false, Option.some.injEq] at h
      exact ⟨g._rs485OpenMsg, g._rs485CloseMsg, h.symm⟩
    | true =>
      simp only [hc, if_true] at h
      cases hb : buildMsg closeRelayMess g._relays g._numOfRelays with
      | none => simp [hb] at h
      | some r =>
        simp only [hb, Option.map_some', Option.some.injEq] at h
        exact ⟨g._rs485OpenMsg, some r.2, h.symm⟩
  | true =>
    simp only [ho, if_true] at h
    cases hb : buildMsg openRelayMess g._relays g._numOfRelays with
    | none => simp [hb] at h
    | some r =>
      simp only [hb, Option.map_some'] at h
      have hcc : closeCond { g with _rs485OpenMsg := some r.2 } = closeCond g := rfl
      cases hc : closeCond g with
      | false =>
        simp only [hcc, hc, Bool.false_eq_true, if_false, Option.some.injEq] at h
        exact ⟨some r.2, g._rs485CloseMsg, h.symm⟩
      | true =>
        simp only [hcc, hc, if_true] at h
        cases hb2 : buildMsg closeRelayMess g._relays g._numOfRelays with
        | none => simp [hb2] at h
        | some r2 =>
          simp only [hb2, Option.map_some', Option.some.injEq] at h
          exact ⟨some r.2, some r2.2, h.symm⟩

/-- Every run of `main` from line 107 on: it returns 0 with the counter at 0,
or its behaviour is undefined (the batch loop read outside `_relays`), or it is
still running, or it returned -1 right after the first failed open or close. -/
theorem mainFrom_gen (env : Env) (fuel : Nat) (g : Globals) (w : World) :
    ∃ m, Clean m ∧
      ((∃ g' w', mainFrom env fuel g w = Res.ok (0, g', w') ∧ Extends w w' m ∧
          g'._impulses = 0) ∨
       mainFrom env fuel g w = Res.undef ∨
       (∃ w', mainFrom env fuel g w = Res.running w' ∧ Extends w w' m) ∨
       (∃ g' w1 e, mainFrom env fuel g w = Res.ok (-1, g', w1.log e) ∧
          Extends w w1 m ∧ e.isFail = true ∧ decrs m + g'._impulses = g._impulses ∧
          1 ≤ g'._impulses)) := by
  rcases createVCP_gen env fuel g._comPortNumber w with ⟨v, w0, hc, x0⟩ | ⟨w0, hc, x0⟩
  · cases hb : buildBatches g with
    | none =>
      exact ⟨[], Clean_nil, Or.inr (Or.inl (by simp [mainFrom, hc, hb, Res.bind]))⟩
    | some g1 =>
      obtain ⟨a, b, hg1⟩ := buildBatches_fields g g1 hb
      have himp : g1._impulses = g._impulses := by rw [hg1]
      obtain ⟨m, cm, hp⟩ := pulseLoop_gen env fuel g1 g1._impulses 0 w0
      refine ⟨m, cm, ?_⟩
      rcases hp with ⟨w', h, x, _⟩ | ⟨w', h, x⟩ | ⟨k, w1, e, h, x, hf, hd, hk⟩
      · exact Or.inl ⟨{ g1 with _impulses := 0 }, w',
          by simp [mainFrom, hc, hb, h, Res.bind], x0.trans x, rfl⟩
      · exact Or.inr (Or.inr (Or.inl ⟨w', by simp [mainFrom, hc, hb, h, Res.bind],
          x0.trans x⟩))
      · refine Or.inr (Or.inr (Or.inr ⟨{ g1 with _impulses := k }, w1, e,
          by simp [mainFrom, hc, hb, h, Res.bind], x0.trans x, hf, ?_, hk⟩))
        show decrs m + k = g._impulses
        omega
  · exact ⟨[], Clean_nil, Or.inr (Or.inr (Or.inl ⟨w0, by simp [mainFrom, hc, Res.bind], x0⟩))⟩

/-- C6: if a call of `tryOpenVCP` or `tryCloseVCP` by `main` returns false, in
either section of any cycle, then `main` returned -1 and that call is the last
event of the run: no send, open, close, sleep or decrement of `_impulses`
follows it, no earlier open or close had failed, and the final `_impulses` is
the value at the start of that cycle (the parsed count minus the decrements
made before), which is at least 1. -/
theorem C6_open_close_failure_aborts (env : Env) (fuel : Nat) (argv : List (List Char))
    (p : Phase) (e : Event)
    (he : e = Event.tryOpenVCP p false ∨ e = Event.tryCloseVCP p false)
    (hmem : e ∈ runTrace (main env fuel argv)) :
    ∃ ret g0 g w1, parseArgs argv {} = some (ret, g0) ∧
      main env fuel argv = Res.ok (-1, g, w1) ∧
      runTrace (main env fuel argv) = w1.trace ∧
      (∃ t, w1.trace = t ++ [e] ∧ (∀ x ∈ t, x.isFail = false) ∧
        decrs t + g._impulses = g0._impulses) ∧
      1 ≤ g._impulses := by
  have hfail : e.isFail = true := by rcases he with rfl | rfl <;> rfl
  cases hp : parseArgs argv {} with
  | none => simp [main, hp, runTrace] at hmem
  | some r =>
    obtain ⟨ret, g0⟩ := r
    by_cases hret : ret < 4
    · simp [main, hp, hret, runTrace] at hmem
    · have hmain : main env fuel argv = mainFrom env fuel g0 {} := by
        simp [main, hp, hret]
      rw [hmain] at hmem ⊢
      obtain ⟨m, cm, hcases⟩ := mainFrom_gen env fuel g0 {}
      have hcontra : ∀ w' : World, Extends {} w' m → e ∈ w'.trace → False := by
        intro w' x hin
        obtain ⟨evs, ht, hm⟩ := x
        rw [ht] at hin
        simp only [List.nil_append] at hin
        have := Clean_of_mainEvents evs (by rw [hm]; exact cm) e hin
        rw [hfail] at this
        cases this
      rcases hcases with ⟨g', w', h, x, _⟩ | h | ⟨w', h, x⟩ | ⟨g', w1, e', h, x, hf, hd, hk⟩
      · rw [h] at hmem
        exact (hcontra w' x hmem).elim
      · rw [h] at hmem
        simp [runTrace] at hmem
      · rw [h] at hmem
        exact (hcontra w' x hmem).elim
      · rw [h] at hmem
        have hin : e ∈ w1.trace ++ [e'] := hmem
        have hee : e = e' := by
          rcases List.mem_append.mp hin with h1 | h1
          · exact (hcontra w1 x h1).elim
          · simpa using h1
        subst hee
        obtain ⟨evs, ht, hm⟩ := x
        simp only [List.nil_append] at ht
        refine ⟨ret, g0, g', w1.log e, rfl, h, by rw [h]; rfl, ⟨w1.trace, rfl, ?_, ?_⟩, hk⟩
        · exact Clean_of_mainEvents _ (by rw [ht, hm]; exact cm)
        · rw [ht, ← decrs_mainEvents, hm]
          exact hd

set_option maxRecDepth 100000 in
theorem C6_open_close_failure_aborts_witness :
    (Event.tryOpenVCP Phase.openRelays false = Event.tryOpenVCP Phase.openRelays false ∨
      Event.tryOpenVCP Phase.openRelays false = Event.tryCloseVCP Phase.openRelays false) ∧
    Event.tryOpenVCP Phase.openRelays false ∈ runTrace (main envOpenOnce 10 argvStateOn) ∧
    ∃ ret g0 g w1, parseArgs argvStateOn {} = some (ret, g0) ∧
      main envOpenOnce 10 argvStateOn = Res.ok (-1, g, w1) ∧
      runTrace (main envOpenOnce 10 argvStateOn) = w1.trace ∧
      (∃ t, w1.trace = t ++ [Event.tryOpenVCP Phase.openRelays false] ∧
        (∀ x ∈ t, x.isFail = false) ∧
        decrs t + g._impulses = g0._impulses) ∧
      1 ≤ g._impulses :=
  ⟨Or.inl rfl, by decide,
   C6_open_close_failure_aborts envOpenOnce 10 argvStateOn Phase.openRelays
     (Event.tryOpenVCP Phase.openRelays false) (Or.inl rfl) (by decide)⟩

/-! ### Timed pulse mode: the whole run -/

theorem createVCP_succ (env : Env) (fuel : Nat) (portNum : Int) (w : World)
    (hopen : ∀ k, env.CreateFile k = true) :
    ∃ v w', createVCP env (fuel + 1) portNum w = Res.ok (v, w') ∧ Extends w w' [] := by
  rcases createVCP_gen env (fuel + 1) portNum w with h | ⟨w', h, _⟩
  · exact h
  · exfalso
    have e0 : CreateFile env w = (true, (CreateFile env w).2) := by simp [CreateFile, hopen]
    simp only [createVCP, createLoop, ge_iff_le, Nat.zero_le, if_true] at h
    rw [e0] at h
    simp [Res.bind] at h

theorem buildBatches_timed (g : Globals) (sel : List Nat)
    (hflag : g._openTimeFlag = true) (hrel : g._relays = sel.map some)
    (hnum : g._numOfRelays = sel.length) (hsel : ∀ r ∈ sel, 1 ≤ r ∧ r ≤ 120) :
    buildBatches g = some { g with _rs485OpenMsg := some (sel.flatMap (frameOf 1)),
                                   _rs485CloseMsg := some (sel.flatMap (frameOf 0)) } := by
  have hsel2 : ∀ r ∈ sel, 1 ≤ r ∧ r ≤ 255 := fun r hr => ⟨(hsel r hr).1, by
    have := (hsel r hr).2
    omega⟩
  obtain ⟨y1, h1⟩ := buildMsg_eq 1 0 sel hsel2
  obtain ⟨y0, h0⟩ := buildMsg_eq 0 0 sel hsel2
  have ho : openRelayMess = [0xff, 0, 1, 0] := by
    simp [openRelayMess, sprintf_ccc, _FRAME_RELAY_ON]
  have hc : closeRelayMess = [0xff, 0, 0, 0] := by
    simp [closeRelayMess, sprintf_ccc, _FRAME_RELAY_OFF]
  have hoc : openCond g = true := by simp [openCond, hflag]
  have hcc : ∀ a, closeCond { g with _rs485OpenMsg := a } = true := by
    intro a; simp [closeCond, hflag]
  rw [← hrel, ← hnum] at h1 h0
  simp only [buildBatches, hoc, if_true, ho, h1, Option.map_some', hcc, hc, h0]

/-- C3: in timed pulse mode (`_openTimeFlag` set) with impulse count N and
every open, write and close succeeding (and a clock that advances), `main`
returns 0 after exactly N cycles, each cycle being: open the channel, send the
ON batch, close, wait, open, send the OFF batch, close, then decrement the
counter, which ends at 0. With selection [4] and 2 impulses the batches sent
are FF 04 01, FF 04 00, FF 04 01, FF 04 00 in that order. -/
theorem C3_timed_pulse_cycles (env : Env) (fuel : Nat) (g : Globals) (sel : List Nat) (N : Nat)
    (hopen : ∀ k, env.CreateFile k = true) (hclose : ∀ k, env.CloseHandle k = true)
    (hwrite : ∀ k, ∃ b, env.WriteFile k = some b ∧ 3 * sel.length ≤ b)
    (hclock : ∀ k, env.clock k < env.clock (k + 1))
    (hflag : g._openTimeFlag = true) (himp : g._impulses = N) (hN : N ≤ 255)
    (hrel : g._relays = sel.map some) (hnum : g._numOfRelays = sel.length)
    (hsel : ∀ r ∈ sel, 1 ≤ r ∧ r ≤ 120) (hlen : sel.length ≤ 255)
    (hfuel : g._openTime < fuel) :
    (∃ g' w', mainFrom env fuel g {} = Res.ok (0, g', w') ∧ g'._impulses = 0 ∧
      mainEvents w'.trace
        = pulseCycles (sel.flatMap (frameOf 1)) (sel.flatMap (frameOf 0)) N ∧
      decrs w'.trace = N) ∧
    (runCode (main envTick 10 argvPulse2) = some 0 ∧
      sentBatches (runTrace (main envTick 10 argvPulse2))
        = [[0xff, 0x04, 0x01], [0xff, 0x04, 0x00], [0xff, 0x04, 0x01], [0xff, 0x04, 0x00]] ∧
      wire (runTrace (main envTick 10 argvPulse2))
        = [0xff, 0x04, 0x01, 0xff, 0x04, 0x00, 0xff, 0x04, 0x01, 0xff, 0x04, 0x00]) := by
  have _hN := hN
  constructor
  · subst himp
    obtain ⟨f, rfl⟩ : ∃ f, fuel = f + 1 := ⟨fuel - 1, by omega⟩
    obtain ⟨v, w0, hc, x0⟩ := createVCP_succ env f g._comPortNumber {} hopen
    have hb := buildBatches_timed g sel hflag hrel hnum hsel
    obtain ⟨w', hp, ep⟩ := pulseLoop_ok env (f + 1)
      { g with _rs485OpenMsg := some (sel.flatMap (frameOf 1)),
               _rs485CloseMsg := some (sel.flatMap (frameOf 0)) }
      hopen hclose
      (by
        intro k
        obtain ⟨b, hb1, hb2⟩ := hwrite k
        exact ⟨b, hb1, by show g._numOfRelays * 3 ≤ b; omega⟩)
      hclock
      (by show g._numOfRelays * 3 < 2 ^ 32; omega)
      hflag hfuel g._impulses 0 w0
    have hm0 : mainEvents w0.trace = [] := by
      have := x0.mainEvents_eq
      simpa [mainEvents] using this
    have hev : mainEvents w'.trace
        = pulseCycles (sel.flatMap (frameOf 1)) (sel.flatMap (frameOf 0)) g._impulses := by
      rw [ep, hm0]
      rfl
    have hdec : ∀ a b n, decrs (pulseCycles a b n) = n := by
      intro a b n
      induction n with
      | zero => rfl
      | succ n ih =>
        rw [pulseCycles, decrs_append, ih]
        have : decrs (pulseCycle a b n) = 1 := rfl
        omega
    refine ⟨{ g with _rs485OpenMsg := some (sel.flatMap (frameOf 1)),
                     _rs485CloseMsg := some (sel.flatMap (frameOf 0)),
                     _impulses := 0 }, w', ?_, rfl, hev, ?_⟩
    · simp only [mainFrom, hc, Res.bind, hb, hp]
    · rw [← decrs_mainEvents, hev, hdec]
  · decide

theorem C3_timed_pulse_cycles_witness :
    ∃ g' w', mainFrom envOk 10
        { _openTimeFlag := true, _openTime := 3, _impulses := 2,
          _relays := [some 4, some 9], _numOfRelays := 2 } {} = Res.ok (0, g', w') ∧
      g'._impulses = 0 ∧
      mainEvents w'.trace
        = pulseCycles ([4, 9].flatMap (frameOf 1)) ([4, 9].flatMap (frameOf 0)) 2 ∧
      decrs w'.trace = 2 :=
  (C3_timed_pulse_cycles envOk 10
    { _openTimeFlag := true, _openTime := 3, _impulses := 2,
      _relays := [some 4, some 9], _numOfRelays := 2 } [4, 9] 2
    (fun _ => rfl) (fun _ => rfl) (fun _ => ⟨1000, rfl, by decide⟩)
    (fun k => by show (k : Int) < ((k + 1 : Nat) : Int); omega)
    rfl rfl (by decide) rfl rfl (by decide) (by decide) (by decide)).1

/-- C5 (the code at the failing input): three impulses on relay 4; in the
second cycle the ON batch goes out in two writes and `sendFrameVCP` returns
false. `main` discards that value: the second cycle goes on with the close,
the wait and the OFF batch, the third cycle runs in full, and `main` returns
0. -/
theorem C5_send_failure_ignored :
    runCode (main envCycle2 10 argvPulse3) = some 0 ∧
    mainEvents (runTrace (main envCycle2 10 argvPulse3))
      = pulseCycle [0xff, 4, 1] [0xff, 4, 0] 2 ++
        [Event.tryOpenVCP Phase.openRelays true,
         Event.sendFrameVCP Phase.openRelays [0xff, 4, 1] false,
         Event.tryCloseVCP Phase.openRelays true,
         Event.waitDone,
         Event.tryOpenVCP Phase.closeRelays true,
         Event.sendFrameVCP Phase.closeRelays [0xff, 4, 0] true,
         Event.tryCloseVCP Phase.closeRelays true,
         Event.impulses 1] ++
        pulseCycle [0xff, 4, 1] [0xff, 4, 0] 0 := by
  decide

/-! ### What an accepted command line leaves in the variables -/

theorem relayModalityLoop_mode :
    ∀ (cs : List Char) (rv : Int) (nf : Nat) (nnf : Bool) (g : Globals),
      modeOf (relayModalityLoop cs rv nf nnf g).2 = modeOf g := by
  intro cs
  induction cs with
  | nil => intro rv nf nnf g; rfl
  | cons c cs ih =>
    intro rv nf nnf g
    simp only [relayModalityLoop]
    split_ifs <;> first | rfl | (rw [ih]; rfl)

theorem relayCase_mode (v : List Char) (g g1 : Globals) (c : Option Int)
    (h : relayCase v g = some (c, g1)) : modeOf g1 = modeOf g := by
  have hm := relayModalityLoop_mode v _singleRelay 0 false g
  unfold relayCase at h
  simp only [relayModality] at h
  split_ifs at h
  all_goals first
    | (simp only [Option.some.injEq, Prod.mk.injEq] at h; rw [← h.2]; exact hm)
    | (split at h
       · cases h
       · simp only [Option.some.injEq, Prod.mk.injEq] at h; rw [← h.2, ← hm]; rfl)

theorem ModeInv_of_mode (g g1 : Globals) (h : modeOf g1 = modeOf g) (hi : ModeInv g) :
    ModeInv g1 := by
  simp only [modeOf, Prod.mk.injEq] at h
  obtain ⟨h1, h2, h3, h4, h5, h6, h7⟩ := h
  unfold ModeInv at hi ⊢
  rw [h1, h2, h3, h4, h5, h6, h7]
  exact hi

theorem relayCase_code (v : List Char) (g g1 : Globals) (c : Int)
    (h : relayCase v g = some (some c, g1)) : c = -1 := by
  unfold relayCase at h
  simp only [relayModality] at h
  split_ifs at h
  all_goals first
    | (simp only [Option.some.injEq, Prod.mk.injEq] at h; exact h.1.symm)
    | (simp only [Option.some.injEq, Prod.mk.injEq] at h; exact absurd h.1 (by simp))
    | (split at h
       · cases h
       · simp only [Option.some.injEq, Prod.mk.injEq] at h; exact absurd h.1 (by simp))

theorem ModeInv_openTime (g : Globals) (x : Nat) (hs : ¬ g._stateFlag = true) (hi : ModeInv g) :
    ModeInv { g with _openTime := x, _openTimeFlag := true } :=
  ⟨fun h => absurd h hs, hi.2⟩

theorem ModeInv_impulses (g : Globals) (x : Nat) (hi : ModeInv g) :
    ModeInv { g with _impulses := x, _impulsesFlag := true } :=
  ⟨hi.1, fun h => (by cases h), hi.2.2⟩

theorem ModeInv_baudrate (g : Globals) (x : Int) (hi : ModeInv g) :
    ModeInv { g with _baudrate := x } := ⟨hi.1, hi.2⟩

theorem ModeInv_comPort (g : Globals) (x : Int) (hi : ModeInv g) :
    ModeInv { g with _comPortNumber := x } := ⟨hi.1, hi.2⟩

theorem ModeInv_state (g : Globals) (v : List Char) (ho : (!g._openTimeFlag) = true)
    (hv : (decide (v = "on".toList) || decide (v = "off".toList)) = true) (hi : ModeInv g) :
    ModeInv { g with _relayState := v, _stateFlag := true } := by
  refine ⟨fun _ => ⟨by simpa using ho, ?_⟩, hi.2⟩
  simpa using hv

set_option maxHeartbeats 1000000 in
theorem parseLoop_accept (n : Nat) :
    ∀ (args : List (List Char)) (argn : Int) (g : Globals) (ret : Int) (g' : Globals),
      args.length ≤ n → parseLoop args argn g = some (ret, g') → 4 ≤ ret → ModeInv g →
      ModeInv g' ∧ ¬ (g'._impulsesFlag = true ∧ g'._openTimeFlag = false) := by
  induction n with
  | zero =>
    intro args argn g ret g' hlen h hret hinv
    have : args = [] := List.length_eq_zero.mp (by omega)
    subst this
    simp only [parseLoop] at h
    split_ifs at h with hc
    · simp only [Option.some.injEq, Prod.mk.injEq] at h; omega
    · simp only [Option.some.injEq, Prod.mk.injEq] at h
      rw [← h.2]
      refine ⟨hinv, ?_⟩
      intro hh
      apply hc
      simp [hh.1, hh.2]
  | succ n ih =>
    intro args argn g ret g' hlen h hret hinv
    cases args with
    | nil =>
      simp only [parseLoop] at h
      split_ifs at h with hc
      · simp only [Option.some.injEq, Prod.mk.injEq] at h; omega
      · simp only [Option.some.injEq, Prod.mk.injEq] at h
        rw [← h.2]
        refine ⟨hinv, ?_⟩
        intro hh
        apply hc
        simp [hh.1, hh.2]
    | cons a rest =>
      cases rest with
      | nil =>
        simp only [parseLoop] at h
        split_ifs at h <;> simp only [Option.some.injEq, Prod.mk.injEq] at h <;> omega
      | cons v rest1 =>
        have hl : rest1.length ≤ n := by simp only [List.length_cons] at hlen; omega
        simp only [parseLoop] at h
        split_ifs at h
        · cases hrc : relayCase v g with
          | none => simp only [hrc] at h; cases h
          | some r =>
            obtain ⟨c, g1⟩ := r
            cases c with
            | some code =>
              have := relayCase_code v g g1 code hrc
              simp only [hrc, Option.some.injEq, Prod.mk.injEq] at h
              omega
            | none =>
              simp only [hrc] at h
              have hm := relayCase_mode v g g1 none hrc
              have hi2 := ModeInv_of_mode g g1 hm hinv
              exact ih rest1 (argn + 2) g1 ret g' hl h hret hi2
        all_goals first
          | (simp only [Option.some.injEq, Prod.mk.injEq] at h; omega)
          | cases h
          | exact ih _ _ _ _ _ hl h hret (ModeInv_openTime g _ (by assumption) hinv)
          | exact ih _ _ _ _ _ hl h hret (ModeInv_impulses g _ hinv)
          | exact ih _ _ _ _ _ hl h hret (ModeInv_baudrate g _ hinv)
          | exact ih _ _ _ _ _ hl h hret (ModeInv_comPort g _ hinv)
          | exact ih _ _ _ _ _ hl h hret
              (ModeInv_state g v (by assumption) (by assumption) hinv)

/-- What an accepted command line leaves in the mode variables. -/
theorem parseArgs_accept (argv : List (List Char)) (ret : Int) (g : Globals)
    (h : parseArgs argv {} = some (ret, g)) (hret : 4 ≤ ret) :
    ModeInv g ∧ ¬ (g._impulsesFlag = true ∧ g._openTimeFlag = false) := by
  unfold parseArgs at h
  split_ifs at h
  · simp only [Option.some.injEq, Prod.mk.injEq] at h; omega
  · exact parseLoop_accept _ _ _ _ _ _ (Nat.le_refl _) h hret
      ⟨fun hh => (by cases hh), fun _ => rfl, rfl, rfl⟩

/-! ### Direct state-set mode -/

theorem sendLoop_allfail (env : Env) (message : List Nat) (L : Nat)
    (hfail : ∀ k, env.WriteFile k = none) :
    ∀ (fuel bw total : Nat) (w : World), total < L →
      ∃ w', sendLoop env message L fuel bw total w = Res.running w' ∧
        w'.nWriteFile = w.nWriteFile + fuel ∧
        w'.trace = w.trace ++ List.replicate fuel
          (Event.WriteFile ((message.drop total).take ((L - total) % 2 ^ 32)) none) := by
  intro fuel
  induction fuel with
  | zero => intro bw total w h; exact ⟨w, by simp [sendLoop, h], rfl, by simp⟩
  | succ f ih =>
    intro bw total w h
    obtain ⟨w', hrun, hcnt, htr⟩ := ih 0 total
      (WriteFile env (message.drop total) ((L - total) % 2 ^ 32) w).2 h
    have e0 : WriteFile env (message.drop total) ((L - total) % 2 ^ 32) w
        = (none, (WriteFile env (message.drop total) ((L - total) % 2 ^ 32) w).2) := by
      simp [WriteFile, hfail]
    refine ⟨w', ?_, ?_, ?_⟩
    · simp only [sendLoop, h, if_true]
      rw [e0]
      exact hrun
    · rw [hcnt]
      simp only [WriteFile]
      omega
    · rw [htr]
      simp [WriteFile, hfail, List.replicate_succ]

/-- C11 (the code at the failing input): on a device whose writes always fail,
`sendFrameVCP` with a non-empty message is still in its loop after any number
of calls: for every budget `fuel` it has called `WriteFile` `fuel` times, each
time for the same bytes, and has not returned. And after a single failed write
it calls `WriteFile` again for the same bytes and returns true when that one
succeeds. -/
theorem C11_write_error_retried (env : Env) (hfail : ∀ k, env.WriteFile k = none)
    (fuel : Nat) (message : List Nat) (L : Nat) (hL : 0 < L) (w : World) :
    (∃ w', sendFrameVCP env fuel message L w = Res.running w' ∧
      w'.nWriteFile = w.nWriteFile + fuel ∧
      w'.trace = w.trace ++ List.replicate fuel
        (Event.WriteFile (message.take (L % 2 ^ 32)) none)) ∧
    sendFrameVCP envWriteErrOnce 10 [0xff, 0x04, 0x01] 3 {}
      = Res.ok (true,
          { nWriteFile := 2,
            trace := [Event.WriteFile [0xff, 0x04, 0x01] none,
                      Event.WriteFile [0xff, 0x04, 0x01] (some 3)] }) := by
  constructor
  · obtain ⟨w', hrun, hcnt, htr⟩ := sendLoop_allfail env message L hfail fuel 0 0 w hL
    refine ⟨w', by simp [sendFrameVCP, hrun, Res.bind], hcnt, ?_⟩
    simpa using htr
  · decide

theorem C11_write_error_retried_witness :
    (∀ k, envWriteFail.WriteFile k = none) ∧ (0 : Nat) < 3 ∧
    ∃ w', sendFrameVCP envWriteFail 1000 [0xff, 0x04, 0x01] 3 {} = Res.running w' ∧
      w'.nWriteFile = ({} : World).nWriteFile + 1000 ∧
      w'.trace = ({} : World).trace ++ List.replicate 1000
        (Event.WriteFile ([0xff, 0x04, 0x01].take (3 % 2 ^ 32)) none) :=
  ⟨fun _ => rfl, by decide,
   (C11_write_error_retried envWriteFail (fun _ => rfl) 1000 [0xff, 0x04, 0x01] 3
     (by decide) {}).1⟩

/-! ### Command lines the parser accepts -/

/-- C13 (the code at the failing input): with `-baudRate 19200` the parser
stores 19200 in `_baudrate`, and `createVCP` still configures the port with
`SetCommState` at 9600. In every call `_setConnectionParameters` leaves
`BaudRate` at `BAUD_RATE_DEFAULT`, or untouched when `GetCommState` fails. -/
theorem C13_baud_rate_not_applied :
    (accepted (parseArgs argvBaud {})).map (fun g => g._baudrate) = some 19200 ∧
    (runTrace (main envOk 10 argvBaud)).take 5
      = [Event.CreateFile true, Event.GetCommState true,
         Event.SetCommState 9600 8 0 0 true, Event.SetCommTimeouts true,
         Event.CloseHandle true] ∧
    ∀ (env : Env) (vcp : Vcp) (w : World),
      (_setConnectionParameters env vcp w).2.1.BaudRate = BAUD_RATE_DEFAULT ∨
      (_setConnectionParameters env vcp w).2.1.BaudRate = vcp.BaudRate := by
  refine ⟨by decide, by decide, ?_⟩
  intro env vcp w
  unfold _setConnectionParameters
  cases h1 : env.GetCommState w.nGetCommState with
  | false =>
    have e1 : GetCommState env w = (false, (GetCommState env w).2) := by simp [GetCommState, h1]
    rw [e1]
    exact Or.inr rfl
  | true =>
    have e1 : GetCommState env w = (true, (GetCommState env w).2) := by simp [GetCommState, h1]
    rw [e1]
    refine Or.inl ?_
    simp only
    split
    · rfl
    · split <;> rfl

/-- C14 (the code at the failing inputs): `-relay 0`, `-relay 200` and
`-relay 2,200` are accepted (with `-state on`, `parseArgs` returns 4), the
selections hold the indices 0, 200 and 2, 200, and `main` goes on to send the
frame of relay 200. -/
theorem C14_out_of_range_accepted :
    (accepted (parseArgs (argvRelayOn "0") {})).map (fun g => g._relays) = some [some 0] ∧
    (accepted (parseArgs (argvRelayOn "200") {})).map (fun g => g._relays)
      = some [some 200] ∧
    (accepted (parseArgs (argvRelayOn "2,200") {})).map (fun g => g._relays)
      = some [some 2, some 200] ∧
    runCode (main envOk 10 (argvRelayOn "200")) = some 0 ∧
    wire (runTrace (main envOk 10 (argvRelayOn "200"))) = [0xff, 200, 0x01] := by
  decide

/-- C15 (the code at the failing input): `-impulses -1` is accepted; the
value is stored in the `uint8_t` `_impulses` as 255 and the test
`_impulses < 0` is never true, for any value string. -/
theorem C15_negative_impulses_accepted :
    (accepted (parseArgs argvNegImpulses {})).map
        (fun g => (g._impulses, g._impulsesFlag, g._openTimeFlag))
      = some (255, true, true) ∧
    atoi "-1".toList = -1 ∧
    ∀ v : List Char, ¬ ((((atoi v % 256).toNat : Nat) : Int) < 0) := by
  refine ⟨by decide, by decide, ?_⟩
  intro v
  omega

/-- C17 (the code at the failing input): `-relay 4 -comPort 3` has neither
`-state` nor `-openTime` and is accepted: `parseArgs` returns 4 with both
flags clear, and `main` locates the device, runs the pulse loop once without
opening the channel or sending anything, and returns 0. -/
theorem C17_neither_mode_accepted :
    (accepted (parseArgs argvNoMode {})).map (fun g => (g._stateFlag, g._openTimeFlag))
      = some (false, false) ∧
    runCode (main envOk 10 argvNoMode) = some 0 ∧
    mainEvents (runTrace (main envOk 10 argvNoMode)) = [Event.impulses 0] ∧
    sentBatches (runTrace (main envOk 10 argvNoMode)) = [] := by
  decide

/-- C19 (the code at the failing input): for the relay byte 0 the frame copied
into the ON batch is FF 00 00, because `strncpy` stops at the NUL in byte 1 and
pads the rest; `-relay 0` and `-relay 256` both put the byte 0 in the
selection, and `main` then sends FF 00 00 as the ON batch. -/
theorem C19_index_zero_on_frame :
    (packFrame openRelayMess 0).2 = [0xff, 0x00, 0x00] ∧
    (packFrame closeRelayMess 0).2 = [0xff, 0x00, 0x00] ∧
    (accepted (parseArgs (argvRelayOn "0") {})).map (fun g => g._relays) = some [some 0] ∧
    (accepted (parseArgs (argvRelayOn "256") {})).map (fun g => g._relays) = some [some 0] ∧
    sentBatches (runTrace (main envOk 10 (argvRelayOn "0"))) = [[0xff, 0x00, 0x00]] ∧
    sentBatches (runTrace (main envOk 10 (argvRelayOn "256"))) = [[0xff, 0x00, 0x00]] := by
  decide

/-- For every relay byte from 1 to 255 the ON frame is FF, index, 01, and for
every relay byte from 0 to 255 the OFF frame is FF, index, 00. -/
theorem frame_bytes_by_index (r : Nat) (h : r ≤ 255) :
    (1 ≤ r → (packFrame openRelayMess r).2 = [0xff, r, 0x01]) ∧
    (packFrame closeRelayMess r).2 = [0xff, r, 0x00] := by
  have ho : openRelayMess = [0xff, 0, 1, 0] := by
    simp [openRelayMess, sprintf_ccc, _FRAME_RELAY_ON]
  have hc : closeRelayMess = [0xff, 0, 0, 0] := by
    simp [closeRelayMess, sprintf_ccc, _FRAME_RELAY_OFF]
  constructor
  · intro h1
    rw [ho, packFrame_eq 0 1 r h1 h]
  · by_cases h0 : r = 0
    · subst h0; decide
    · rw [hc, packFrame_eq 0 0 r (by omega) h]

/-! ### Round trip -/

theorem decodeBatch_frames (s : Nat) (sel : List Nat) :
    decodeBatch (sel.flatMap (frameOf s)) = sel.map (fun r => (0xff, r, s)) := by
  induction sel with
  | nil => rfl
  | cons a t ih =>
    simp only [List.flatMap_cons, frameOf, List.cons_append, List.nil_append, decodeBatch,
      List.map_cons]
    rw [← ih]
    rfl

/-- C18: for every selection with indices in 1..120 (and a `uint8_t` count),
splitting the ON batch and the OFF batch built by `main` into consecutive
3-byte frames gives, in order, one frame per relay of the selection, with
byte 0 = 0xFF, byte 1 = the index and byte 2 = the state byte (01 for ON, 00
for OFF): the indices read back are the selection and every state read back is
the state of the batch. -/
theorem C18_round_trip (sel : List Nat) (hsel : ∀ r ∈ sel, 1 ≤ r ∧ r ≤ 120)
    (hn : sel.length ≤ 255) :
    ∃ onMsg offMsg,
      (buildMsg openRelayMess (sel.map some) sel.length).map Prod.snd = some onMsg ∧
      (buildMsg closeRelayMess (sel.map some) sel.length).map Prod.snd = some offMsg ∧
      decodeBatch onMsg = sel.map (fun r => (0xff, r, 0x01)) ∧
      decodeBatch offMsg = sel.map (fun r => (0xff, r, 0x00)) ∧
      (decodeBatch onMsg).map (fun f => f.2.1) = sel ∧
      (decodeBatch offMsg).map (fun f => f.2.1) = sel ∧
      (∀ f ∈ decodeBatch onMsg, f.1 = 0xff ∧ f.2.2 = 0x01) ∧
      (∀ f ∈ decodeBatch offMsg, f.1 = 0xff ∧ f.2.2 = 0x00) := by
  have _hn := hn
  have hsel2 : ∀ r ∈ sel, 1 ≤ r ∧ r ≤ 255 := fun r hr => ⟨(hsel r hr).1, by
    have := (hsel r hr).2
    omega⟩
  obtain ⟨y1, h1⟩ := buildMsg_eq 1 0 sel hsel2
  obtain ⟨y0, h0⟩ := buildMsg_eq 0 0 sel hsel2
  have ho : openRelayMess = [0xff, 0, 1, 0] := by
    simp [openRelayMess, sprintf_ccc, _FRAME_RELAY_ON]
  have hc : closeRelayMess = [0xff, 0, 0, 0] := by
    simp [closeRelayMess, sprintf_ccc, _FRAME_RELAY_OFF]
  refine ⟨sel.flatMap (frameOf 1), sel.flatMap (frameOf 0), ?_, ?_, decodeBatch_frames 1 sel,
    decodeBatch_frames 0 sel, ?_, ?_, ?_, ?_⟩
  · rw [ho, h1]; rfl
  · rw [hc, h0]; rfl
  · rw [decodeBatch_frames, List.map_map]
    exact List.map_id' sel
  · rw [decodeBatch_frames, List.map_map]
    exact List.map_id' sel
  · intro f hf
    rw [decodeBatch_frames] at hf
    obtain ⟨r, _, rfl⟩ := List.mem_map.mp hf
    exact ⟨rfl, rfl⟩
  · intro f hf
    rw [decodeBatch_frames] at hf
    obtain ⟨r, _, rfl⟩ := List.mem_map.mp hf
    exact ⟨rfl, rfl⟩

theorem C18_round_trip_witness :
    ∃ onMsg offMsg,
      (buildMsg openRelayMess ([4, 9, 4].map some) 3).map Prod.snd = some onMsg ∧
      (buildMsg closeRelayMess ([4, 9, 4].map some) 3).map Prod.snd = some offMsg ∧
      decodeBatch onMsg = [4, 9, 4].map (fun r => (0xff, r, 0x01)) ∧
      decodeBatch offMsg = [4, 9, 4].map (fun r => (0xff, r, 0x00)) ∧
      (decodeBatch onMsg).map (fun f => f.2.1) = [4, 9, 4] ∧
      (decodeBatch offMsg).map (fun f => f.2.1) = [4, 9, 4] ∧
      (∀ f ∈ decodeBatch onMsg, f.1 = 0xff ∧ f.2.2 = 0x01) ∧
      (∀ f ∈ decodeBatch offMsg, f.1 = 0xff ∧ f.2.2 = 0x00) :=
  C18_round_trip [4, 9, 4] (by decide) (by decide)

/-! ### The wait between the ON batch and the OFF batch -/

/-- When the wait loop exits, the last thing it did was read the clock, and
that reading is at least `openTime` beyond `startTime`; before it the loop only
read the clock (all below that bound) and slept. -/
theorem waitLoop_exit (env : Env) (openTime : Nat) (startTime : Int) :
    ∀ (fuel : Nat) (w w' : World), waitLoop env openTime startTime fuel w = Res.ok w' →
      ∃ mid t', w'.trace = w.trace ++ mid ++ [Event.clock t'] ∧
        t' - startTime ≥ (openTime : Int) ∧
        ∀ e ∈ mid, e = Event.Sleep _SLEEP_TIME ∨
          ∃ x, e = Event.clock x ∧ x - startTime < (openTime : Int) := by
  intro fuel
  induction fuel with
  | zero => intro w w' h; simp [waitLoop] at h
  | succ f ih =>
    intro w w' h
    by_cases hlt : (clock env w).1 - startTime < (openTime : Int)
    · simp only [waitLoop, hlt, if_true] at h
      obtain ⟨mid, t', htr, hge, hmid⟩ := ih _ _ h
      refine ⟨[Event.clock (clock env w).1, Event.Sleep _SLEEP_TIME] ++ mid, t', ?_, hge, ?_⟩
      · rw [htr]
        simp [Sleep, World.log, clock]
      · intro e he
        rcases List.mem_append.mp he with h1 | h1
        · simp only [List.mem_cons, List.mem_singleton, List.not_mem_nil, or_false] at h1
          rcases h1 with rfl | rfl
          · exact Or.inr ⟨_, rfl, hlt⟩
          · exact Or.inl rfl
        · exact hmid e h1
    · simp only [waitLoop, hlt, if_false, Res.ok.injEq] at h
      refine ⟨[], (clock env w).1, ?_, by omega, ?_⟩
      · rw [← h]
        simp [clock]
      · intro e he
        cases he

theorem tryCloseVCP_no_clock (env : Env) (maxNtries : Nat) (w : World) :
    ∃ r w' evs, tryCloseVCP env maxNtries w = Res.ok (r, w') ∧ w'.trace = w.trace ++ evs ∧
      ∀ e ∈ evs, ∀ x, e ≠ Event.clock x := by
  have hM : maxNtries % 256 ≤ 255 := by omega
  obtain ⟨n, r, w', h, _, htr, _⟩ := tryCloseLoop_spec env (maxNtries % 256) hM
    (max (maxNtries % 256) 1) 256 0 w (by omega) (by omega) (by omega)
  refine ⟨r, w', _, h, by rw [htr, List.append_assoc], ?_⟩
  intro e he x hx
  subst hx
  rcases List.mem_append.mp he with h1 | h1
  · obtain ⟨l, hl, hel⟩ := List.mem_flatten.mp h1
    rw [List.eq_of_mem_replicate hl] at hel
    simp at hel
  · cases r <;> simp at h1

/-- When the "OPEN RELAY/S" section completes, the value it leaves in
`startTime` is the clock reading taken right after `sendFrameVCP` returned, and
no other reading follows in the section. -/
theorem openRelaysPhase_startTime (env : Env) (fuel : Nat) (g : Globals) (s t : Int)
    (w w' : World) (h : openRelaysPhase env fuel g s w = Res.ok (none, t, w'))
    (hcond : openCond g = true) :
    ∃ pre r post, w'.trace = pre ++
        [Event.sendFrameVCP Phase.openRelays (g._rs485OpenMsg.getD []) r, Event.clock t]
        ++ post ∧
      ∀ e ∈ post, ∀ x, e ≠ Event.clock x := by
  obtain ⟨r1, w1, h1, _⟩ := tryOpenVCP_gen env _MAX_OPEN_VCP_TRIES w
  cases r1 with
  | false => simp [openRelaysPhase, hcond, h1, Res.bind] at h
  | true =>
    rcases sendFrameVCP_gen env fuel (g._rs485OpenMsg.getD []) (g._numOfRelays * 3)
        (w1.log (Event.tryOpenVCP Phase.openRelays true)) with ⟨r2, w2, h2, _⟩ | ⟨w2, h2, _⟩
    · obtain ⟨r3, w4, evs, h3, htr, hno⟩ := tryCloseVCP_no_clock env _MAX_CLOSE_VCP_TRIES
        (clock env (w2.log (Event.sendFrameVCP Phase.openRelays
          (g._rs485OpenMsg.getD []) r2))).2
      cases r3 with
      | false => simp [openRelaysPhase, hcond, h1, h2, h3, Res.bind] at h
      | true =>
        simp only [openRelaysPhase, hcond, if_true, h1, Res.bind, Bool.not_true,
          Bool.false_eq_true, if_false, h2, h3, Res.ok.injEq, Prod.mk.injEq, true_and] at h
        obtain ⟨ht, hw⟩ := h
        refine ⟨w2.trace, r2, evs ++ [Event.tryCloseVCP Phase.openRelays true], ?_, ?_⟩
        · rw [← hw, ← ht]
          simp [World.log, htr, clock]
        · intro e he x hx
          rcases List.mem_append.mp he with h5 | h5
          · exact hno e h5 x hx
          · simp only [List.mem_singleton] at h5
            rw [h5] at hx
            cases hx
    · simp [openRelaysPhase, hcond, h1, h2, Res.bind] at h

/-- C12: in timed pulse mode (`_openTimeFlag` set, duration `_openTime`), one
iteration of the pulse loop either ends in the ON section or in the wait
(`main` returned -1 or is still running there, and the OFF section is not
entered), or it enters the OFF section (`closeRelaysPhase`) from a world whose
trace ends with the reading `t'` of `clock()` that ended the wait loop, with
`t' - t0 >= _openTime`, where `t0` is the reading taken right after the ON
batch was sent and no other reading lies between `t0` and the wait loop. -/
theorem C12_wait_before_off (env : Env) (fuel : Nat) (g : Globals)
    (hflag : g._openTimeFlag = true) (n : Nat) (s : Int) (w : World) :
    (∃ t w', openRelaysPhase env fuel g s w = Res.ok (some (-1), t, w') ∧
      pulseLoop env fuel g (n + 1) s w = Res.ok (-1, n + 1, w')) ∨
    (∃ w', openRelaysPhase env fuel g s w = Res.running w' ∧
      pulseLoop env fuel g (n + 1) s w = Res.running w') ∨
    (∃ t0 w1 w', openRelaysPhase env fuel g s w = Res.ok (none, t0, w1) ∧
      waitPhase env fuel g t0 w1 = Res.running w' ∧
      pulseLoop env fuel g (n + 1) s w = Res.running w') ∨
    (∃ t0 t' r pre post mid w1 w2,
      openRelaysPhase env fuel g s w = Res.ok (none, t0, w1) ∧
      w1.trace = pre ++
        [Event.sendFrameVCP Phase.openRelays (g._rs485OpenMsg.getD []) r, Event.clock t0]
        ++ post ∧
      (∀ e ∈ post, ∀ x, e ≠ Event.clock x) ∧
      waitPhase env fuel g t0 w1 = Res.ok w2 ∧
      w2.trace = w1.trace ++ mid ++ [Event.clock t', Event.waitDone] ∧
      (∀ e ∈ mid, e = Event.Sleep _SLEEP_TIME ∨
        ∃ x, e = Event.clock x ∧ x - t0 < (g._openTime : Int)) ∧
      t' - t0 ≥ (g._openTime : Int) ∧
      pulseLoop env fuel g (n + 1) s w
        = (closeRelaysPhase env fuel g w2).bind fun r3 =>
            match r3.1 with
            | some code => Res.ok (code, n + 1, r3.2)
            | none => pulseLoop env fuel g n t0 (r3.2.log (Event.impulses n))) := by
  have hcond : openCond g = true := by simp [openCond, hflag]
  rcases openRelaysPhase_gen env fuel g s w hcond with
    ⟨w1, h, _⟩ | ⟨w', h, _⟩ | ⟨r, t, w1, h, _⟩ | ⟨r, t0, w1, h, _⟩
  · exact Or.inl ⟨s, _, h, by simp [pulseLoop, h, Res.bind]⟩
  · exact Or.inr (Or.inl ⟨w', h, by simp [pulseLoop, h, Res.bind]⟩)
  · exact Or.inl ⟨t, _, h, by simp [pulseLoop, h, Res.bind]⟩
  · obtain ⟨pre, r2, post, htr, hpost⟩ := openRelaysPhase_startTime env fuel g s t0 w w1 h hcond
    rcases waitLoop_gen env g._openTime t0 fuel w1 with ⟨w2, hw, _⟩ | ⟨w2, hw, _⟩
    · obtain ⟨mid, t', hmid, hge, hall⟩ := waitLoop_exit env g._openTime t0 fuel w1 w2 hw
      have hwp : waitPhase env fuel g t0 w1 = Res.ok (w2.log Event.waitDone) := by
        simp [waitPhase, hflag, hw, Res.bind]
      refine Or.inr (Or.inr (Or.inr ⟨t0, t', r2, pre, post, mid, w1, w2.log Event.waitDone,
        h, htr, hpost, hwp, ?_, hall, hge, ?_⟩))
      · simp [World.log, hmid]
      · simp only [pulseLoop, h, Res.bind, hwp]
    · have hwp : waitPhase env fuel g t0 w1 = Res.running w2 := by
        simp [waitPhase, hflag, hw, Res.bind]
      exact Or.inr (Or.inr (Or.inl ⟨t0, w1, w2, h, hwp, by simp [pulseLoop, h, hwp, Res.bind]⟩))

/-- Witness for C12 on a device on which every call succeeds. -/
theorem C12_wait_before_off_witness :
    globalsTimed._openTimeFlag = true ∧
    ((∃ t w', openRelaysPhase envTick 10 globalsTimed 0 {} = Res.ok (some (-1), t, w') ∧
      pulseLoop envTick 10 globalsTimed (1 + 1) 0 {} = Res.ok (-1, 1 + 1, w')) ∨
    (∃ w', openRelaysPhase envTick 10 globalsTimed 0 {} = Res.running w' ∧
      pulseLoop envTick 10 globalsTimed (1 + 1) 0 {} = Res.running w') ∨
    (∃ t0 w1 w', openRelaysPhase envTick 10 globalsTimed 0 {} = Res.ok (none, t0, w1) ∧
      waitPhase envTick 10 globalsTimed t0 w1 = Res.running w' ∧
      pulseLoop envTick 10 globalsTimed (1 + 1) 0 {} = Res.running w') ∨
    (∃ t0 t' r pre post mid w1 w2,
      openRelaysPhase envTick 10 globalsTimed 0 {} = Res.ok (none, t0, w1) ∧
      w1.trace = pre ++
        [Event.sendFrameVCP Phase.openRelays (globalsTimed._rs485OpenMsg.getD []) r,
          Event.clock t0]
        ++ post ∧
      (∀ e ∈ post, ∀ x, e ≠ Event.clock x) ∧
      waitPhase envTick 10 globalsTimed t0 w1 = Res.ok w2 ∧
      w2.trace = w1.trace ++ mid ++ [Event.clock t', Event.waitDone] ∧
      (∀ e ∈ mid, e = Event.Sleep _SLEEP_TIME ∨
        ∃ x, e = Event.clock x ∧ x - t0 < (globalsTimed._openTime : Int)) ∧
      t' - t0 ≥ (globalsTimed._openTime : Int) ∧
      pulseLoop envTick 10 globalsTimed (1 + 1) 0 {}
        = (closeRelaysPhase envTick 10 globalsTimed w2).bind fun r3 =>
            match r3.1 with
            | some code => Res.ok (code, 1 + 1, r3.2)
            | none => pulseLoop envTick 10 globalsTimed 1 t0 (r3.2.log (Event.impulses 1)))) :=
  ⟨rfl, C12_wait_before_off envTick 10 globalsTimed rfl 1 0 {}⟩

/-! ### Conflicting mode options -/

set_option maxHeartbeats 1000000 in
theorem parseLoop_conflict (n : Nat) :
    ∀ (args : List (List Char)) (argn : Int) (g : Globals) (ret : Int) (g' : Globals),
      args.length ≤ n → parseLoop args argn g = some (ret, g') →
      (g._stateFlag = true ∨ ARG_RELAY_STATE ∈ optionTokens args) →
      (g._openTimeFlag = true ∨ ARG_OPEN_TIME ∈ optionTokens args) →
      ModeInv g → ret < 4 := by
  induction n with
  | zero =>
    intro args argn g ret g' hlen h hs ho hinv
    have : args = [] := List.length_eq_zero.mp (by omega)
    subst this
    simp only [optionTokens, List.not_mem_nil, or_false] at hs ho
    have := (hinv.1 hs).1
    rw [ho] at this
    cases this
  | succ n ih =>
    intro args argn g ret g' hlen h hs ho hinv
    cases args with
    | nil =>
      simp only [optionTokens, List.not_mem_nil, or_false] at hs ho
      have := (hinv.1 hs).1
      rw [ho] at this
      cases this
    | cons a rest =>
      cases rest with
      | nil =>
        simp only [parseLoop] at h
        split_ifs at h <;> simp only [Option.some.injEq, Prod.mk.injEq] at h <;> omega
      | cons v rest1 =>
        have hl : rest1.length ≤ n := by simp only [List.length_cons] at hlen; omega
        simp only [optionTokens, List.mem_cons] at hs ho
        by_cases h1 : a = ARG_RELAY_NUM
        · subst h1
          simp only [parseLoop, if_true] at h
          cases hrc : relayCase v g with
          | none => simp only [hrc] at h; cases h
          | some r =>
            obtain ⟨c, g1⟩ := r
            cases c with
            | some code =>
              have := relayCase_code v g g1 code hrc
              simp only [hrc, Option.some.injEq, Prod.mk.injEq] at h
              omega
            | none =>
              simp only [hrc] at h
              have hm := relayCase_mode v g g1 none hrc
              have hi2 := ModeInv_of_mode g g1 hm hinv
              simp only [modeOf, Prod.mk.injEq] at hm
              refine ih rest1 (argn + 2) g1 ret g' hl h ?_ ?_ hi2
              · rw [hm.1]
                rcases hs with hs | hs | hs
                · exact Or.inl hs
                · exact absurd hs (by decide)
                · exact Or.inr hs
              · rw [hm.2.1]
                rcases ho with ho | ho | ho
                · exact Or.inl ho
                · exact absurd ho (by decide)
                · exact Or.inr ho
        · by_cases h2 : a = ARG_OPEN_TIME
          · subst h2
            by_cases hsf : g._stateFlag = true
            · simp only [parseLoop, h1, if_false, if_true, hsf, Option.some.injEq,
                Prod.mk.injEq] at h
              omega
            · simp only [parseLoop, h1, if_false, if_true] at h
              rw [if_neg hsf] at h
              refine ih rest1 (argn + 2) _ ret g' hl h ?_ (Or.inl rfl)
                (ModeInv_openTime g _ hsf hinv)
              rcases hs with hs | hs | hs
              · exact absurd hs hsf
              · exact absurd hs (by decide)
              · exact Or.inr hs
          · by_cases h3 : a = ARG_IMPULSES
            · subst h3
              simp only [parseLoop, h1, h2, if_false, if_true] at h
              split_ifs at h with hneg
              · simp only [Option.some.injEq, Prod.mk.injEq] at h; omega
              · refine ih rest1 (argn + 2) _ ret g' hl h ?_ ?_ (ModeInv_impulses g _ hinv)
                · rcases hs with hs | hs | hs
                  · exact Or.inl hs
                  · exact absurd hs (by decide)
                  · exact Or.inr hs
                · rcases ho with ho | ho | ho
                  · exact Or.inl ho
                  · exact absurd ho (by decide)
                  · exact Or.inr ho
            · by_cases h4 : a = ARG_BAUD_RATE
              · subst h4
                simp only [parseLoop, h1, h2, h3, if_false, if_true] at h
                split_ifs at h with hpos
                · refine ih rest1 (argn + 2) _ ret g' hl h ?_ ?_ (ModeInv_baudrate g _ hinv)
                  · rcases hs with hs | hs | hs
                    · exact Or.inl hs
                    · exact absurd hs (by decide)
                    · exact Or.inr hs
                  · rcases ho with ho | ho | ho
                    · exact Or.inl ho
                    · exact absurd ho (by decide)
                    · exact Or.inr ho
                · simp only [Option.some.injEq, Prod.mk.injEq] at h; omega
              · by_cases h5 : a = ARG_COM_PORT
                · subst h5
                  simp only [parseLoop, h1, h2, h3, h4, if_false, if_true] at h
                  refine ih rest1 (argn + 2) _ ret g' hl h ?_ ?_ (ModeInv_comPort g _ hinv)
                  · rcases hs with hs | hs | hs
                    · exact Or.inl hs
                    · exact absurd hs (by decide)
                    · exact Or.inr hs
                  · rcases ho with ho | ho | ho
                    · exact Or.inl ho
                    · exact absurd ho (by decide)
                    · exact Or.inr ho
                · by_cases h6 : a = ARG_RELAY_STATE
                  · subst h6
                    simp only [parseLoop, h1, h2, h3, h4, h5, if_false, if_true] at h
                    split_ifs at h with hof hlen3 hv
                    · refine ih rest1 (argn + 2) _ ret g' hl h (Or.inl rfl) ?_
                        (ModeInv_state g v hof hv hinv)
                      rcases ho with ho | ho | ho
                      · rw [ho] at hof; cases hof
                      · exact absurd ho (by decide)
                      · exact Or.inr ho
                    · simp only [Option.some.injEq, Prod.mk.injEq] at h; omega
                    · simp only [Option.some.injEq, Prod.mk.injEq] at h; omega
                  · simp only [parseLoop, h1, h2, h3, h4, h5, h6, if_false, Option.some.injEq,
                      Prod.mk.injEq] at h
                    omega

set_option maxHeartbeats 1000000 in
/-- The behaviour of the loop of `parseArgs` is undefined only through the
`-relay` branch (a store outside the block allocated for `_relays`) or through
the `strcpy` of a `-state` value of more than 3 characters. -/
theorem parseLoop_undefined (n : Nat) :
    ∀ (args : List (List Char)) (argn : Int) (g : Globals),
      args.length ≤ n → parseLoop args argn g = none →
      (∃ pre v post g', args = pre ++ ARG_RELAY_NUM :: v :: post ∧ relayCase v g' = none) ∨
      (∃ pre v post, args = pre ++ ARG_RELAY_STATE :: v :: post ∧ 3 < v.length) := by
  induction n with
  | zero =>
    intro args argn g hlen h
    have : args = [] := List.length_eq_zero.mp (by omega)
    subst this
    simp only [parseLoop] at h
    split_ifs at h
  | succ n ih =>
    intro args argn g hlen h
    cases args with
    | nil =>
      simp only [parseLoop] at h
      split_ifs at h
    | cons a rest =>
      cases rest with
      | nil =>
        simp only [parseLoop] at h
        split_ifs at h
      | cons v rest1 =>
        have hl : rest1.length ≤ n := by simp only [List.length_cons] at hlen; omega
        have hstep : ∀ argn' g', parseLoop rest1 argn' g' = none →
            (∃ pre v' post g'', a :: v :: rest1 = pre ++ ARG_RELAY_NUM :: v' :: post ∧
              relayCase v' g'' = none) ∨
            (∃ pre v' post, a :: v :: rest1 = pre ++ ARG_RELAY_STATE :: v' :: post ∧
              3 < v'.length) := by
          intro argn' g' h'
          rcases ih rest1 argn' g' hl h' with ⟨pre, v', post, g'', e, hr⟩ | ⟨pre, v', post, e, hr⟩
          · exact Or.inl ⟨a :: v :: pre, v', post, g'', by rw [e]; rfl, hr⟩
          · exact Or.inr ⟨a :: v :: pre, v', post, by rw [e]; rfl, hr⟩
        by_cases h1 : a = ARG_RELAY_NUM
        · subst h1
          simp only [parseLoop, if_true] at h
          cases hrc : relayCase v g with
          | none => exact Or.inl ⟨[], v, rest1, g, rfl, hrc⟩
          | some r =>
            obtain ⟨c, g1⟩ := r
            cases c with
            | some code => simp only [hrc] at h; cases h
            | none =>
              simp only [hrc] at h
              exact hstep _ _ h
        · by_cases h2 : a = ARG_OPEN_TIME
          · subst h2
            simp only [parseLoop, h1, if_false, if_true] at h
            split_ifs at h
            exact hstep _ _ h
          · by_cases h3 : a = ARG_IMPULSES
            · subst h3
              simp only [parseLoop, h1, h2, if_false, if_true] at h
              split_ifs at h
              exact hstep _ _ h
            · by_cases h4 : a = ARG_BAUD_RATE
              · subst h4
                simp only [parseLoop, h1, h2, h3, if_false, if_true] at h
                split_ifs at h
                exact hstep _ _ h
              · by_cases h5 : a = ARG_COM_PORT
                · subst h5
                  simp only [parseLoop, h1, h2, h3, h4, if_false, if_true] at h
                  exact hstep _ _ h
                · by_cases h6 : a = ARG_RELAY_STATE
                  · subst h6
                    simp only [parseLoop, h1, h2, h3, h4, h5, if_false, if_true] at h
                    by_cases hlong : 3 < v.length
                    · exact Or.inr ⟨[], v, rest1, rfl, hlong⟩
                    · split_ifs at h
                      exact hstep _ _ h
                  · simp only [parseLoop, h1, h2, h3, h4, h5, h6, if_false] at h
                    cases h

/-- C16, as stated: the command line
`-comPort -state -openTime 5 -relay 1` contains both "-state" and "-openTime",
and `parseArgs` returns 6: "-state" is read as the value of `-comPort`
(`atoi` gives 0), the run is a timed one and `main` goes on to locate the
device and to send both batches. -/
theorem C16_state_as_value_counterexample :
    ARG_RELAY_STATE ∈ argvStateAsValue ∧ ARG_OPEN_TIME ∈ argvStateAsValue ∧
    (parseArgs argvStateAsValue {}).map (fun r => (r.1, r.2._stateFlag, r.2._openTimeFlag,
        r.2._openTime, r.2._comPortNumber))
      = some (6, false, true, 5, 0) ∧
    runCode (main envTick 10 argvStateAsValue) = some 0 ∧
    wire (runTrace (main envTick 10 argvStateAsValue)) = [0xff, 1, 1, 0xff, 1, 0] := by
  decide

/-- C16, amended: when both `-state` and `-openTime` stand where `parseArgs`
reads an option (in either order) and the behaviour of `parseArgs` on the
command line is defined, `parseArgs` returns a value below 4 and `main` returns
-1 with an empty trace: no device located, nothing sent. The behaviour of
`parseArgs` is undefined only when a `-relay` value makes a store outside the
block allocated for `_relays` or a `-state` value has more than 3 characters;
`-relay 254:255 -state on -openTime 5` is such a command line (the `uint8_t`
counter of the range loop wraps at 255). And whatever the command line, when
`parseArgs` returns at least 4, `_stateFlag` and `_openTimeFlag` are not both
set. -/
theorem C16_conflicting_modes_rejected (argv : List (List Char))
    (hs : ARG_RELAY_STATE ∈ optionTokens (argv.drop 1))
    (ho : ARG_OPEN_TIME ∈ optionTokens (argv.drop 1))
    (hdef : parseArgs argv {} ≠ none) (env : Env) (fuel : Nat) :
    (∃ ret g, parseArgs argv {} = some (ret, g) ∧ ret < 4 ∧
        main env fuel argv = Res.ok (-1, g, {})) ∧
    (∀ argv' : List (List Char), parseArgs argv' {} = none →
      (∃ pre v post g, argv' = pre ++ ARG_RELAY_NUM :: v :: post ∧ relayCase v g = none) ∨
      (∃ pre v post, argv' = pre ++ ARG_RELAY_STATE :: v :: post ∧ 3 < v.length)) ∧
    (ARG_RELAY_STATE ∈ optionTokens (argvRangeTo255.drop 1) ∧
      ARG_OPEN_TIME ∈ optionTokens (argvRangeTo255.drop 1) ∧
      parseArgs argvRangeTo255 {} = none) ∧
    ∀ (argv' : List (List Char)) (ret : Int) (g : Globals),
      parseArgs argv' {} = some (ret, g) → 4 ≤ ret →
      ¬ (g._stateFlag = true ∧ g._openTimeFlag = true) := by
  refine ⟨?_, ?_, ?_, ?_⟩
  · cases hp : parseArgs argv {} with
    | none => exact absurd hp hdef
    | some r =>
      obtain ⟨ret, g⟩ := r
      have hret : ret < 4 := by
        unfold parseArgs at hp
        split_ifs at hp
        · simp only [Option.some.injEq, Prod.mk.injEq] at hp; omega
        · exact parseLoop_conflict _ _ _ _ _ _ (Nat.le_refl _) hp (Or.inr hs) (Or.inr ho)
            ⟨fun h => (by cases h), fun _ => rfl, rfl, rfl⟩
      exact ⟨ret, g, rfl, hret, by simp [main, hp, hret]⟩
  · intro argv' h
    unfold parseArgs at h
    split_ifs at h
    have hsplit : argv' = argv'.take 1 ++ argv'.drop 1 := (List.take_append_drop 1 argv').symm
    rcases parseLoop_undefined _ _ _ _ (Nat.le_refl _) h with
      ⟨pre, v, post, g, e, hr⟩ | ⟨pre, v, post, e, hr⟩
    · refine Or.inl ⟨argv'.take 1 ++ pre, v, post, g, ?_, hr⟩
      rw [List.append_assoc, ← e]
      exact hsplit
    · refine Or.inr ⟨argv'.take 1 ++ pre, v, post, ?_, hr⟩
      rw [List.append_assoc, ← e]
      exact hsplit
  · decide
  · intro argv' ret g h hret hboth
    have := ((parseArgs_accept argv' ret g h hret).1.1 hboth.1).1
    rw [hboth.2] at this
    cases this

/-- Witness for C16 on `-relay 4 -state on -openTime 500`. -/
theorem C16_conflicting_modes_rejected_witness :
    (ARG_RELAY_STATE ∈ optionTokens (argvStateThenOpenTime.drop 1) ∧
      ARG_OPEN_TIME ∈ optionTokens (argvStateThenOpenTime.drop 1) ∧
      parseArgs argvStateThenOpenTime {} ≠ none) ∧
    ∃ ret g, parseArgs argvStateThenOpenTime {} = some (ret, g) ∧ ret < 4 ∧
      main envOk 10 argvStateThenOpenTime = Res.ok (-1, g, {}) :=
  ⟨⟨(by decide), (by decide), (by decide)⟩,
    (C16_conflicting_modes_rejected argvStateThenOpenTime (by decide) (by decide) (by decide)
      envOk 10).1⟩

/-! ### Range notation -/

theorem isdigit_char (c : Char) (h : isdigit c = true) :
    c ≠ ':' ∧ c ≠ ',' ∧ 48 ≤ c.toNat := by
  simp only [isdigit, Bool.and_eq_true, decide_eq_true_eq] at h
  refine ⟨?_, ?_, h.1⟩
  · rintro rfl
    revert h; decide
  · rintro rfl
    revert h; decide

theorem foldl_digits_le (ds : List Char) :
    ∀ acc : Nat, acc ≤ ds.foldl (fun acc c => 10 * acc + (c.toNat - 48)) acc := by
  induction ds with
  | nil => intro acc; exact Nat.le_refl _
  | cons c cs ih =>
    intro acc
    simp only [List.foldl_cons]
    exact Nat.le_trans (by omega) (ih _)

theorem storeNumber_storeNumber (g : Globals) (x y : Nat) :
    storeNumber (storeNumber g x) y = storeNumber g y := by
  unfold storeNumber
  by_cases h : g._numOfRelays = 1 <;> simp [h]

/-- One digit read by `relayModality` while a number is being read. -/
theorem relayModalityLoop_digit (c : Char) (hc : isdigit c = true) (cs : List Char) (rv : Int)
    (nf : Nat) (g : Globals) (hb : 10 * nf + (c.toNat - 48) < 2 ^ 32) :
    relayModalityLoop (c :: cs) rv nf true g
      = relayModalityLoop cs rv (10 * nf + (c.toNat - 48)) true
          (storeNumber g (10 * nf + (c.toNat - 48))) := by
  obtain ⟨h1, h2, h3⟩ := isdigit_char c hc
  have hnum : ((10 * (nf : Int) + digitValue c) % 2 ^ 32).toNat = 10 * nf + (c.toNat - 48) := by
    unfold digitValue
    omega
  simp only [relayModalityLoop, hc, h1, h2, Bool.true_or, Bool.not_true, Bool.false_eq_true,
    if_false, hnum, storeNumber, decide_False, Bool.or_false]

/-- A run of digits read by `relayModality` while a number is being read. -/
theorem relayModalityLoop_digits (rest : List Char) (rv : Int) :
    ∀ (ds : List Char) (nf : Nat) (g : Globals), (∀ c ∈ ds, isdigit c = true) →
      ds.foldl (fun acc c => 10 * acc + (c.toNat - 48)) nf < 2 ^ 32 →
      relayModalityLoop (ds ++ rest) rv nf true (storeNumber g nf)
        = relayModalityLoop rest rv (ds.foldl (fun acc c => 10 * acc + (c.toNat - 48)) nf) true
            (storeNumber g (ds.foldl (fun acc c => 10 * acc + (c.toNat - 48)) nf)) := by
  intro ds
  induction ds with
  | nil => intro nf g _ _; rfl
  | cons c cs ih =>
    intro nf g hds hb
    simp only [List.foldl_cons] at hb ⊢
    have hle := foldl_digits_le cs (10 * nf + (c.toNat - 48))
    rw [List.cons_append, relayModalityLoop_digit c (hds c (List.mem_cons_self _ _)) _ rv nf _
      (by omega), storeNumber_storeNumber]
    exact ih _ g (fun c hc => hds c (List.mem_cons_of_mem _ hc)) hb

/-- The first digit of a number read by `relayModality`. -/
theorem relayModalityLoop_first (c : Char) (hc : isdigit c = true) (cs : List Char) (rv : Int)
    (nf : Nat) (g : Globals) (hn : g._numOfRelays < 255) :
    relayModalityLoop (c :: cs) rv nf false g
      = relayModalityLoop cs rv (c.toNat - 48) true
          (storeNumber { g with _numOfRelays := g._numOfRelays + 1 } (c.toNat - 48)) := by
  obtain ⟨h1, h2, h3⟩ := isdigit_char c hc
  have hc2 : c.toNat ≤ 57 := by
    simp only [isdigit, Bool.and_eq_true, decide_eq_true_eq] at hc
    exact hc.2
  have hnum : ((10 * ((0 : Nat) : Int) + digitValue c) % 2 ^ 32).toNat = c.toNat - 48 := by
    unfold digitValue
    omega
  have hmod : (g._numOfRelays + 1) % 256 = g._numOfRelays + 1 := by omega
  simp only [relayModalityLoop, hc, h1, h2, Bool.true_or, Bool.not_true, Bool.false_eq_true,
    if_false, hnum, storeNumber, decide_False, Bool.or_false, Bool.not_false, if_true, hmod]

/-- A number read by `relayModality` from its first digit. -/
theorem relayModalityLoop_number (ds : List Char) (hne : ds ≠ [])
    (hds : ∀ c ∈ ds, isdigit c = true) (hv : decVal ds < 2 ^ 32) (rest : List Char) (rv : Int)
    (nf : Nat) (g : Globals) (hn : g._numOfRelays < 255) :
    relayModalityLoop (ds ++ rest) rv nf false g
      = relayModalityLoop rest rv (decVal ds) true
          (storeNumber { g with _numOfRelays := g._numOfRelays + 1 } (decVal ds)) := by
  cases ds with
  | nil => exact absurd rfl hne
  | cons c cs =>
    have h0 : decVal (c :: cs)
        = cs.foldl (fun acc c => 10 * acc + (c.toNat - 48)) (c.toNat - 48) := by
      simp [decVal]
    rw [h0] at hv ⊢
    rw [List.cons_append, relayModalityLoop_first c (hds c (List.mem_cons_self _ _)) _ rv nf g hn]
    exact relayModalityLoop_digits rest rv cs _ _ (fun c hc => hds c (List.mem_cons_of_mem _ hc)) hv

/-- The argument `a:b` read by `relayModality` from the initial variables. -/
theorem relayModality_range (da db : List Char) (hda : da ≠ [] ∧ ∀ c ∈ da, isdigit c = true)
    (hdb : db ≠ [] ∧ ∀ c ∈ db, isdigit c = true) (ha : decVal da ≤ 255) (hb : decVal db ≤ 255) :
    relayModality (da ++ ':' :: db) {}
      = (_rangeRelays, { _numOfRelays := 2, _relayBegin := decVal da, _relayEnd := decVal db,
                         _rangeRelayFlag := true }) := by
  unfold relayModality
  rw [relayModalityLoop_number da hda.1 hda.2 (by omega) _ _ _ _ (by decide)]
  have hcolon : ∀ (g : Globals) (rv : Int) (nf : Nat) (cs : List Char),
      g._numOfRelays = 1 → g._rangeRelayFlag = false → g._multiRelayFlag = false →
      relayModalityLoop (':' :: cs) rv nf true g
        = relayModalityLoop cs _rangeRelays nf false { g with _rangeRelayFlag := true } := by
    intro g rv nf cs h1 h2 h3
    simp [relayModalityLoop, h1, h2, h3, isdigit]
  rw [hcolon _ _ _ _ (by simp [storeNumber]) (by simp [storeNumber]) (by simp [storeNumber])]
  have h := relayModalityLoop_number db hdb.1 hdb.2 (by omega) [] _rangeRelays (decVal da)
    { storeNumber { ({} : Globals) with _numOfRelays := 0 + 1 } (decVal da) with
      _rangeRelayFlag := true } (by simp [storeNumber])
  rw [List.append_nil] at h
  rw [h]
  have h1 : decVal da % 256 = decVal da := by omega
  have h2 : decVal db % 256 = decVal db := by omega
  simp [relayModalityLoop, storeNumber, h1, h2]

/-- The loop that fills `_relays` for a range, from `i = relayBegin + k` with
the first `k` cells written. -/
theorem fillRangeLoop_spec (a b : Nat) (hab : a ≤ b) (hb : b ≤ 254) :
    ∀ (fuel k : Nat) (relays : List (Option Nat)), k ≤ b - a + 1 → b - a + 1 - k < fuel →
      relays.length = b - a + 1 → (∀ j < k, relays[j]? = some (some (a + j))) →
      ∃ out, fillRangeLoop a b fuel (a + k) relays = some out ∧ out.length = b - a + 1 ∧
        ∀ j < b - a + 1, out[j]? = some (some (a + j)) := by
  intro fuel
  induction fuel with
  | zero => intro k relays _ h; omega
  | succ f ih =>
    intro k relays hk hf hlen hinv
    by_cases hle : a + k ≤ b
    · have h1 : a ≤ a + k ∧ a + k - a < relays.length := by omega
      have h2 : (a + k + 1) % 256 = a + (k + 1) := by omega
      have h3 : a + k - a = k := by omega
      have hstep : fillRangeLoop a b (f + 1) (a + k) relays
          = fillRangeLoop a b f (a + (k + 1)) (relays.set k (some (a + k))) := by
        simp only [fillRangeLoop]
        rw [if_pos hle, if_pos h1, h2, h3]
      rw [hstep]
      apply ih (k + 1) _ (by omega) (by omega) (by simp [hlen])
      intro j hj
      rw [List.getElem?_set]
      by_cases hjk : k = j
      · subst hjk
        simp only [if_true]
        rw [if_pos (by omega)]
      · rw [if_neg hjk]
        exact hinv j (by omega)
    · have hkn : k = b - a + 1 := by omega
      simp only [fillRangeLoop, hle, if_false]
      exact ⟨relays, rfl, hlen, fun j hj => hinv j (by omega)⟩

theorem fillRangeLoop_range (a b : Nat) (hab : a ≤ b) (hb : b ≤ 254) :
    fillRangeLoop a b 257 a (List.replicate (b - a + 1) none)
      = some ((List.range' a (b - a + 1)).map some) := by
  obtain ⟨out, h, hlen, hget⟩ := fillRangeLoop_spec a b hab hb 257 0
    (List.replicate (b - a + 1) none) (by omega) (by omega) (by simp)
    (fun j hj => absurd hj (by omega))
  rw [Nat.add_zero] at h
  rw [h]
  congr 1
  apply List.ext_getElem?
  intro j
  by_cases hj : j < b - a + 1
  · rw [hget j hj, List.getElem?_map, List.getElem?_range' _ _ hj]
    simp
  · rw [List.getElem?_eq_none (by omega), List.getElem?_eq_none (by simp; omega)]

/-- C20 (the code at the failing input): `-relay 256:1` is not rejected
although 256 >= 1. The first number is stored into the `uint8_t` `_relayBegin`
as 0, so the test `_relayEnd <= _relayBegin` compares 1 with 0, the argument is
read as the range 0..1 and the run sends the two ON frames; `-relay 255:1`,
which fits the `uint8_t`, is rejected by that test. -/
theorem C20_range_wrap_accepted :
    decVal "256".toList ≥ decVal "1".toList ∧
    (parseArgs argvRangeWrap {}).map (fun r => (r.1, r.2._relayBegin, r.2._relayEnd,
        r.2._numOfRelays, r.2._relays))
      = some (4, 0, 1, 2, [some 0, some 1]) ∧
    runCode (main envOk 10 argvRangeWrap) = some 0 ∧
    wire (runTrace (main envOk 10 argvRangeWrap)) = [0xff, 0, 0, 0xff, 1, 1] ∧
    (parseArgs (argvRelayOn "255:1") {}).map Prod.fst = some (-1) ∧
    runCode (main envOk 10 (argvRelayOn "255:1")) = some (-1) ∧
    runTrace (main envOk 10 (argvRelayOn "255:1")) = [] := by
  refine ⟨?_, ?_, ?_, ?_, ?_, ?_, ?_⟩ <;> decide

/-- Range notation where both numbers fit the `uint8_t` variables: let `da`
and `db` be non-empty strings of decimal digits denoting `a` and `b`. From the initial variables, when `1 <= a < b <= 120` the
`-relay` branch on `a:b` goes on with `_relays = [a, a+1, ..., b]`,
`_numOfRelays = b - a + 1`, `_relayBegin = a` and `_relayEnd = b`, so
`parseArgs` continues with the next option; and when `a >= b` and `a <= 255`
the branch returns -1 and so does `parseArgs`. -/
theorem relayCase_range (da db : List Char)
    (hda : da ≠ [] ∧ ∀ c ∈ da, isdigit c = true)
    (hdb : db ≠ [] ∧ ∀ c ∈ db, isdigit c = true) :
    (1 ≤ decVal da → decVal da < decVal db → decVal db ≤ 120 →
      ∃ g, relayCase (da ++ ':' :: db) {} = some (none, g) ∧
        g._relays = (List.range' (decVal da) (decVal db - decVal da + 1)).map some ∧
        g._numOfRelays = decVal db - decVal da + 1 ∧
        g._relayBegin = decVal da ∧ g._relayEnd = decVal db ∧
        ∀ (prog : List Char) (rest : List (List Char)),
          parseArgs (prog :: ARG_RELAY_NUM :: (da ++ ':' :: db) :: rest) {}
            = parseLoop rest 3 g) ∧
    (decVal db ≤ decVal da → decVal da ≤ 255 →
      ∃ g, relayCase (da ++ ':' :: db) {} = some (some (-1), g) ∧
        ∀ (prog : List Char) (rest : List (List Char)),
          parseArgs (prog :: ARG_RELAY_NUM :: (da ++ ':' :: db) :: rest) {} = some (-1, g)) := by
  constructor
  · intro h1 h2 h3
    have hm := relayModality_range da db hda hdb (by omega) (by omega)
    have hmod : (decVal db - decVal da + 1) % 256 = decVal db - decVal da + 1 := by omega
    have hfill := fillRangeLoop_range (decVal da) (decVal db) (by omega) (by omega)
    have hnot : ¬ decVal db ≤ decVal da := by omega
    have hrc : relayCase (da ++ ':' :: db) {} = some (none,
        { _numOfRelays := decVal db - decVal da + 1, _relayBegin := decVal da,
          _relayEnd := decVal db, _rangeRelayFlag := true,
          _relays := (List.range' (decVal da) (decVal db - decVal da + 1)).map some }) := by
      simp [relayCase, hm, _rangeRelays, _errorRelay, _singleRelay, hnot, hmod, hfill]
    refine ⟨_, hrc, rfl, rfl, rfl, rfl, ?_⟩
    intro prog rest
    simp [parseArgs, parseLoop, hrc]
  · intro h1 h2
    have hm := relayModality_range da db hda hdb (by omega) (by omega)
    have hrc : relayCase (da ++ ':' :: db) {} = some (some (-1),
        { _numOfRelays := 2, _relayBegin := decVal da, _relayEnd := decVal db,
          _rangeRelayFlag := true }) := by
      simp [relayCase, hm, _rangeRelays, _errorRelay, _singleRelay, h1]
    refine ⟨_, hrc, ?_⟩
    intro prog rest
    simp [parseArgs, parseLoop, hrc]

/-- The arguments `4:10` (accepted, relays 4 to 10) and `10:4` (rejected). -/
theorem relayCase_range_example :
    ("4".toList ≠ [] ∧ ∀ c ∈ "4".toList, isdigit c = true) ∧
    ("10".toList ≠ [] ∧ ∀ c ∈ "10".toList, isdigit c = true) ∧
    (1 ≤ decVal "4".toList ∧ decVal "4".toList < decVal "10".toList ∧
      decVal "10".toList ≤ 120) ∧
    (∃ g, relayCase ("4".toList ++ ':' :: "10".toList) {} = some (none, g) ∧
        g._relays = (List.range' (decVal "4".toList)
          (decVal "10".toList - decVal "4".toList + 1)).map some ∧
        g._numOfRelays = decVal "10".toList - decVal "4".toList + 1 ∧
        g._relayBegin = decVal "4".toList ∧ g._relayEnd = decVal "10".toList ∧
        ∀ (prog : List Char) (rest : List (List Char)),
          parseArgs (prog :: ARG_RELAY_NUM :: ("4".toList ++ ':' :: "10".toList) :: rest) {}
            = parseLoop rest 3 g) ∧
    (∃ g, relayCase ("10".toList ++ ':' :: "4".toList) {} = some (some (-1), g) ∧
        ∀ (prog : List Char) (rest : List (List Char)),
          parseArgs (prog :: ARG_RELAY_NUM :: ("10".toList ++ ':' :: "4".toList) :: rest) {}
            = some (-1, g)) :=
  ⟨(by decide), (by decide), (by decide),
    (relayCase_range "4".toList "10".toList (by decide) (by decide)).1
      (by decide) (by decide) (by decide),
    (relayCase_range "10".toList "4".toList (by decide) (by decide)).2
      (by decide) (by decide)⟩

/-! ### Group notation -/

theorem storeNumber_fields (g : Globals) (v : Nat) :
    (storeNumber g v)._numOfRelays = g._numOfRelays ∧
    (storeNumber g v)._rangeRelayFlag = g._rangeRelayFlag ∧
    (storeNumber g v)._multiRelayFlag = g._multiRelayFlag := by
  unfold storeNumber
  by_cases h : g._numOfRelays = 1 <;> simp [h]

/-- A comma read by `relayModality` outside a range. -/
theorem relayModalityLoop_comma (cs : List Char) (rv : Int) (nf : Nat) (flag : Bool)
    (g : Globals) (hr : g._rangeRelayFlag = false) :
    relayModalityLoop (',' :: cs) rv nf flag g
      = relayModalityLoop cs (if g._multiRelayFlag = true then rv else _groupRelays) nf false
          { g with _multiRelayFlag := true } := by
  cases hm : g._multiRelayFlag <;> simp [relayModalityLoop, hr, hm, isdigit]

/-- The numbers of a comma-separated list read by `relayModality`: the count
goes up by one per number, and the value returned becomes `_groupRelays` at the
first comma. -/
theorem relayModalityLoop_group :
    ∀ (ns : List (List Char)), ns ≠ [] →
      (∀ d ∈ ns, d ≠ [] ∧ (∀ c ∈ d, isdigit c = true) ∧ decVal d < 2 ^ 32) →
      ∀ (rv : Int) (nf : Nat) (g : Globals), g._rangeRelayFlag = false →
        g._numOfRelays + ns.length ≤ 255 →
        (relayModalityLoop (commaSeparated ns) rv nf false g).2._numOfRelays
            = g._numOfRelays + ns.length ∧
          (relayModalityLoop (commaSeparated ns) rv nf false g).1
            = (if ns.length = 1 then rv
               else if g._multiRelayFlag = true then rv else _groupRelays) := by
  intro ns
  induction ns with
  | nil => intro h; exact absurd rfl h
  | cons d ds ih =>
    intro _ hns rv nf g hr hlen
    obtain ⟨hd1, hd2, hd3⟩ := hns d (List.mem_cons_self _ _)
    simp only [List.length_cons] at hlen
    cases ds with
    | nil =>
      have h := relayModalityLoop_number d hd1 hd2 hd3 [] rv nf g (by omega)
      rw [List.append_nil] at h
      simp only [commaSeparated, h, relayModalityLoop, List.length_singleton, if_true]
      exact ⟨(storeNumber_fields _ _).1, trivial⟩
    | cons e es =>
      have hf := storeNumber_fields { g with _numOfRelays := g._numOfRelays + 1 } (decVal d)
      simp only [commaSeparated]
      rw [relayModalityLoop_number d hd1 hd2 hd3 _ rv nf g (by omega),
        relayModalityLoop_comma _ _ _ _ _ (by rw [hf.2.1]; exact hr)]
      obtain ⟨i1, i2⟩ := ih (List.cons_ne_nil _ _)
        (fun x hx => hns x (List.mem_cons_of_mem _ hx))
        (if (storeNumber { g with _numOfRelays := g._numOfRelays + 1 }
            (decVal d))._multiRelayFlag = true then rv else _groupRelays) (decVal d)
        { storeNumber { g with _numOfRelays := g._numOfRelays + 1 } (decVal d) with
          _multiRelayFlag := true }
        (by show (storeNumber _ _)._rangeRelayFlag = false; rw [hf.2.1]; exact hr)
        (by show (storeNumber _ _)._numOfRelays + _ ≤ 255
            rw [hf.1]; simp only [List.length_cons] at hlen ⊢; omega)
      refine ⟨?_, ?_⟩
      · rw [i1]
        show (storeNumber _ _)._numOfRelays + _ = _
        rw [hf.1]
        simp only [List.length_cons]
        omega
      · rw [i2, hf.2.2]
        simp only [List.length_cons, if_true]
        have h1 : ¬ (es.length + 1 + 1 = 1) := by omega
        rw [if_neg h1]
        split_ifs <;> rfl

/-- A comma read by `_fillRelaysGroup`. -/
theorem fillRelaysGroupLoop_comma (cs : List Char) (idx nf : Nat) (flag : Bool)
    (array : List (Option Nat)) :
    fillRelaysGroupLoop (',' :: cs) idx nf flag array
      = fillRelaysGroupLoop cs idx nf false array := by
  simp [fillRelaysGroupLoop]

/-- One digit read by `_fillRelaysGroup` while a number is being read. -/
theorem fillRelaysGroupLoop_digit (c : Char) (hc : isdigit c = true) (cs : List Char)
    (idx nf : Nat) (array : List (Option Nat)) (h1 : 1 ≤ idx) (h2 : idx - 1 < array.length)
    (hb : 10 * nf + (c.toNat - 48) < 2 ^ 32) :
    fillRelaysGroupLoop (c :: cs) idx nf true array
      = fillRelaysGroupLoop cs idx (10 * nf + (c.toNat - 48)) true
          (array.set (idx - 1) (some ((10 * nf + (c.toNat - 48)) % 256))) := by
  obtain ⟨_, hcomma, h48⟩ := isdigit_char c hc
  have hnum : ((10 * (nf : Int) + digitValue c) % 2 ^ 32).toNat = 10 * nf + (c.toNat - 48) := by
    unfold digitValue
    omega
  simp only [fillRelaysGroupLoop, hcomma, if_false, Bool.not_true, Bool.false_eq_true, hnum]
  rw [if_pos ⟨h1, h2⟩]

/-- A run of digits read by `_fillRelaysGroup` while a number is being read. -/
theorem fillRelaysGroupLoop_digits (rest : List Char) (idx : Nat) (h1 : 1 ≤ idx) :
    ∀ (ds : List Char) (nf : Nat) (array : List (Option Nat)), idx - 1 < array.length →
      (∀ c ∈ ds, isdigit c = true) →
      ds.foldl (fun acc c => 10 * acc + (c.toNat - 48)) nf < 2 ^ 32 →
      fillRelaysGroupLoop (ds ++ rest) idx nf true (array.set (idx - 1) (some (nf % 256)))
        = fillRelaysGroupLoop rest idx (ds.foldl (fun acc c => 10 * acc + (c.toNat - 48)) nf)
            true (array.set (idx - 1)
              (some (ds.foldl (fun acc c => 10 * acc + (c.toNat - 48)) nf % 256))) := by
  intro ds
  induction ds with
  | nil => intro nf array _ _ _; rfl
  | cons c cs ih =>
    intro nf array h2 hds hb
    simp only [List.foldl_cons] at hb ⊢
    have hle := foldl_digits_le cs (10 * nf + (c.toNat - 48))
    rw [List.cons_append, fillRelaysGroupLoop_digit c (hds c (List.mem_cons_self _ _)) _ idx nf
      _ h1 (by simpa using h2) (by omega), List.set_set]
    exact ih _ array h2 (fun c hc => hds c (List.mem_cons_of_mem _ hc)) hb

/-- The first digit of a number read by `_fillRelaysGroup`. -/
theorem fillRelaysGroupLoop_first (c : Char) (hc : isdigit c = true) (cs : List Char)
    (idx nf : Nat) (array : List (Option Nat)) (h1 : idx < 255) (h2 : idx < array.length) :
    fillRelaysGroupLoop (c :: cs) idx nf false array
      = fillRelaysGroupLoop cs (idx + 1) (c.toNat - 48) true
          (array.set idx (some ((c.toNat - 48) % 256))) := by
  obtain ⟨_, hcomma, h48⟩ := isdigit_char c hc
  have hc2 : c.toNat ≤ 57 := by
    simp only [isdigit, Bool.and_eq_true, decide_eq_true_eq] at hc
    exact hc.2
  have hnum : ((10 * ((0 : Nat) : Int) + digitValue c) % 2 ^ 32).toNat = c.toNat - 48 := by
    unfold digitValue
    omega
  have hmod : (idx + 1) % 256 = idx + 1 := by omega
  simp only [fillRelaysGroupLoop, hcomma, if_false, Bool.not_false, if_true, hnum, hmod,
    Nat.add_sub_cancel]
  rw [if_pos ⟨by omega, h2⟩]

/-- A number read by `_fillRelaysGroup` from its first digit: it is stored in
the next cell. -/
theorem fillRelaysGroupLoop_number (ds : List Char) (hne : ds ≠ [])
    (hds : ∀ c ∈ ds, isdigit c = true) (hv : decVal ds < 2 ^ 32) (rest : List Char)
    (idx nf : Nat) (array : List (Option Nat)) (h1 : idx < 255) (h2 : idx < array.length) :
    fillRelaysGroupLoop (ds ++ rest) idx nf false array
      = fillRelaysGroupLoop rest (idx + 1) (decVal ds) true
          (array.set idx (some (decVal ds % 256))) := by
  cases ds with
  | nil => exact absurd rfl hne
  | cons c cs =>
    have h0 : decVal (c :: cs)
        = cs.foldl (fun acc c => 10 * acc + (c.toNat - 48)) (c.toNat - 48) := by
      simp [decVal]
    rw [h0] at hv ⊢
    rw [List.cons_append, fillRelaysGroupLoop_first c (hds c (List.mem_cons_self _ _)) _ idx nf
      array h1 h2]
    have h := fillRelaysGroupLoop_digits rest (idx + 1) (by omega) cs (c.toNat - 48) array
      (by simpa using h2) (fun c hc => hds c (List.mem_cons_of_mem _ hc)) hv
    simpa using h

theorem set_length_append_replicate (pre : List (Option Nat)) (m : Nat) (x : Option Nat) :
    (pre ++ List.replicate (m + 1) none).set pre.length x
      = (pre ++ [x]) ++ List.replicate m none := by
  induction pre with
  | nil => simp [List.replicate_succ]
  | cons a t ih => simpa using ih

/-- The numbers of a comma-separated list read by `_fillRelaysGroup` into a
block whose first cells `pre` are written and whose other `m` cells are not:
each number goes to the next cell, in the order written, and no store is
outside the block. -/
theorem fillRelaysGroupLoop_group :
    ∀ (ns : List (List Char)), ns ≠ [] →
      (∀ d ∈ ns, d ≠ [] ∧ (∀ c ∈ d, isdigit c = true) ∧ decVal d < 2 ^ 32) →
      ∀ (pre : List (Option Nat)) (m nf : Nat), ns.length ≤ m → pre.length + ns.length ≤ 255 →
        fillRelaysGroupLoop (commaSeparated ns) pre.length nf false
            (pre ++ List.replicate m none)
          = some (pre ++ ns.map (fun d => some (decVal d % 256))
              ++ List.replicate (m - ns.length) none) := by
  intro ns
  induction ns with
  | nil => intro h; exact absurd rfl h
  | cons d ds ih =>
    intro _ hns pre m nf hm hlen
    obtain ⟨hd1, hd2, hd3⟩ := hns d (List.mem_cons_self _ _)
    simp only [List.length_cons] at hm hlen
    obtain ⟨m', rfl⟩ : ∃ m', m = m' + 1 := ⟨m - 1, by omega⟩
    cases ds with
    | nil =>
      have h := fillRelaysGroupLoop_number d hd1 hd2 hd3 [] pre.length nf
        (pre ++ List.replicate (m' + 1) none) (by omega) (by simp)
      rw [List.append_nil] at h
      simp only [commaSeparated, h, fillRelaysGroupLoop, set_length_append_replicate]
      simp
    | cons e es =>
      simp only [commaSeparated]
      rw [fillRelaysGroupLoop_number d hd1 hd2 hd3 _ pre.length nf
        (pre ++ List.replicate (m' + 1) none) (by omega) (by simp),
        fillRelaysGroupLoop_comma, set_length_append_replicate]
      have h := ih (List.cons_ne_nil _ _) (fun x hx => hns x (List.mem_cons_of_mem _ hx))
        (pre ++ [some (decVal d % 256)]) m' (decVal d)
        (by simp only [List.length_cons] at hm ⊢; omega)
        (by simp only [List.length_cons, List.length_append, List.length_nil] at hlen ⊢
            omega)
      simp only [List.length_append, List.length_singleton] at h
      rw [h]
      simp

/-- C21: let `ns` be `k` non-empty strings of decimal digits, each denoting a
number in 1..120, with `2 <= k <= 255`. On the argument that lists them
separated by commas, from the initial variables, `relayModality` returns
`_groupRelays` and leaves `_numOfRelays = k`; `_fillRelaysGroup` on the block
of `k` cells allocated for that count stores the numbers in the cells
0, ..., k-1 in the order written, with no store outside the block (every cell
is written); so the `-relay` branch goes on with `_numOfRelays = k` and
`_relays = [n1, ..., nk]`, and `parseArgs` continues with the next option. -/
theorem C21_group_selection (ns : List (List Char))
    (hns : ∀ d ∈ ns, d ≠ [] ∧ (∀ c ∈ d, isdigit c = true) ∧ 1 ≤ decVal d ∧ decVal d ≤ 120)
    (hk : 2 ≤ ns.length) (hk2 : ns.length ≤ 255) :
    (relayModality (commaSeparated ns) {}).1 = _groupRelays ∧
    (relayModality (commaSeparated ns) {}).2._numOfRelays = ns.length ∧
    _fillRelaysGroup (commaSeparated ns) (List.replicate ns.length none)
      = some (ns.map (fun d => some (decVal d))) ∧
    ∃ g, relayCase (commaSeparated ns) {} = some (none, g) ∧
      g._numOfRelays = ns.length ∧
      g._relays = ns.map (fun d => some (decVal d)) ∧
      ∀ (prog : List Char) (rest : List (List Char)),
        parseArgs (prog :: ARG_RELAY_NUM :: commaSeparated ns :: rest) {}
          = parseLoop rest 3 g := by
  have hne : ns ≠ [] := by
    intro h
    rw [h] at hk
    simp at hk
  have hns2 : ∀ d ∈ ns, d ≠ [] ∧ (∀ c ∈ d, isdigit c = true) ∧ decVal d < 2 ^ 32 :=
    fun d hd => ⟨(hns d hd).1, (hns d hd).2.1, by
      have := (hns d hd).2.2.2
      omega⟩
  obtain ⟨hcount, hret⟩ := relayModalityLoop_group ns hne hns2 _singleRelay 0 {} rfl
    (by show 0 + ns.length ≤ 255; omega)
  have hcount2 : (relayModality (commaSeparated ns) {}).2._numOfRelays = ns.length := by
    unfold relayModality
    rw [hcount]
    show 0 + ns.length = ns.length
    omega
  have hret2 : (relayModality (commaSeparated ns) {}).1 = _groupRelays := by
    unfold relayModality
    rw [hret, if_neg (by omega)]
    rfl
  have hmap : ns.map (fun d => some (decVal d % 256)) = ns.map (fun d => some (decVal d)) := by
    apply List.map_congr_left
    intro d hd
    have := (hns d hd).2.2.2
    have h : decVal d % 256 = decVal d := by omega
    rw [h]
  have hfill : _fillRelaysGroup (commaSeparated ns) (List.replicate ns.length none)
      = some (ns.map (fun d => some (decVal d))) := by
    have h := fillRelaysGroupLoop_group ns hne hns2 [] ns.length 0 (Nat.le_refl _)
      (by simpa using hk2)
    simp only [List.nil_append, List.length_nil, Nat.sub_self, List.replicate_zero,
      List.append_nil] at h
    unfold _fillRelaysGroup
    rw [h, hmap]
  refine ⟨hret2, hcount2, hfill, ?_⟩
  have hrc : relayCase (commaSeparated ns) {} = some (none,
      { (relayModality (commaSeparated ns) {}).2 with
        _relays := ns.map (fun d => some (decVal d)) }) := by
    simp [relayCase, hret2, hcount2, hfill, _groupRelays, _errorRelay, _singleRelay,
      _rangeRelays]
  refine ⟨_, hrc, hcount2, rfl, ?_⟩
  intro prog rest
  simp [parseArgs, parseLoop, hrc]

/-- Witness for C21 on `2,7,11`. -/
theorem C21_group_selection_witness :
    commaSeparated ["2".toList, "7".toList, "11".toList] = "2,7,11".toList ∧
    (relayModality (commaSeparated ["2".toList, "7".toList, "11".toList]) {}).1
      = _groupRelays ∧
    (relayModality (commaSeparated ["2".toList, "7".toList, "11".toList]) {}).2._numOfRelays
      = ["2".toList, "7".toList, "11".toList].length ∧
    _fillRelaysGroup (commaSeparated ["2".toList, "7".toList, "11".toList])
        (List.replicate ["2".toList, "7".toList, "11".toList].length none)
      = some (["2".toList, "7".toList, "11".toList].map (fun d => some (decVal d))) ∧
    ∃ g, relayCase (commaSeparated ["2".toList, "7".toList, "11".toList]) {} = some (none, g) ∧
      g._numOfRelays = ["2".toList, "7".toList, "11".toList].length ∧
      g._relays = ["2".toList, "7".toList, "11".toList].map (fun d => some (decVal d)) ∧
      ∀ (prog : List Char) (rest : List (List Char)),
        parseArgs (prog :: ARG_RELAY_NUM ::
            commaSeparated ["2".toList, "7".toList, "11".toList] :: rest) {}
          = parseLoop rest 3 g :=
  ⟨(by decide),
    C21_group_selection ["2".toList, "7".toList, "11".toList] (by decide) (by decide)
      (by decide)⟩

end RelayManager
